import Mathlib

/-!
Puma motor driver: configuration ladder, telemetry cache and frame dispatch

A shallow embedding of `puma_motor_driver/src/driver.cpp`.

* Unsigned machine integers are natural numbers; the bitwise operators of the
  source are the bitwise operators on `Nat`.
* A `Field *` is a `FieldRef`: the table it points into and the index in it.
  A pointer that the source leaves unassigned is `none`.
* Operations that queue frames on the CAN interface return the frames queued,
  in order, next to the new driver state.
* Gains are IEEE doubles in the source.  Every finite double is a rational and
  the product with `1 << 16` is exact, so a gain is carried as a rational; the
  conversion to `int32_t` is undefined outside the 32-bit range and is `none`
  there.
* Logging calls are dropped; their arguments are kept where evaluating them can
  be undefined (`getP`, `getI`, `getD`).
* The constants of `can_proto.hpp` and of the generated `PumaStatus` message
  are not part of the sources; they are the fields of `Proto`, and every
  definition takes them as a parameter.
-/

namespace puma_motor_driver

/-- Constants the driver uses from headers outside the sources: the CAN
identifier masks, the API class codes, the API codes of the individual
messages, the encoder reference codes and the control-mode codes. -/
structure Proto where
  CAN_MSGID_FULL_M : Nat
  CAN_MSGID_DEVNO_M : Nat
  CAN_MSGID_API_M : Nat
  CAN_MSGID_API_ID_M : Nat
  CAN_MSGID_API_S : Nat
  CAN_API_MC_CFG : Nat
  CAN_API_MC_STATUS : Nat
  CAN_API_MC_ICTRL : Nat
  CAN_API_MC_POS : Nat
  CAN_API_MC_VCOMP : Nat
  CAN_API_MC_SPD : Nat
  CAN_API_MC_VOLTAGE : Nat
  LM_API_VOLT_EN : Nat
  LM_API_VOLT_SET : Nat
  LM_API_SPD_EN : Nat
  LM_API_SPD_SET : Nat
  LM_API_SPD_PC : Nat
  LM_API_SPD_IC : Nat
  LM_API_SPD_DC : Nat
  LM_API_SPD_REF : Nat
  LM_API_POS_EN : Nat
  LM_API_POS_SET : Nat
  LM_API_POS_PC : Nat
  LM_API_POS_IC : Nat
  LM_API_POS_DC : Nat
  LM_API_POS_REF : Nat
  LM_API_ICTRL_EN : Nat
  LM_API_ICTRL_SET : Nat
  LM_API_ICTRL_PC : Nat
  LM_API_ICTRL_IC : Nat
  LM_API_ICTRL_DC : Nat
  LM_API_STATUS_VOLTOUT : Nat
  LM_API_STATUS_VOLTBUS : Nat
  LM_API_STATUS_CURRENT : Nat
  LM_API_STATUS_TEMP : Nat
  LM_API_STATUS_POS : Nat
  LM_API_STATUS_SPD : Nat
  LM_API_STATUS_FAULT : Nat
  LM_API_STATUS_POWER : Nat
  LM_API_STATUS_CMODE : Nat
  LM_API_STATUS_VOUT : Nat
  CPR_API_STATUS_ANALOG : Nat
  LM_API_CFG_ENC_LINES : Nat
  LM_REF_ENCODER : Nat
  LM_REF_QUAD_ENCODER : Nat
  MODE_VOLTAGE : Nat
  MODE_CURRENT : Nat
  MODE_SPEED : Nat
  MODE_POSITION : Nat

/-- One admissible choice of the constants, laid out as in the Stellaris CAN
protocol the controller speaks (device number in bits 0..5, API index in bits
6..9, API class in bits 10..15, manufacturer and device type above), with the
control modes numbered as the controller reports them.  It is used to exhibit
concrete runs; the general theorems hold for every choice. -/
def lmProto : Proto where
  CAN_MSGID_FULL_M := 0x1fffffff
  CAN_MSGID_DEVNO_M := 0x0000003f
  CAN_MSGID_API_M := 0x0000ffc0
  CAN_MSGID_API_ID_M := 0x000003c0
  CAN_MSGID_API_S := 6
  CAN_API_MC_CFG := 0x00001c00
  CAN_API_MC_STATUS := 0x00001400
  CAN_API_MC_ICTRL := 0x00001000
  CAN_API_MC_POS := 0x00000c00
  CAN_API_MC_VCOMP := 0x00000800
  CAN_API_MC_SPD := 0x00000400
  CAN_API_MC_VOLTAGE := 0x00000000
  LM_API_VOLT_EN := 0x02020000
  LM_API_VOLT_SET := 0x02020080
  LM_API_SPD_EN := 0x02020400
  LM_API_SPD_SET := 0x02020480
  LM_API_SPD_PC := 0x020204c0
  LM_API_SPD_IC := 0x02020500
  LM_API_SPD_DC := 0x02020540
  LM_API_SPD_REF := 0x02020580
  LM_API_POS_EN := 0x02020c00
  LM_API_POS_SET := 0x02020c80
  LM_API_POS_PC := 0x02020cc0
  LM_API_POS_IC := 0x02020d00
  LM_API_POS_DC := 0x02020d40
  LM_API_POS_REF := 0x02020d80
  LM_API_ICTRL_EN := 0x02021000
  LM_API_ICTRL_SET := 0x02021080
  LM_API_ICTRL_PC := 0x020210c0
  LM_API_ICTRL_IC := 0x02021100
  LM_API_ICTRL_DC := 0x02021140
  LM_API_STATUS_VOLTOUT := 0x02021400
  LM_API_STATUS_VOLTBUS := 0x02021440
  LM_API_STATUS_CURRENT := 0x02021480
  LM_API_STATUS_TEMP := 0x020214c0
  LM_API_STATUS_POS := 0x02021500
  LM_API_STATUS_SPD := 0x02021540
  LM_API_STATUS_FAULT := 0x020215c0
  LM_API_STATUS_POWER := 0x02021600
  LM_API_STATUS_CMODE := 0x02021640
  LM_API_STATUS_VOUT := 0x02021680
  CPR_API_STATUS_ANALOG := 0x020216c0
  LM_API_CFG_ENC_LINES := 0x02021c40
  LM_REF_ENCODER := 0
  LM_REF_QUAD_ENCODER := 3
  MODE_VOLTAGE := 0
  MODE_CURRENT := 1
  MODE_SPEED := 2
  MODE_POSITION := 3

/-- The case labels of a `switch` over the control mode are pairwise distinct
(the source has a `switch` with all four labels, in `requestFeedbackSetpoint`). -/
def Proto.ModesDistinct (K : Proto) : Prop :=
  K.MODE_VOLTAGE ≠ K.MODE_CURRENT ∧ K.MODE_VOLTAGE ≠ K.MODE_POSITION ∧
  K.MODE_VOLTAGE ≠ K.MODE_SPEED ∧ K.MODE_CURRENT ≠ K.MODE_POSITION ∧
  K.MODE_CURRENT ≠ K.MODE_SPEED ∧ K.MODE_POSITION ≠ K.MODE_SPEED

instance (K : Proto) : Decidable K.ModesDistinct := by
  unfold Proto.ModesDistinct; infer_instance

/-- The configuration ladder states of `ConfigurationStates::ConfigurationState`. -/
inductive ConfigurationState where
  | Unknown
  | Initializing
  | PowerFlag
  | EncoderPosRef
  | EncoderSpdRef
  | EncoderCounts
  | ClosedLoop
  | ControlMode
  | PGain
  | IGain
  | DGain
  | VerifiedParameters
  | Configured
  deriving DecidableEq, Repr

/-- The integer value of an enumerator (`Unknown = -1`, then counting up). -/
def ConfigurationState.toInt : ConfigurationState → Int
  | .Unknown => -1
  | .Initializing => 0
  | .PowerFlag => 1
  | .EncoderPosRef => 2
  | .EncoderSpdRef => 3
  | .EncoderCounts => 4
  | .ClosedLoop => 5
  | .ControlMode => 6
  | .PGain => 7
  | .IGain => 8
  | .DGain => 9
  | .VerifiedParameters => 10
  | .Configured => 11

/-- A CAN frame (`can_msgs::msg::Frame` without its header). -/
structure Frame where
  id : Nat
  is_rtr : Bool
  is_extended : Bool
  is_error : Bool
  dlc : Nat
  data : List Nat
  deriving DecidableEq, Repr

/-- A field slot: the raw payload of the last frame and the freshness flag. -/
structure Field where
  data : List Nat
  received : Bool
  deriving DecidableEq, Repr

/-- The seven tables a `Field *` can point into. -/
inductive Table where
  | voltage
  | spd
  | vcomp
  | pos
  | ictrl
  | status
  | cfg
  deriving DecidableEq, Repr

/-- A `Field *`: a table and an index into it. -/
structure FieldRef where
  table : Table
  index : Nat
  deriving DecidableEq, Repr

/-- Modelled from the spec: the declaration of the seven field tables is in
`driver.hpp`, which is not part of the sources, so their lengths are unknown.
Each table is a total map from the sub-message index to a field slot. -/
structure Cache where
  voltage_fields_ : Nat → Field
  spd_fields_ : Nat → Field
  vcomp_fields_ : Nat → Field
  pos_fields_ : Nat → Field
  ictrl_fields_ : Nat → Field
  status_fields_ : Nat → Field
  cfg_fields_ : Nat → Field

/-- The table of the cache a reference points into. -/
def Cache.table (c : Cache) : Table → Nat → Field
  | .voltage => c.voltage_fields_
  | .spd => c.spd_fields_
  | .vcomp => c.vcomp_fields_
  | .pos => c.pos_fields_
  | .ictrl => c.ictrl_fields_
  | .status => c.status_fields_
  | .cfg => c.cfg_fields_

/-- Reading through a `Field *`. -/
def Cache.get (c : Cache) (r : FieldRef) : Field :=
  c.table r.table r.index

/-- Overwriting one entry of a table. -/
def setSlot (t : Nat → Field) (i : Nat) (f : Field) : Nat → Field :=
  fun j => if j = i then f else t j

/-- Writing through a `Field *`. -/
def Cache.set (c : Cache) (r : FieldRef) (f : Field) : Cache :=
  match r.table with
  | .voltage => { c with voltage_fields_ := setSlot c.voltage_fields_ r.index f }
  | .spd => { c with spd_fields_ := setSlot c.spd_fields_ r.index f }
  | .vcomp => { c with vcomp_fields_ := setSlot c.vcomp_fields_ r.index f }
  | .pos => { c with pos_fields_ := setSlot c.pos_fields_ r.index f }
  | .ictrl => { c with ictrl_fields_ := setSlot c.ictrl_fields_ r.index f }
  | .status => { c with status_fields_ := setSlot c.status_fields_ r.index f }
  | .cfg => { c with cfg_fields_ := setSlot c.cfg_fields_ r.index f }

/-- A zeroed field slot. -/
def Field.zero : Field := { data := [0, 0, 0, 0, 0, 0, 0, 0], received := false }

/-- The cache after `clearMsgCache`: every byte zero, every flag false. -/
def Cache.zero : Cache where
  voltage_fields_ := fun _ => Field.zero
  spd_fields_ := fun _ => Field.zero
  vcomp_fields_ := fun _ => Field.zero
  pos_fields_ := fun _ => Field.zero
  ictrl_fields_ := fun _ => Field.zero
  status_fields_ := fun _ => Field.zero
  cfg_fields_ := fun _ => Field.zero

/-- The mutable members of `Driver` together with its device number. -/
structure Driver where
  device_number_ : Nat
  configured_ : Bool
  state_ : ConfigurationState
  control_mode_ : Nat
  gain_p_ : ℚ
  gain_i_ : ℚ
  gain_d_ : ℚ
  encoder_cpr_ : Nat
  gear_ratio_ : ℚ
  cache : Cache

/-- The constructor `Driver::Driver`.  It does not touch the field tables, so
their initial content is an argument. -/
def Driver.new (K : Proto) (device_number : Nat) (cache : Cache) : Driver where
  device_number_ := device_number
  configured_ := false
  state_ := .Initializing
  control_mode_ := K.MODE_SPEED
  gain_p_ := 1
  gain_i_ := 0
  gain_d_ := 0
  encoder_cpr_ := 1
  gear_ratio_ := 1
  cache := cache

/-- Source `Driver::clearMsgCache`. -/
def clearMsgCache (d : Driver) : Driver :=
  { d with cache := Cache.zero }

/-! ## Frames and identifiers -/

/-- Source `Driver::getMsg`: an extended frame with the given identifier, no payload
and zeroed data bytes (the time stamp of the header is not modelled). -/
def getMsg (id : Nat) : Frame where
  id := id
  is_rtr := false
  is_extended := true
  is_error := false
  dlc := 0
  data := [0, 0, 0, 0, 0, 0, 0, 0]

/-- Source `Driver::getApi`. -/
def getApi (K : Proto) (msg : Frame) : Nat :=
  msg.id &&& (K.CAN_MSGID_FULL_M ^^^ K.CAN_MSGID_DEVNO_M)

/-- Source `Driver::getDeviceNumber`. -/
def getDeviceNumber (K : Proto) (msg : Frame) : Nat :=
  msg.id &&& K.CAN_MSGID_DEVNO_M

/-- Source `Driver::voltageFieldForMessage`. -/
def voltageFieldForMessage (K : Proto) (api : Nat) : FieldRef :=
  { table := .voltage, index := (api &&& K.CAN_MSGID_API_ID_M) >>> K.CAN_MSGID_API_S }

/-- Source `Driver::spdFieldForMessage`. -/
def spdFieldForMessage (K : Proto) (api : Nat) : FieldRef :=
  { table := .spd, index := (api &&& K.CAN_MSGID_API_ID_M) >>> K.CAN_MSGID_API_S }

/-- Source `Driver::vcompFieldForMessage`. -/
def vcompFieldForMessage (K : Proto) (api : Nat) : FieldRef :=
  { table := .vcomp, index := (api &&& K.CAN_MSGID_API_ID_M) >>> K.CAN_MSGID_API_S }

/-- Source `Driver::posFieldForMessage`. -/
def posFieldForMessage (K : Proto) (api : Nat) : FieldRef :=
  { table := .pos, index := (api &&& K.CAN_MSGID_API_ID_M) >>> K.CAN_MSGID_API_S }

/-- Source `Driver::ictrlFieldForMessage`. -/
def ictrlFieldForMessage (K : Proto) (api : Nat) : FieldRef :=
  { table := .ictrl, index := (api &&& K.CAN_MSGID_API_ID_M) >>> K.CAN_MSGID_API_S }

/-- Source `Driver::statusFieldForMessage`. -/
def statusFieldForMessage (K : Proto) (api : Nat) : FieldRef :=
  { table := .status, index := (api &&& K.CAN_MSGID_API_ID_M) >>> K.CAN_MSGID_API_S }

/-- Source `Driver::cfgFieldForMessage`. -/
def cfgFieldForMessage (K : Proto) (api : Nat) : FieldRef :=
  { table := .cfg, index := (api &&& K.CAN_MSGID_API_ID_M) >>> K.CAN_MSGID_API_S }

/-- Call `std::copy(begin(src), end(src), begin(dst))`: the leading bytes of `dst`
are overwritten by all of `src`. -/
def stdCopy (src dst : List Nat) : List Nat :=
  src ++ dst.drop src.length

/-- The chain of mask tests of `Driver::processMessage` that selects the field
pointer; `none` is the null pointer. -/
def processMessageField (K : Proto) (received_api : Nat) : Option FieldRef :=
  if (received_api &&& K.CAN_MSGID_API_M &&& K.CAN_API_MC_CFG) = K.CAN_API_MC_CFG then
    some (cfgFieldForMessage K received_api)
  else if (received_api &&& K.CAN_MSGID_API_M &&& K.CAN_API_MC_STATUS) = K.CAN_API_MC_STATUS then
    some (statusFieldForMessage K received_api)
  else if (received_api &&& K.CAN_MSGID_API_M &&& K.CAN_API_MC_ICTRL) = K.CAN_API_MC_ICTRL then
    some (ictrlFieldForMessage K received_api)
  else if (received_api &&& K.CAN_MSGID_API_M &&& K.CAN_API_MC_POS) = K.CAN_API_MC_POS then
    some (posFieldForMessage K received_api)
  else if (received_api &&& K.CAN_MSGID_API_M &&& K.CAN_API_MC_VCOMP) = K.CAN_API_MC_VCOMP then
    some (vcompFieldForMessage K received_api)
  else if (received_api &&& K.CAN_MSGID_API_M &&& K.CAN_API_MC_SPD) = K.CAN_API_MC_SPD then
    some (spdFieldForMessage K received_api)
  else if (received_api &&& K.CAN_MSGID_API_M &&& K.CAN_API_MC_VOLTAGE) = K.CAN_API_MC_VOLTAGE then
    some (voltageFieldForMessage K received_api)
  else
    none

/-- Source `Driver::processMessage`. -/
def processMessage (K : Proto) (d : Driver) (received_msg : Frame) : Driver :=
  if getDeviceNumber K received_msg ≠ d.device_number_ then d
  else if received_msg.dlc = 0 then d
  else
    match processMessageField K (getApi K received_msg) with
    | none => d
    | some r =>
      let slot : Field :=
        { data := stdCopy received_msg.data (d.cache.get r).data, received := true }
      { d with cache := d.cache.set r slot }

/-! ## Outbound frames -/

/-- Source `Driver::sendId`. -/
def sendId (id : Nat) : List Frame :=
  [getMsg id]

/-- Source `Driver::sendUint8`. -/
def sendUint8 (id : Nat) (value : Nat) : List Frame :=
  [{ getMsg id with dlc := 1, data := [value % 256, 0, 0, 0, 0, 0, 0, 0] }]

/-- Source `Driver::sendUint16` (the two bytes of the value in little-endian order). -/
def sendUint16 (id : Nat) (value : Nat) : List Frame :=
  [{ getMsg id with dlc := 2, data := [value % 256, value / 256 % 256, 0, 0, 0, 0, 0, 0] }]

/-- The conversion `static_cast<int32_t>(static_cast<double>((1 << 16) * value))`:
truncation toward zero of the exact product, undefined outside `int32_t`. -/
def toFixed16x16 (value : ℚ) : Option Int :=
  let t := Int.tdiv (((1 <<< 16 : Nat) : Int) * value.num) value.den
  if -2147483648 ≤ t ∧ t ≤ 2147483647 then some t else none

/-- The conversion `static_cast<int16_t>(static_cast<float>(1 << 8) * value)`:
truncation toward zero of the exact product, undefined outside `int16_t`. -/
def toFixed8x8 (value : ℚ) : Option Int :=
  let t := Int.tdiv (((1 <<< 8 : Nat) : Int) * value.num) value.den
  if -32768 ≤ t ∧ t ≤ 32767 then some t else none

/-- The four bytes `memcpy` reads from an `int32_t` (two's complement,
little-endian). -/
def int32Bytes (v : Int) : List Nat :=
  let u := (v % 4294967296).toNat
  [u % 256, u / 256 % 256, u / 65536 % 256, u / 16777216 % 256]

/-- The two bytes `memcpy` reads from an `int16_t` (two's complement,
little-endian). -/
def int16Bytes (v : Int) : List Nat :=
  let u := (v % 65536).toNat
  [u % 256, u / 256 % 256]

/-- Source `Driver::sendFixed8x8`. -/
def sendFixed8x8 (id : Nat) (value : ℚ) : Option (List Frame) :=
  (toFixed8x8 value).map fun output_value =>
    [{ getMsg id with dlc := 2, data := int16Bytes output_value ++ [0, 0, 0, 0, 0, 0] }]

/-- Source `Driver::sendFixed16x16`. -/
def sendFixed16x16 (id : Nat) (value : ℚ) : Option (List Frame) :=
  (toFixed16x16 value).map fun output_value =>
    [{ getMsg id with dlc := 4, data := int32Bytes output_value ++ [0, 0, 0, 0] }]

/-- Source `Driver::verifyRaw16x16`: the loop compares `received[0..3]` with the bytes
of the converted expected value and stops at the first difference. -/
def verifyRaw16x16 (received : List Nat) (expected : ℚ) : Option Bool :=
  (toFixed16x16 expected).map fun output_value =>
    (List.range 4).all fun i => received.getD i 0 == (int32Bytes output_value).getD i 0

/-- Source `Driver::setEncoderCPR`. -/
def setEncoderCPR (d : Driver) (encoder_cpr : Nat) : Driver :=
  { d with encoder_cpr_ := encoder_cpr }

/-- Source `Driver::setGearRatio`. -/
def setGearRatio (d : Driver) (gear_ratio : ℚ) : Driver :=
  { d with gear_ratio_ := gear_ratio }

/-- Source `Driver::commandDutyCycle`. -/
def commandDutyCycle (K : Proto) (d : Driver) (cmd : ℚ) : Option (List Frame) :=
  sendFixed8x8 (K.LM_API_VOLT_SET ||| d.device_number_) cmd

/-! ## Telemetry accessors -/

/-- Modelled from the spec: `Field::interpretFixed8x8` is declared in
`driver.hpp`, which is not part of the sources.  Format A decode: the first two
bytes as a little-endian signed 16-bit integer, divided by 256. -/
def Field.interpretFixed8x8 (f : Field) : ℚ :=
  let u : Nat := f.data.getD 0 0 % 256 + 256 * (f.data.getD 1 0 % 256)
  let raw : Int := if u < 32768 then (u : Int) else (u : Int) - 65536
  Rat.divInt raw 256

/-- Modelled from the spec: `Field::interpretFixed16x16` is declared in
`driver.hpp`, which is not part of the sources.  Format B decode: the first
four bytes as a little-endian signed 32-bit integer, divided by 65536. -/
def Field.interpretFixed16x16 (f : Field) : ℚ :=
  let u : Nat := f.data.getD 0 0 % 256 + 256 * (f.data.getD 1 0 % 256)
    + 65536 * (f.data.getD 2 0 % 256) + 16777216 * (f.data.getD 3 0 % 256)
  let raw : Int := if u < 2147483648 then (u : Int) else (u : Int) - 4294967296
  Rat.divInt raw 65536

/-- The assignment `field->received = false`. -/
def clearReceived (d : Driver) (r : FieldRef) : Driver :=
  { d with cache := d.cache.set r { d.cache.get r with received := false } }

/-- Source `Driver::receivedDutyCycle`. -/
def receivedDutyCycle (K : Proto) (d : Driver) : Bool :=
  (d.cache.get (statusFieldForMessage K (getApi K (getMsg K.LM_API_STATUS_VOLTOUT)))).received

/-- Source `Driver::receivedBusVoltage`. -/
def receivedBusVoltage (K : Proto) (d : Driver) : Bool :=
  (d.cache.get (statusFieldForMessage K (getApi K (getMsg K.LM_API_STATUS_VOLTBUS)))).received

/-- Source `Driver::receivedCurrent`. -/
def receivedCurrent (K : Proto) (d : Driver) : Bool :=
  (d.cache.get (statusFieldForMessage K (getApi K (getMsg K.LM_API_STATUS_CURRENT)))).received

/-- Source `Driver::receivedPosition`. -/
def receivedPosition (K : Proto) (d : Driver) : Bool :=
  (d.cache.get (statusFieldForMessage K (getApi K (getMsg K.LM_API_STATUS_POS)))).received

/-- Source `Driver::receivedSpeed`. -/
def receivedSpeed (K : Proto) (d : Driver) : Bool :=
  (d.cache.get (statusFieldForMessage K (getApi K (getMsg K.LM_API_STATUS_SPD)))).received

/-- Source `Driver::receivedFault`. -/
def receivedFault (K : Proto) (d : Driver) : Bool :=
  (d.cache.get (statusFieldForMessage K (getApi K (getMsg K.LM_API_STATUS_FAULT)))).received

/-- Source `Driver::receivedPower`. -/
def receivedPower (K : Proto) (d : Driver) : Bool :=
  (d.cache.get (statusFieldForMessage K (getApi K (getMsg K.LM_API_STATUS_POWER)))).received

/-- Source `Driver::receivedMode`. -/
def receivedMode (K : Proto) (d : Driver) : Bool :=
  (d.cache.get (statusFieldForMessage K (getApi K (getMsg K.LM_API_STATUS_CMODE)))).received

/-- Source `Driver::receivedOutVoltage`. -/
def receivedOutVoltage (K : Proto) (d : Driver) : Bool :=
  (d.cache.get (statusFieldForMessage K (getApi K (getMsg K.LM_API_STATUS_VOUT)))).received

/-- Source `Driver::receivedTemperature`. -/
def receivedTemperature (K : Proto) (d : Driver) : Bool :=
  (d.cache.get (statusFieldForMessage K (getApi K (getMsg K.LM_API_STATUS_TEMP)))).received

/-- Source `Driver::receivedAnalogInput`. -/
def receivedAnalogInput (K : Proto) (d : Driver) : Bool :=
  (d.cache.get (statusFieldForMessage K (getApi K (getMsg K.CPR_API_STATUS_ANALOG)))).received

/-- Source `Driver::receivedSpeedSetpoint`. -/
def receivedSpeedSetpoint (K : Proto) (d : Driver) : Bool :=
  (d.cache.get (spdFieldForMessage K (getApi K (getMsg K.LM_API_SPD_SET)))).received

/-- Source `Driver::receivedDutyCycleSetpoint`. -/
def receivedDutyCycleSetpoint (K : Proto) (d : Driver) : Bool :=
  (d.cache.get (voltageFieldForMessage K (getApi K (getMsg K.LM_API_VOLT_SET)))).received

/-- Source `Driver::receivedCurrentSetpoint`. -/
def receivedCurrentSetpoint (K : Proto) (d : Driver) : Bool :=
  (d.cache.get (ictrlFieldForMessage K (getApi K (getMsg K.LM_API_ICTRL_SET)))).received

/-- Source `Driver::receivedPositionSetpoint`. -/
def receivedPositionSetpoint (K : Proto) (d : Driver) : Bool :=
  (d.cache.get (posFieldForMessage K (getApi K (getMsg K.LM_API_POS_SET)))).received

/-- Source `Driver::receivedSetpoint`. -/
def receivedSetpoint (K : Proto) (d : Driver) : Bool :=
  if d.control_mode_ = K.MODE_CURRENT then receivedCurrentSetpoint K d
  else if d.control_mode_ = K.MODE_POSITION then receivedPositionSetpoint K d
  else if d.control_mode_ = K.MODE_SPEED then receivedSpeedSetpoint K d
  else if d.control_mode_ = K.MODE_VOLTAGE then receivedDutyCycleSetpoint K d
  else false

/-- Source `Driver::lastDutyCycle`: the value returned and the driver after the call. -/
def lastDutyCycle (K : Proto) (d : Driver) : ℚ × Driver :=
  let r := statusFieldForMessage K (getApi K (getMsg K.LM_API_STATUS_VOLTOUT))
  let d1 := clearReceived d r
  ((d1.cache.get r).interpretFixed8x8 / 128, d1)

/-- Source `Driver::statusDutyCycleGet`: the value returned and the driver after the call. -/
def statusDutyCycleGet (K : Proto) (d : Driver) : ℚ × Driver :=
  let r := voltageFieldForMessage K (getApi K (getMsg K.LM_API_VOLT_SET))
  let d1 := clearReceived d r
  ((d1.cache.get r).interpretFixed8x8 / 128, d1)

/-- Source `Driver::lastBusVoltage`: the value returned and the driver after the call. -/
def lastBusVoltage (K : Proto) (d : Driver) : ℚ × Driver :=
  let r := statusFieldForMessage K (getApi K (getMsg K.LM_API_STATUS_VOLTBUS))
  let d1 := clearReceived d r
  ((d1.cache.get r).interpretFixed8x8, d1)

/-- Source `Driver::lastCurrent`: the value returned and the driver after the call. -/
def lastCurrent (K : Proto) (d : Driver) : ℚ × Driver :=
  let r := statusFieldForMessage K (getApi K (getMsg K.LM_API_STATUS_CURRENT))
  let d1 := clearReceived d r
  ((d1.cache.get r).interpretFixed8x8, d1)

/-- Source `Driver::lastOutVoltage`: the value returned and the driver after the call. -/
def lastOutVoltage (K : Proto) (d : Driver) : ℚ × Driver :=
  let r := statusFieldForMessage K (getApi K (getMsg K.LM_API_STATUS_VOUT))
  let d1 := clearReceived d r
  ((d1.cache.get r).interpretFixed8x8, d1)

/-- Source `Driver::lastTemperature`: the value returned and the driver after the call. -/
def lastTemperature (K : Proto) (d : Driver) : ℚ × Driver :=
  let r := statusFieldForMessage K (getApi K (getMsg K.LM_API_STATUS_TEMP))
  let d1 := clearReceived d r
  ((d1.cache.get r).interpretFixed8x8, d1)

/-- Source `Driver::lastAnalogInput`: the value returned and the driver after the call. -/
def lastAnalogInput (K : Proto) (d : Driver) : ℚ × Driver :=
  let r := statusFieldForMessage K (getApi K (getMsg K.CPR_API_STATUS_ANALOG))
  let d1 := clearReceived d r
  ((d1.cache.get r).interpretFixed8x8, d1)

/-- Source `Driver::statusCurrentGet`: the value returned and the driver after the call. -/
def statusCurrentGet (K : Proto) (d : Driver) : ℚ × Driver :=
  let r := ictrlFieldForMessage K (getApi K (getMsg K.LM_API_ICTRL_SET))
  let d1 := clearReceived d r
  ((d1.cache.get r).interpretFixed8x8, d1)

/-- Source `Driver::lastFault`: the value returned and the driver after the call. -/
def lastFault (K : Proto) (d : Driver) : Nat × Driver :=
  let r := statusFieldForMessage K (getApi K (getMsg K.LM_API_STATUS_FAULT))
  let d1 := clearReceived d r
  ((d1.cache.get r).data.getD 0 0, d1)

/-- Source `Driver::lastPower`: the value returned and the driver after the call. -/
def lastPower (K : Proto) (d : Driver) : Nat × Driver :=
  let r := statusFieldForMessage K (getApi K (getMsg K.LM_API_STATUS_POWER))
  let d1 := clearReceived d r
  ((d1.cache.get r).data.getD 0 0, d1)

/-- Source `Driver::lastMode`: the value returned and the driver after the call. -/
def lastMode (K : Proto) (d : Driver) : Nat × Driver :=
  let r := statusFieldForMessage K (getApi K (getMsg K.LM_API_STATUS_CMODE))
  let d1 := clearReceived d r
  ((d1.cache.get r).data.getD 0 0, d1)

/-- Source `Driver::lastPosition`: the driver after the call, and the decoded 16.16 value that
the source then multiplies, in floating point, by `2π / gear_ratio_`. -/
def lastPosition (K : Proto) (d : Driver) : ℚ × Driver :=
  let r := statusFieldForMessage K (getApi K (getMsg K.LM_API_STATUS_POS))
  let d1 := clearReceived d r
  ((d1.cache.get r).interpretFixed16x16, d1)

/-- Source `Driver::lastSpeed`: the driver after the call, and the decoded 16.16 value that
the source then multiplies, in floating point, by `2π / (gear_ratio_ * 60)`. -/
def lastSpeed (K : Proto) (d : Driver) : ℚ × Driver :=
  let r := statusFieldForMessage K (getApi K (getMsg K.LM_API_STATUS_SPD))
  let d1 := clearReceived d r
  ((d1.cache.get r).interpretFixed16x16, d1)

/-- Source `Driver::statusSpeedGet`: the driver after the call, and the decoded 16.16 value that
the source then multiplies, in floating point, by `2π / (gear_ratio_ * 60)`. -/
def statusSpeedGet (K : Proto) (d : Driver) : ℚ × Driver :=
  let r := spdFieldForMessage K (getApi K (getMsg K.LM_API_SPD_SET))
  let d1 := clearReceived d r
  ((d1.cache.get r).interpretFixed16x16, d1)

/-- Source `Driver::statusPositionGet`: the driver after the call, and the decoded 16.16 value that
the source then multiplies, in floating point, by `2π / gear_ratio_`. -/
def statusPositionGet (K : Proto) (d : Driver) : ℚ × Driver :=
  let r := posFieldForMessage K (getApi K (getMsg K.LM_API_POS_SET))
  let d1 := clearReceived d r
  ((d1.cache.get r).interpretFixed16x16, d1)

/-- Source `Driver::lastSetpoint`. -/
def lastSetpoint (K : Proto) (d : Driver) : ℚ × Driver :=
  if d.control_mode_ = K.MODE_CURRENT then statusCurrentGet K d
  else if d.control_mode_ = K.MODE_POSITION then statusPositionGet K d
  else if d.control_mode_ = K.MODE_SPEED then statusSpeedGet K d
  else if d.control_mode_ = K.MODE_VOLTAGE then statusDutyCycleGet K d
  else (0, d)

/-- Source `Driver::posEncoderRef`. -/
def posEncoderRef (K : Proto) (d : Driver) : Nat :=
  (d.cache.get (posFieldForMessage K (getApi K (getMsg K.LM_API_POS_REF)))).data.getD 0 0

/-- Source `Driver::spdEncoderRef`. -/
def spdEncoderRef (K : Proto) (d : Driver) : Nat :=
  (d.cache.get (spdFieldForMessage K (getApi K (getMsg K.LM_API_SPD_REF)))).data.getD 0 0

/-- Source `Driver::encoderCounts`. -/
def encoderCounts (K : Proto) (d : Driver) : Nat :=
  let f := d.cache.get (cfgFieldForMessage K (getApi K (getMsg K.LM_API_CFG_ENC_LINES)))
  ((f.data.getD 0 0 % 65536) ||| ((f.data.getD 1 0 <<< 8) % 65536)) % 65536

/-- The `switch` over the control mode in `getRawP` and `getP`; in any other
mode the pointer is left unassigned. -/
def gainFieldP (K : Proto) (d : Driver) : Option FieldRef :=
  if d.control_mode_ = K.MODE_CURRENT then
    some (ictrlFieldForMessage K (getApi K (getMsg K.LM_API_ICTRL_PC)))
  else if d.control_mode_ = K.MODE_POSITION then
    some (posFieldForMessage K (getApi K (getMsg K.LM_API_POS_PC)))
  else if d.control_mode_ = K.MODE_SPEED then
    some (spdFieldForMessage K (getApi K (getMsg K.LM_API_SPD_PC)))
  else
    none

/-- Source `Driver::getP`. -/
def getP (K : Proto) (d : Driver) : Option ℚ :=
  (gainFieldP K d).map fun r => (d.cache.get r).interpretFixed16x16

/-- Source `Driver::getRawP`. -/
def getRawP (K : Proto) (d : Driver) : Option (List Nat) :=
  (gainFieldP K d).map fun r => (d.cache.get r).data

/-- The `switch` over the control mode in `getRawI` and `getI`; in any other
mode the pointer is left unassigned. -/
def gainFieldI (K : Proto) (d : Driver) : Option FieldRef :=
  if d.control_mode_ = K.MODE_CURRENT then
    some (ictrlFieldForMessage K (getApi K (getMsg K.LM_API_ICTRL_IC)))
  else if d.control_mode_ = K.MODE_POSITION then
    some (posFieldForMessage K (getApi K (getMsg K.LM_API_POS_IC)))
  else if d.control_mode_ = K.MODE_SPEED then
    some (spdFieldForMessage K (getApi K (getMsg K.LM_API_SPD_IC)))
  else
    none

/-- Source `Driver::getI`. -/
def getI (K : Proto) (d : Driver) : Option ℚ :=
  (gainFieldI K d).map fun r => (d.cache.get r).interpretFixed16x16

/-- Source `Driver::getRawI`. -/
def getRawI (K : Proto) (d : Driver) : Option (List Nat) :=
  (gainFieldI K d).map fun r => (d.cache.get r).data

/-- The `switch` over the control mode in `getRawD` and `getD`; in any other
mode the pointer is left unassigned. -/
def gainFieldD (K : Proto) (d : Driver) : Option FieldRef :=
  if d.control_mode_ = K.MODE_CURRENT then
    some (ictrlFieldForMessage K (getApi K (getMsg K.LM_API_ICTRL_DC)))
  else if d.control_mode_ = K.MODE_POSITION then
    some (posFieldForMessage K (getApi K (getMsg K.LM_API_POS_DC)))
  else if d.control_mode_ = K.MODE_SPEED then
    some (spdFieldForMessage K (getApi K (getMsg K.LM_API_SPD_DC)))
  else
    none

/-- Source `Driver::getD`. -/
def getD (K : Proto) (d : Driver) : Option ℚ :=
  (gainFieldD K d).map fun r => (d.cache.get r).interpretFixed16x16

/-- Source `Driver::getRawD`. -/
def getRawD (K : Proto) (d : Driver) : Option (List Nat) :=
  (gainFieldD K d).map fun r => (d.cache.get r).data

/-! ## The configuration ladder -/

/-- The inner `switch` of the gain cases of `verifyParams`: the request frame
for the gain of the active control mode, nothing in any other mode. -/
def gainRequest (K : Proto) (d : Driver) (ictrl pos spd : Nat) : List Frame :=
  if d.control_mode_ = K.MODE_CURRENT then sendId (ictrl ||| d.device_number_)
  else if d.control_mode_ = K.MODE_POSITION then sendId (pos ||| d.device_number_)
  else if d.control_mode_ = K.MODE_SPEED then sendId (spd ||| d.device_number_)
  else []

/-- The `switch (state_)` of `Driver::verifyParams`: the driver after it and the
frames queued.  `none` is undefined behaviour (a gain read through an
unassigned pointer, or a gain outside the 16.16 range). -/
def verifyParamsSwitch (K : Proto) (d : Driver) : Option (Driver × List Frame) :=
  match d.state_ with
  | .Initializing => some ({ d with state_ := .PowerFlag }, [])
  | .PowerFlag =>
    let r := lastPower K d
    if r.1 = 0 then some ({ r.2 with state_ := .EncoderPosRef }, [])
    else some (r.2, sendId (K.LM_API_STATUS_POWER ||| d.device_number_))
  | .EncoderPosRef =>
    if posEncoderRef K d = K.LM_REF_ENCODER then some ({ d with state_ := .EncoderSpdRef }, [])
    else some (d, sendId (K.LM_API_POS_REF ||| d.device_number_))
  | .EncoderSpdRef =>
    if spdEncoderRef K d = K.LM_REF_QUAD_ENCODER then
      some ({ d with state_ := .EncoderCounts }, [])
    else some (d, sendId (K.LM_API_SPD_REF ||| d.device_number_))
  | .EncoderCounts =>
    if encoderCounts K d = d.encoder_cpr_ then some ({ d with state_ := .ClosedLoop }, [])
    else some (d, sendId (K.LM_API_CFG_ENC_LINES ||| d.device_number_))
  | .ClosedLoop =>
    let r := lastMode K d
    if r.1 = K.MODE_SPEED then some ({ r.2 with state_ := .ControlMode }, [])
    else some (r.2, sendId (K.LM_API_STATUS_CMODE ||| d.device_number_))
  | .ControlMode =>
    let r := lastMode K d
    if r.1 = d.control_mode_ then
      if d.control_mode_ ≠ K.MODE_VOLTAGE then some ({ r.2 with state_ := .PGain }, [])
      else some ({ r.2 with state_ := .VerifiedParameters }, [])
    else some (r.2, [])
  | .PGain =>
    (getRawP K d).bind fun raw => (verifyRaw16x16 raw d.gain_p_).bind fun ok =>
      (getP K d).map fun _ =>
        if ok then ({ d with state_ := .IGain }, [])
        else (d, gainRequest K d K.LM_API_ICTRL_PC K.LM_API_POS_PC K.LM_API_SPD_PC)
  | .IGain =>
    (getRawI K d).bind fun raw => (verifyRaw16x16 raw d.gain_i_).bind fun ok =>
      (getI K d).map fun _ =>
        if ok then ({ d with state_ := .DGain }, [])
        else (d, gainRequest K d K.LM_API_ICTRL_IC K.LM_API_POS_IC K.LM_API_SPD_IC)
  | .DGain =>
    (getRawD K d).bind fun raw => (verifyRaw16x16 raw d.gain_d_).bind fun ok =>
      (getD K d).map fun _ =>
        if ok then ({ d with state_ := .VerifiedParameters }, [])
        else (d, gainRequest K d K.LM_API_ICTRL_DC K.LM_API_POS_DC K.LM_API_SPD_DC)
  | _ => some (d, [])

/-- The statement after the `switch` of `Driver::verifyParams`. -/
def verifyParamsTail (d : Driver) : Driver :=
  if d.state_ = .VerifiedParameters then
    { d with configured_ := true, state_ := .Configured }
  else d

/-- Source `Driver::verifyParams`. -/
def verifyParams (K : Proto) (d : Driver) : Option (Driver × List Frame) :=
  (verifyParamsSwitch K d).map fun r => (verifyParamsTail r.1, r.2)

/-- The inner `switch` of the gain cases of `configureParams`. -/
def gainCommand (K : Proto) (d : Driver) (ictrl pos spd : Nat) (gain : ℚ) :
    Option (List Frame) :=
  if d.control_mode_ = K.MODE_CURRENT then sendFixed16x16 (ictrl ||| d.device_number_) gain
  else if d.control_mode_ = K.MODE_POSITION then sendFixed16x16 (pos ||| d.device_number_) gain
  else if d.control_mode_ = K.MODE_SPEED then sendFixed16x16 (spd ||| d.device_number_) gain
  else some []

/-- Source `Driver::configureParams`: the frames queued (no member is assigned).
`none` is undefined behaviour (a gain outside the 16.16 range). -/
def configureParams (K : Proto) (d : Driver) : Option (Driver × List Frame) :=
  match d.state_ with
  | .PowerFlag => some (d, sendUint8 (K.LM_API_STATUS_POWER ||| d.device_number_) 1)
  | .EncoderPosRef =>
    some (d, sendUint8 (K.LM_API_POS_REF ||| d.device_number_) K.LM_REF_ENCODER)
  | .EncoderSpdRef =>
    some (d, sendUint8 (K.LM_API_SPD_REF ||| d.device_number_) K.LM_REF_QUAD_ENCODER)
  | .EncoderCounts =>
    some (d, sendUint16 (K.LM_API_CFG_ENC_LINES ||| d.device_number_) d.encoder_cpr_)
  | .ClosedLoop => some (d, sendId (K.LM_API_SPD_EN ||| d.device_number_))
  | .ControlMode =>
    if d.control_mode_ = K.MODE_VOLTAGE then
      some (d, sendId (K.LM_API_VOLT_EN ||| d.device_number_))
    else if d.control_mode_ = K.MODE_CURRENT then
      some (d, sendId (K.LM_API_ICTRL_EN ||| d.device_number_))
    else if d.control_mode_ = K.MODE_POSITION then
      some (d, sendId (K.LM_API_POS_EN ||| d.device_number_))
    else if d.control_mode_ = K.MODE_SPEED then
      some (d, sendId (K.LM_API_SPD_EN ||| d.device_number_))
    else some (d, [])
  | .PGain =>
    (gainCommand K d K.LM_API_ICTRL_PC K.LM_API_POS_PC K.LM_API_SPD_PC d.gain_p_).map
      fun out => (d, out)
  | .IGain =>
    (gainCommand K d K.LM_API_ICTRL_IC K.LM_API_POS_IC K.LM_API_SPD_IC d.gain_i_).map
      fun out => (d, out)
  | .DGain =>
    (gainCommand K d K.LM_API_ICTRL_DC K.LM_API_POS_DC K.LM_API_SPD_DC d.gain_d_).map
      fun out => (d, out)
  | _ => some (d, [])

/-- Source `Driver::isConfigured`. -/
def isConfigured (d : Driver) : Bool :=
  d.configured_

/-- Source `Driver::resetConfiguration`. -/
def resetConfiguration (d : Driver) : Driver :=
  { d with configured_ := false, state_ := .Initializing }

/-- Source `Driver::updateGains`. -/
def updateGains (d : Driver) : Driver :=
  { d with configured_ := false, state_ := .PGain }

/-- Source `Driver::setGains`. -/
def setGains (d : Driver) (p i d' : ℚ) : Driver :=
  let d1 := { d with gain_p_ := p, gain_i_ := i, gain_d_ := d' }
  if d1.configured_ then updateGains d1 else d1

/-- Source `Driver::setMode(const uint8_t mode)`. -/
def setMode (K : Proto) (d : Driver) (mode : Nat) : Driver :=
  if mode = K.MODE_VOLTAGE then
    let d1 := { d with control_mode_ := mode }
    if d1.configured_ then resetConfiguration d1 else d1
  else d

/-- Source `Driver::setMode(const uint8_t mode, const double p, const double i, const double d)`. -/
def setModeGains (K : Proto) (d : Driver) (mode : Nat) (p i d' : ℚ) : Driver :=
  if mode = K.MODE_VOLTAGE then
    let d1 := { d with control_mode_ := mode }
    if d1.configured_ then resetConfiguration d1 else d1
  else
    let d1 := { d with control_mode_ := mode }
    let d2 := if d1.configured_ then resetConfiguration d1 else d1
    setGains d2 p i d'

/-! ## Runs of the driver -/

/-- The calls a client can make on a driver.  `received` stands for any of the
`received*` accessors, which assign no member.  The helper methods
`resetConfiguration` and `updateGains` are reached through `setMode` and
`setGains`, the two re-entry triggers the specification names. -/
inductive Op where
  | verifyParams
  | configureParams
  | processMessage (msg : Frame)
  | setGains (p i d : ℚ)
  | setMode (mode : Nat)
  | setModeGains (mode : Nat) (p i d : ℚ)
  | setEncoderCPR (encoder_cpr : Nat)
  | setGearRatio (gear_ratio : ℚ)
  | received
  | lastDutyCycle
  | lastBusVoltage
  | lastCurrent
  | lastPosition
  | lastSpeed
  | lastFault
  | lastPower
  | lastMode
  | lastOutVoltage
  | lastTemperature
  | lastAnalogInput
  | lastSetpoint
  | statusSpeedGet
  | statusDutyCycleGet
  | statusCurrentGet
  | statusPositionGet

/-- The driver after one call; `none` when the call has undefined behaviour. -/
def step (K : Proto) (d : Driver) : Op → Option Driver
  | .verifyParams => (verifyParams K d).map Prod.fst
  | .configureParams => (configureParams K d).map Prod.fst
  | .processMessage msg => some (processMessage K d msg)
  | .setGains p i d' => some (setGains d p i d')
  | .setMode mode => some (setMode K d mode)
  | .setModeGains mode p i d' => some (setModeGains K d mode p i d')
  | .setEncoderCPR n => some (setEncoderCPR d n)
  | .setGearRatio r => some (setGearRatio d r)
  | .received => some d
  | .lastDutyCycle => some (lastDutyCycle K d).2
  | .lastBusVoltage => some (lastBusVoltage K d).2
  | .lastCurrent => some (lastCurrent K d).2
  | .lastPosition => some (lastPosition K d).2
  | .lastSpeed => some (lastSpeed K d).2
  | .lastFault => some (lastFault K d).2
  | .lastPower => some (lastPower K d).2
  | .lastMode => some (lastMode K d).2
  | .lastOutVoltage => some (lastOutVoltage K d).2
  | .lastTemperature => some (lastTemperature K d).2
  | .lastAnalogInput => some (lastAnalogInput K d).2
  | .lastSetpoint => some (lastSetpoint K d).2
  | .statusSpeedGet => some (statusSpeedGet K d).2
  | .statusDutyCycleGet => some (statusDutyCycleGet K d).2
  | .statusCurrentGet => some (statusCurrentGet K d).2
  | .statusPositionGet => some (statusPositionGet K d).2

/-- The driver after a sequence of calls. -/
def run (K : Proto) (d : Driver) : List Op → Option Driver
  | [] => some d
  | op :: ops => (step K d op).bind fun d1 => run K d1 ops

/-- The calls that drive the ladder or feed the cache. -/
def Op.isLadder : Op → Bool
  | .verifyParams => true
  | .configureParams => true
  | .processMessage _ => true
  | _ => false

/-- The order of the ladder states for the non-voltage modes, as the
specification lists it. -/
def ladder : List ConfigurationState :=
  [.Initializing, .PowerFlag, .EncoderPosRef, .EncoderSpdRef, .EncoderCounts, .ClosedLoop,
   .ControlMode, .PGain, .IGain, .DGain, .VerifiedParameters, .Configured]

/-- State `b` is the immediate successor of state `a` in the ladder order. -/
def LadderSucc (a b : ConfigurationState) : Prop :=
  (a, b) ∈ ladder.zip ladder.tail

instance (a b : ConfigurationState) : Decidable (LadderSucc a b) := by
  unfold LadderSucc; infer_instance

/-- The states a driver passes through when `verifyParams` is called once for
every cache of the list, the cache being replaced by the listed one before the
call: the state before each call and the state between the `switch` and the
final test of each call, then the final state. -/
def visited (K : Proto) (d : Driver) : List Cache → Option (List ConfigurationState)
  | [] => some [d.state_]
  | c :: cs =>
    (verifyParamsSwitch K { d with cache := c }).bind fun r =>
      (visited K (verifyParamsTail r.1) cs).map fun rest => d.state_ :: r.1.state_ :: rest

/-- One move along the ladder: stay, or go to the immediate successor. -/
def LadderMove (a b : ConfigurationState) : Prop :=
  b = a ∨ LadderSucc a b

instance (a b : ConfigurationState) : Decidable (LadderMove a b) := by
  unfold LadderMove; infer_instance

/-- The ladder from a state on. -/
def ladderFrom (a : ConfigurationState) : List ConfigurationState :=
  ladder.drop (ladder.indexOf a)

/-- The members other than the state, the configured flag and the cache are the
same in both drivers. -/
def SameSettings (d d1 : Driver) : Prop :=
  d1.device_number_ = d.device_number_ ∧ d1.control_mode_ = d.control_mode_ ∧
  d1.gain_p_ = d.gain_p_ ∧ d1.gain_i_ = d.gain_i_ ∧ d1.gain_d_ = d.gain_d_ ∧
  d1.encoder_cpr_ = d.encoder_cpr_ ∧ d1.gear_ratio_ = d.gear_ratio_

instance (d d1 : Driver) : Decidable (SameSettings d d1) := by
  unfold SameSettings; infer_instance

/-- The control mode is one of the three closed-loop modes. -/
def ClosedLoopMode (K : Proto) (d : Driver) : Prop :=
  d.control_mode_ = K.MODE_CURRENT ∨ d.control_mode_ = K.MODE_POSITION ∨
    d.control_mode_ = K.MODE_SPEED

instance (K : Proto) (d : Driver) : Decidable (ClosedLoopMode K d) := by
  unfold ClosedLoopMode; infer_instance

/-- The three gains convert to `int32_t`. -/
def GainsInRange (d : Driver) : Prop :=
  (toFixed16x16 d.gain_p_).isSome ∧ (toFixed16x16 d.gain_i_).isSome ∧
    (toFixed16x16 d.gain_d_).isSome

instance (d : Driver) : Decidable (GainsInRange d) := by
  unfold GainsInRange; infer_instance

/-- The state is one of the three gain states. -/
def ConfigurationState.isGain : ConfigurationState → Bool
  | .PGain => true
  | .IGain => true
  | .DGain => true
  | _ => false

/-! ## Concrete drivers and caches -/

/-- A field slot holding the given first four bytes, marked received. -/
def slotOf (b0 b1 b2 b3 : Nat) : Field :=
  { data := [b0, b1, b2, b3, 0, 0, 0, 0], received := true }

/-- A cache, for the constants `lmProto`, in which every check of a Speed-mode
ladder with the constructor's gains (1, 0, 0) and encoder counts (1) passes:
speed reference = quadrature encoder, encoder lines = 1, control mode = speed,
speed P gain = 1.0; every other slot is zero. -/
def speedReadyCache : Cache :=
  { Cache.zero with
    spd_fields_ := fun i =>
      if i = 6 then slotOf 3 0 0 0 else if i = 3 then slotOf 0 0 1 0 else Field.zero
    cfg_fields_ := fun i => if i = 1 then slotOf 1 0 0 0 else Field.zero
    status_fields_ := fun i => if i = 9 then slotOf 2 0 0 0 else Field.zero }

/-- The configured flag is set exactly in state Configured. -/
def ConfiguredIffState (d : Driver) : Prop :=
  d.configured_ = true ↔ d.state_ = .Configured

instance (d : Driver) : Decidable (ConfiguredIffState d) := by
  unfold ConfiguredIffState; infer_instance


/-- The driver is in Voltage mode and not in a gain state. -/
def VoltageNoGain (K : Proto) (d : Driver) : Prop :=
  d.control_mode_ = K.MODE_VOLTAGE ∧ d.state_.isGain = false

instance (K : Proto) (d : Driver) : Decidable (VoltageNoGain K d) := by
  unfold VoltageNoGain; infer_instance


/-- A Voltage-mode driver in state ControlMode over a zeroed cache (for the
constants `lmProto`, where Voltage is mode 0). -/
def voltageAtControlMode (device_number : Nat) : Driver :=
  { Driver.new lmProto device_number Cache.zero with
    control_mode_ := lmProto.MODE_VOLTAGE, state_ := .ControlMode }

/-- A Speed-mode driver in the given state over `speedReadyCache` (for `lmProto`). -/
def speedDriverAt (device_number : Nat) (s : ConfigurationState) : Driver :=
  { Driver.new lmProto device_number speedReadyCache with state_ := s }

/-- A Voltage-mode driver (for `lmProto`) in state ControlMode whose cached
control-mode byte is 2 (Speed), as the ClosedLoop step leaves it. -/
def voltageAwaitingMode (device_number : Nat) : Driver :=
  { Driver.new lmProto device_number speedReadyCache with
    control_mode_ := lmProto.MODE_VOLTAGE, state_ := .ControlMode }

/-- The two drivers differ at most in the received flags of their caches. -/
def SameButFlags (d d1 : Driver) : Prop :=
  SameSettings d d1 ∧ d1.state_ = d.state_ ∧ d1.configured_ = d.configured_ ∧
    ∀ r : FieldRef, (d1.cache.get r).data = (d.cache.get r).data


/-- A value-bearing frame for the API code `api`, addressed to `device_number`. -/
def telemetryFrame (api device_number dlc : Nat) (data : List Nat) : Frame :=
  { getMsg (api ||| device_number) with dlc := dlc, data := data }

/-- Frames (for `lmProto`, device 3) reporting the speed reference, the encoder
lines, the control mode and the speed P gain; no frame reports the power flag,
the position reference or the speed I and D gains. -/
def partialTelemetry : List Op :=
  [.processMessage (telemetryFrame lmProto.LM_API_SPD_REF 3 1 [3, 0, 0, 0, 0, 0, 0, 0]),
   .processMessage (telemetryFrame lmProto.LM_API_CFG_ENC_LINES 3 2 [1, 0, 0, 0, 0, 0, 0, 0]),
   .processMessage (telemetryFrame lmProto.LM_API_STATUS_CMODE 3 1 [2, 0, 0, 0, 0, 0, 0, 0]),
   .processMessage (telemetryFrame lmProto.LM_API_SPD_PC 3 4 [0, 0, 1, 0, 0, 0, 0, 0])]

/-- The received flag of the slot a gain or reference check reads. -/
def slotReceived (d : Driver) (r : FieldRef) : Bool :=
  (d.cache.get r).received

/-- A driver (for `lmProto`) in state PowerFlag over a zeroed cache. -/
def powerFlagDriver : Driver :=
  { Driver.new lmProto 3 Cache.zero with state_ := .PowerFlag }

/-- The driver `powerFlagDriver` with the power slot marked received. -/
def powerFlagDriverReceived : Driver :=
  { powerFlagDriver with
    cache := { Cache.zero with
      status_fields_ := fun i =>
        if i = 8 then { data := [0, 0, 0, 0, 0, 0, 0, 0], received := true } else Field.zero } }

/-- A configured Speed-mode driver (for `lmProto`) over `speedReadyCache`. -/
def configuredSpeedDriver : Driver :=
  { Driver.new lmProto 3 speedReadyCache with state_ := .Configured, configured_ := true }

/-- The seven group codes with their tables, in the order `processMessage`
tests them. -/
def groupTables (K : Proto) : List (Nat × Table) :=
  [(K.CAN_API_MC_CFG, .cfg), (K.CAN_API_MC_STATUS, .status), (K.CAN_API_MC_ICTRL, .ictrl),
   (K.CAN_API_MC_POS, .pos), (K.CAN_API_MC_VCOMP, .vcomp), (K.CAN_API_MC_SPD, .spd),
   (K.CAN_API_MC_VOLTAGE, .voltage)]

/-- The group codes are values of the API class field `classMask`, the class
field is part of the API mask, and no group code contains all bits of a code
that is tested before it. -/
def Proto.GroupCodesExclusive (K : Proto) (classMask : Nat) : Prop :=
  classMask &&& K.CAN_MSGID_API_M = classMask ∧
  (∀ g ∈ groupTables K, g.1 &&& classMask = g.1) ∧
  List.Pairwise (fun x y => y.1 &&& x.1 ≠ x.1) (groupTables K)

instance (K : Proto) (classMask : Nat) : Decidable (K.GroupCodesExclusive classMask) := by
  unfold Proto.GroupCodesExclusive; infer_instance

/-- Every slot of the cache holds eight bytes. -/
def Cache.EightBytes (c : Cache) : Prop :=
  ∀ r : FieldRef, (c.get r).data.length = 8

/-- A power-status frame (for `lmProto`, device 3) with payload length 0. -/
def emptyPowerRequest : Frame :=
  telemetryFrame lmProto.LM_API_STATUS_POWER 3 0 [1, 0, 0, 0, 0, 0, 0, 0]

/-- The slot of the power status (for `lmProto`): entry 8 of the status table. -/
def powerSlot : FieldRef :=
  statusFieldForMessage lmProto (getApi lmProto (getMsg lmProto.LM_API_STATUS_POWER))

/-- A fresh driver (for `lmProto`, device 3) that has received a full
eight-byte power-status frame with every byte 9. -/
def ninesDriver : Driver :=
  processMessage lmProto (Driver.new lmProto 3 Cache.zero)
    (telemetryFrame lmProto.LM_API_STATUS_POWER 3 8 [9, 9, 9, 9, 9, 9, 9, 9])

/-- A power-status frame (for `lmProto`, device 3) with payload length 1. -/
def shortPowerFrame : Frame :=
  telemetryFrame lmProto.LM_API_STATUS_POWER 3 1 [1, 0, 0, 0, 0, 0, 0, 0]

/-- A frame (for `lmProto`, device 3) of the periodic-status class 0x1800, which
is none of the seven group codes, with API index 2 and payload length 1. -/
def periodicStatusFrame : Frame :=
  telemetryFrame 0x02021880 3 1 [5, 0, 0, 0, 0, 0, 0, 0]

/-- A frame (for `lmProto`, device 3) of the acknowledge class 0x2000, which is
none of the seven group codes, with payload length 1. -/
def acknowledgeFrame : Frame :=
  telemetryFrame 0x02022000 3 1 [5, 0, 0, 0, 0, 0, 0, 0]

/-- Truncation of a real value toward zero, as the specification words the
rounding rule of the fixed-point formats. -/
def truncTowardZero (x : ℚ) : Int :=
  if 0 ≤ x then ⌊x⌋ else ⌈x⌉

/-- Byte `k` of the little-endian two's-complement representation of a 32-bit
integer, as the specification words the encoding. -/
def leByte (t : Int) (k : Nat) : Nat :=
  ((t % 2 ^ 32) / 256 ^ k % 256).toNat

/-- The status quantities that have a `received*` and a `last*` accessor. -/
inductive StatusQuantity where
  | DutyCycle
  | BusVoltage
  | Current
  | Position
  | Speed
  | Fault
  | Power
  | Mode
  | OutVoltage
  | Temperature
  | AnalogInput
  deriving DecidableEq, Repr

/-- The API code both accessors of a status quantity pass to `getMsg`. -/
def StatusQuantity.api (K : Proto) : StatusQuantity → Nat
  | .DutyCycle => K.LM_API_STATUS_VOLTOUT
  | .BusVoltage => K.LM_API_STATUS_VOLTBUS
  | .Current => K.LM_API_STATUS_CURRENT
  | .Position => K.LM_API_STATUS_POS
  | .Speed => K.LM_API_STATUS_SPD
  | .Fault => K.LM_API_STATUS_FAULT
  | .Power => K.LM_API_STATUS_POWER
  | .Mode => K.LM_API_STATUS_CMODE
  | .OutVoltage => K.LM_API_STATUS_VOUT
  | .Temperature => K.LM_API_STATUS_TEMP
  | .AnalogInput => K.CPR_API_STATUS_ANALOG

/-- The field slot of a status quantity. -/
def StatusQuantity.slot (K : Proto) (q : StatusQuantity) : FieldRef :=
  statusFieldForMessage K (getApi K (getMsg (q.api K)))

/-- The `received*` accessor of a status quantity. -/
def StatusQuantity.received (K : Proto) (q : StatusQuantity) (d : Driver) : Bool :=
  match q with
  | .DutyCycle => receivedDutyCycle K d
  | .BusVoltage => receivedBusVoltage K d
  | .Current => receivedCurrent K d
  | .Position => receivedPosition K d
  | .Speed => receivedSpeed K d
  | .Fault => receivedFault K d
  | .Power => receivedPower K d
  | .Mode => receivedMode K d
  | .OutVoltage => receivedOutVoltage K d
  | .Temperature => receivedTemperature K d
  | .AnalogInput => receivedAnalogInput K d

/-- The `last*` accessor of a status quantity: the value it returns (a byte is
read as a number) and the driver after the call. -/
def StatusQuantity.last (K : Proto) (q : StatusQuantity) (d : Driver) : ℚ × Driver :=
  match q with
  | .DutyCycle => lastDutyCycle K d
  | .BusVoltage => lastBusVoltage K d
  | .Current => lastCurrent K d
  | .Position => lastPosition K d
  | .Speed => lastSpeed K d
  | .Fault => (((lastFault K d).1 : ℚ), (lastFault K d).2)
  | .Power => (((lastPower K d).1 : ℚ), (lastPower K d).2)
  | .Mode => (((lastMode K d).1 : ℚ), (lastMode K d).2)
  | .OutVoltage => lastOutVoltage K d
  | .Temperature => lastTemperature K d
  | .AnalogInput => lastAnalogInput K d

/-- A fresh driver (for `lmProto`, device 3) that has received a power-status
frame with first byte 1. -/
def poweredDriver : Driver :=
  processMessage lmProto (Driver.new lmProto 3 Cache.zero) shortPowerFrame

/-- Calls (for `lmProto`, device 3) that bring a fresh driver, switched to
Voltage mode, to Configured and then set new gains. -/
def voltageThenGains : List Op :=
  [.setMode lmProto.MODE_VOLTAGE,
   .processMessage (telemetryFrame lmProto.LM_API_SPD_REF 3 1 [3, 0, 0, 0, 0, 0, 0, 0]),
   .processMessage (telemetryFrame lmProto.LM_API_CFG_ENC_LINES 3 2 [1, 0, 0, 0, 0, 0, 0, 0]),
   .processMessage (telemetryFrame lmProto.LM_API_STATUS_CMODE 3 1 [2, 0, 0, 0, 0, 0, 0, 0]),
   .verifyParams, .verifyParams, .verifyParams, .verifyParams, .verifyParams, .verifyParams,
   .processMessage (telemetryFrame lmProto.LM_API_STATUS_CMODE 3 1 [0, 0, 0, 0, 0, 0, 0, 0]),
   .verifyParams,
   .setGains 1 0 0]

/-- The slot of the control-mode status (for any constants). -/
def modeStatusSlot (K : Proto) : FieldRef :=
  statusFieldForMessage K (getApi K (getMsg K.LM_API_STATUS_CMODE))

/-- The slot of the power status (for any constants). -/
def powerStatusSlot (K : Proto) : FieldRef :=
  statusFieldForMessage K (getApi K (getMsg K.LM_API_STATUS_POWER))

/-- The API codes of the frames `configureParams` can queue. -/
def configureCodes (K : Proto) : List Nat :=
  [K.LM_API_STATUS_POWER, K.LM_API_POS_REF, K.LM_API_SPD_REF, K.LM_API_CFG_ENC_LINES,
   K.LM_API_SPD_EN, K.LM_API_VOLT_EN, K.LM_API_ICTRL_EN, K.LM_API_POS_EN,
   K.LM_API_ICTRL_PC, K.LM_API_POS_PC, K.LM_API_SPD_PC,
   K.LM_API_ICTRL_IC, K.LM_API_POS_IC, K.LM_API_SPD_IC,
   K.LM_API_ICTRL_DC, K.LM_API_POS_DC, K.LM_API_SPD_DC]

/-- None of the API codes `configureParams` uses has a bit of the device-number
field set. -/
def Proto.CodesWithoutDeviceBits (K : Proto) : Prop :=
  ∀ c ∈ configureCodes K, c &&& K.CAN_MSGID_DEVNO_M = 0

instance (K : Proto) : Decidable K.CodesWithoutDeviceBits := by
  unfold Proto.CodesWithoutDeviceBits; infer_instance

/-- The frame list is empty, or one frame whose identifier is one of the
`configureParams` API codes combined with the device number. -/
def OneConfigureFrame (K : Proto) (d : Driver) (out : List Frame) : Prop :=
  ∃ f c, out = [f] ∧ c ∈ configureCodes K ∧ f.id = c ||| d.device_number_

/-- A driver in state `PGain` with the constructor's Speed mode and gains. -/
def pGainSpeedDriver : Driver :=
  { Driver.new lmProto 3 Cache.zero with state_ := .PGain }

/-- The API code `c` has no bit of the device-number field, and its API class
(the bits of `classMask` that `getApi` keeps) is the group code `group`. -/
def Proto.CodeInGroup (K : Proto) (classMask c group : Nat) : Prop :=
  c &&& K.CAN_MSGID_DEVNO_M = 0 ∧ getApi K (getMsg c) &&& classMask = group

instance (K : Proto) (classMask c group : Nat) : Decidable (K.CodeInGroup classMask c group) := by
  unfold Proto.CodeInGroup; infer_instance

/-- The nine gain command codes lie in the group of their control mode. -/
def Proto.GainCodesInGroups (K : Proto) (classMask : Nat) : Prop :=
  (∀ c ∈ [K.LM_API_ICTRL_PC, K.LM_API_ICTRL_IC, K.LM_API_ICTRL_DC],
    K.CodeInGroup classMask c K.CAN_API_MC_ICTRL) ∧
  (∀ c ∈ [K.LM_API_POS_PC, K.LM_API_POS_IC, K.LM_API_POS_DC],
    K.CodeInGroup classMask c K.CAN_API_MC_POS) ∧
  (∀ c ∈ [K.LM_API_SPD_PC, K.LM_API_SPD_IC, K.LM_API_SPD_DC],
    K.CodeInGroup classMask c K.CAN_API_MC_SPD)

instance (K : Proto) (classMask : Nat) : Decidable (K.GainCodesInGroups classMask) := by
  unfold Proto.GainCodesInGroups; infer_instance

/-- The command frame of `sendFixed16x16` for the converted value `t`. -/
def fixedFrame (id : Nat) (t : Int) : Frame :=
  { getMsg id with dlc := 4, data := int32Bytes t ++ [0, 0, 0, 0] }

/-- A driver in state `EncoderCounts` with 1024 encoder counts, device 3, over a
zeroed cache. -/
def encoderCountsDriver : Driver :=
  { Driver.new lmProto 3 Cache.zero with state_ := .EncoderCounts, encoder_cpr_ := 1024 }

/-- The driver `encoderCountsDriver` with the bytes of 1024 stored in the
encoder-lines slot of the configuration table. -/
def encoderLinesStored : Driver :=
  { encoderCountsDriver with
    cache := Cache.zero.set
      (cfgFieldForMessage lmProto (getApi lmProto (getMsg lmProto.LM_API_CFG_ENC_LINES)))
      (slotOf 0 4 0 0) }

/-- Source `Driver::radPerSecToRpm` in exact arithmetic: `(60 * gear_ratio_) / (2 * M_PI)`,
over any ordered field, with the constant `M_PI` and the member `gear_ratio_` as arguments. -/
def radPerSecToRpm {F : Type} [LinearOrderedField F] (M_PI gear_ratio_ : F) : F :=
  (60 * gear_ratio_) / (2 * M_PI)

/-- The factor `(2 * M_PI) / (gear_ratio_ * 60)` that `Driver::lastSpeed` and
`Driver::statusSpeedGet` apply to the decoded value, in exact arithmetic. -/
def rpmToRadPerSec {F : Type} [LinearOrderedField F] (M_PI gear_ratio_ : F) : F :=
  (2 * M_PI) / (gear_ratio_ * 60)

/-- Source `Driver::commandSpeed`, in exact arithmetic. -/
def commandSpeed (M_PI : ℚ) (K : Proto) (d : Driver) (cmd : ℚ) : Option (List Frame) :=
  sendFixed16x16 (K.LM_API_SPD_SET ||| d.device_number_)
    (cmd * radPerSecToRpm M_PI d.gear_ratio_)

/-- Source `Driver::statusSpeedGet` with its conversion to rad/s, in exact arithmetic. -/
def statusSpeedGetRadPerSec (M_PI : ℚ) (K : Proto) (d : Driver) : ℚ × Driver :=
  ((statusSpeedGet K d).1 * rpmToRadPerSec M_PI d.gear_ratio_, (statusSpeedGet K d).2)

/-- The value of the `double` constant `M_PI`. -/
def piDouble : ℚ := mkRat 884279719003555 281474976710656

/-! # Theorems -/

/-! ## Auxiliary facts -/

theorem ladderFrom_succ (a b : ConfigurationState) (h : LadderSucc a b) :
    ladderFrom a = a :: ladderFrom b ∧ a ≠ b ∧ b ∈ ladder := by
  cases a <;> cases b <;> first | exact absurd h (by decide) | decide

theorem ladderFrom_self (a : ConfigurationState) (h : a ∈ ladder) : [a] <+: ladderFrom a := by
  cases a <;> first | exact absurd h (by decide) | decide

theorem mem_destutter' {α : Type} [DecidableEq α] (l : List α) :
    ∀ (a x : α), x ∈ a :: l → x ∈ List.destutter' (· ≠ ·) a l := by
  induction l with
  | nil => intro a x hx; simpa using hx
  | cons b l ih =>
    intro a x hx
    by_cases hab : a = b
    · subst hab
      rw [List.destutter'_cons_neg _ (by simp)]
      apply ih
      simp only [List.mem_cons] at hx ⊢
      tauto
    · rw [List.destutter'_cons_pos _ hab]
      simp only [List.mem_cons] at hx ⊢
      rcases hx with rfl | hx
      · exact Or.inl rfl
      · exact Or.inr (ih b x (by simpa using hx))

theorem destutter'_prefix (l : List ConfigurationState) :
    ∀ a, a ∈ ladder → List.Chain LadderMove a l →
      List.destutter' (· ≠ ·) a l <+: ladderFrom a := by
  induction l with
  | nil => intro a ha _; simpa using ladderFrom_self a ha
  | cons b l ih =>
    intro a ha hc
    rw [List.chain_cons] at hc
    obtain ⟨hab, hc⟩ := hc
    rcases hab with rfl | hab
    · rw [List.destutter'_cons_neg _ (by simp)]
      exact ih _ ha hc
    · obtain ⟨h1, h2, h3⟩ := ladderFrom_succ a b hab
      rw [List.destutter'_cons_pos _ h2, h1]
      exact (List.prefix_cons_inj a).mpr (ih b h3 hc)

theorem prefix_ladder_full (p : List ConfigurationState) (hp : p <+: ladder)
    (hc : ConfigurationState.Configured ∈ p) : p = ladder := by
  have hlen : p.length ≤ 12 := hp.length_le
  have h := List.prefix_iff_eq_take.mp hp
  rw [h] at hc ⊢
  generalize p.length = k at hlen hc
  interval_cases k <;> first | rfl | exact absurd hc (by decide)

theorem gainField_isSome (K : Proto) (d : Driver) (hm : ClosedLoopMode K d) :
    (∃ r, gainFieldP K d = some r) ∧ (∃ r, gainFieldI K d = some r) ∧
      (∃ r, gainFieldD K d = some r) := by
  unfold gainFieldP gainFieldI gainFieldD
  rcases hm with hm | hm | hm <;> simp [hm] <;> split_ifs <;> simp

theorem verifyParamsSwitch_isSome (K : Proto) (d : Driver) (hm : ClosedLoopMode K d)
    (hg : GainsInRange d) : ∃ r, verifyParamsSwitch K d = some r := by
  obtain ⟨⟨rp, hp⟩, ⟨ri, hi⟩, ⟨rd, hd⟩⟩ := gainField_isSome K d hm
  obtain ⟨gp, gi, gd⟩ := hg
  rw [Option.isSome_iff_exists] at gp gi gd
  obtain ⟨vp, gp⟩ := gp
  obtain ⟨vi, gi⟩ := gi
  obtain ⟨vd, gd⟩ := gd
  unfold verifyParamsSwitch
  cases hs : d.state_ <;> simp only [] <;>
    first
    | exact ⟨_, rfl⟩
    | (split_ifs <;> exact ⟨_, rfl⟩)
    | simp [getRawP, getRawI, getRawD, getP, getI, getD, hp, hi, hd, verifyRaw16x16, gp, gi, gd]

theorem verifyParamsSwitch_settings (K : Proto) (d : Driver) (r : Driver × List Frame)
    (h : verifyParamsSwitch K d = some r) :
    SameSettings d r.1 ∧ r.1.configured_ = d.configured_ := by
  unfold verifyParamsSwitch at h
  cases hs : d.state_ <;> simp only [hs] at h
  all_goals
    first
    | (simp only [Option.some.injEq] at h; subst h; simp [SameSettings])
    | (split_ifs at h <;> simp only [Option.some.injEq] at h <;> subst h <;>
        simp [SameSettings, lastPower, lastMode, clearReceived])
    | (simp only [Option.bind_eq_some, Option.map_eq_some'] at h
       obtain ⟨raw, _, ok, _, x, _, rfl⟩ := h
       cases ok <;> simp [SameSettings])

theorem verifyParamsSwitch_state (K : Proto) (hK : K.ModesDistinct) (d : Driver)
    (hm : ClosedLoopMode K d)
    (r : Driver × List Frame) (h : verifyParamsSwitch K d = some r) :
    LadderMove d.state_ r.1.state_ := by
  have hv : d.control_mode_ ≠ K.MODE_VOLTAGE := by
    obtain ⟨h1, h2, h3, -⟩ := hK
    rcases hm with hm | hm | hm <;> rw [hm] <;> exact fun e => by simp_all
  unfold verifyParamsSwitch at h
  unfold LadderMove
  cases hs : d.state_ <;> simp only [hs] at h
  all_goals
    first
    | (simp only [Option.some.injEq] at h; subst h; simp [hs]; try decide)
    | (split_ifs at h <;> simp only [Option.some.injEq] at h <;> subst h <;>
        simp [lastPower, lastMode, clearReceived, hs] <;> try decide)
    | (simp only [Option.bind_eq_some, Option.map_eq_some'] at h
       obtain ⟨raw, _, ok, _, x, _, rfl⟩ := h
       cases ok <;> simp [hs]; try decide)

theorem verifyParamsTail_state (d : Driver) : LadderMove d.state_ (verifyParamsTail d).state_ := by
  unfold verifyParamsTail LadderMove
  split_ifs with h
  · right; rw [h]; show LadderSucc .VerifiedParameters .Configured; decide
  · left; rfl

theorem verifyParamsTail_settings (d : Driver) : SameSettings d (verifyParamsTail d) := by
  unfold verifyParamsTail SameSettings
  split_ifs <;> simp

theorem ladderMove_toInt (a b : ConfigurationState) (h : LadderMove a b) :
    a.toInt ≤ b.toInt := by
  rcases h with rfl | h
  · exact le_refl _
  · cases a <;> cases b <;> first | exact absurd h (by decide) | decide

theorem visited_chain (K : Proto) (hK : K.ModesDistinct) (cs : List Cache) :
    ∀ d : Driver, ClosedLoopMode K d → GainsInRange d →
      ∃ rest, visited K d cs = some (d.state_ :: rest) ∧ List.Chain LadderMove d.state_ rest := by
  induction cs with
  | nil => intro d _ _; exact ⟨[], rfl, List.Chain.nil⟩
  | cons c cs ih =>
    intro d hm hg
    obtain ⟨r, hr⟩ := verifyParamsSwitch_isSome K { d with cache := c } hm hg
    have hs := (verifyParamsSwitch_settings K _ r hr).1
    have hmove : LadderMove d.state_ r.1.state_ :=
      verifyParamsSwitch_state K hK { d with cache := c } hm r hr
    have ht := verifyParamsTail_settings r.1
    have hm2 : ClosedLoopMode K (verifyParamsTail r.1) := by
      unfold ClosedLoopMode at hm ⊢
      rw [ht.2.1, hs.2.1]; exact hm
    have hg2 : GainsInRange (verifyParamsTail r.1) := by
      unfold GainsInRange at hg ⊢
      rw [ht.2.2.1, ht.2.2.2.1, ht.2.2.2.2.1, hs.2.2.1, hs.2.2.2.1, hs.2.2.2.2.1]; exact hg
    obtain ⟨rest, hrest, hchain⟩ := ih (verifyParamsTail r.1) hm2 hg2
    refine ⟨r.1.state_ :: (verifyParamsTail r.1).state_ :: rest, ?_, ?_⟩
    · simp [visited, hr, hrest]
    · exact List.Chain.cons hmove (List.Chain.cons (verifyParamsTail_state r.1) hchain)


theorem verifyParamsSwitch_configured_iff (K : Proto) (d : Driver) (r : Driver × List Frame)
    (h : verifyParamsSwitch K d = some r) :
    (r.1.state_ = .Configured ↔ d.state_ = .Configured) := by
  unfold verifyParamsSwitch at h
  cases hs : d.state_ <;> simp only [hs] at h
  all_goals
    first
    | (simp only [Option.some.injEq] at h; subst h; simp [hs])
    | (split_ifs at h <;> simp only [Option.some.injEq] at h <;> subst h <;>
        simp [lastPower, lastMode, clearReceived, hs])
    | (simp only [Option.bind_eq_some, Option.map_eq_some'] at h
       obtain ⟨raw, _, ok, _, x, _, rfl⟩ := h
       cases ok <;> simp [hs])

theorem verifyParams_configuredIff (K : Proto) (d : Driver) (r : Driver × List Frame)
    (h : verifyParams K d = some r) (hi : ConfiguredIffState d) : ConfiguredIffState r.1 := by
  unfold verifyParams at h
  simp only [Option.map_eq_some'] at h
  obtain ⟨r1, hr1, rfl⟩ := h
  have h1 := verifyParamsSwitch_configured_iff K d r1 hr1
  have h2 := (verifyParamsSwitch_settings K d r1 hr1).2
  unfold ConfiguredIffState at hi ⊢
  unfold verifyParamsTail
  split_ifs with hv
  · simp
  · simp only []
    rw [h2, h1]; exact hi

theorem configureParams_fst (K : Proto) (d : Driver) (r : Driver × List Frame)
    (h : configureParams K d = some r) : r.1 = d := by
  unfold configureParams at h
  cases hs : d.state_ <;> simp only [hs] at h
  all_goals
    first
    | (simp only [Option.some.injEq] at h; subst h; rfl)
    | (split_ifs at h <;> simp only [Option.some.injEq] at h <;> subst h <;> rfl)
    | (simp only [Option.map_eq_some'] at h
       obtain ⟨out, _, rfl⟩ := h
       rfl)

theorem processMessage_settings (K : Proto) (d : Driver) (m : Frame) :
    SameSettings d (processMessage K d m) ∧ (processMessage K d m).state_ = d.state_ ∧
      (processMessage K d m).configured_ = d.configured_ := by
  unfold processMessage SameSettings
  split_ifs
  · simp
  · simp
  · cases processMessageField K (getApi K m) <;> simp

theorem clearReceived_settings (d : Driver) (r : FieldRef) :
    SameSettings d (clearReceived d r) ∧ (clearReceived d r).state_ = d.state_ ∧
      (clearReceived d r).configured_ = d.configured_ := by
  simp [clearReceived, SameSettings]


theorem accessor_onlyCache (K : Proto) (d : Driver) :
    ((lastDutyCycle K d).2.state_ = d.state_ ∧ (lastDutyCycle K d).2.configured_ = d.configured_) ∧
    ((lastBusVoltage K d).2.state_ = d.state_ ∧ (lastBusVoltage K d).2.configured_ = d.configured_) ∧
    ((lastCurrent K d).2.state_ = d.state_ ∧ (lastCurrent K d).2.configured_ = d.configured_) ∧
    ((lastPosition K d).2.state_ = d.state_ ∧ (lastPosition K d).2.configured_ = d.configured_) ∧
    ((lastSpeed K d).2.state_ = d.state_ ∧ (lastSpeed K d).2.configured_ = d.configured_) ∧
    ((lastFault K d).2.state_ = d.state_ ∧ (lastFault K d).2.configured_ = d.configured_) ∧
    ((lastPower K d).2.state_ = d.state_ ∧ (lastPower K d).2.configured_ = d.configured_) ∧
    ((lastMode K d).2.state_ = d.state_ ∧ (lastMode K d).2.configured_ = d.configured_) ∧
    ((lastOutVoltage K d).2.state_ = d.state_ ∧
      (lastOutVoltage K d).2.configured_ = d.configured_) ∧
    ((lastTemperature K d).2.state_ = d.state_ ∧
      (lastTemperature K d).2.configured_ = d.configured_) ∧
    ((lastAnalogInput K d).2.state_ = d.state_ ∧
      (lastAnalogInput K d).2.configured_ = d.configured_) ∧
    ((lastSetpoint K d).2.state_ = d.state_ ∧ (lastSetpoint K d).2.configured_ = d.configured_) ∧
    ((statusSpeedGet K d).2.state_ = d.state_ ∧
      (statusSpeedGet K d).2.configured_ = d.configured_) ∧
    ((statusDutyCycleGet K d).2.state_ = d.state_ ∧
      (statusDutyCycleGet K d).2.configured_ = d.configured_) ∧
    ((statusCurrentGet K d).2.state_ = d.state_ ∧
      (statusCurrentGet K d).2.configured_ = d.configured_) ∧
    ((statusPositionGet K d).2.state_ = d.state_ ∧
      (statusPositionGet K d).2.configured_ = d.configured_) := by
  have hs : (lastSetpoint K d).2.state_ = d.state_ ∧
      (lastSetpoint K d).2.configured_ = d.configured_ := by
    unfold lastSetpoint
    split_ifs <;>
      simp [statusSpeedGet, statusDutyCycleGet, statusCurrentGet, statusPositionGet,
        clearReceived]
  simp [hs, lastDutyCycle, lastBusVoltage, lastCurrent, lastPosition, lastSpeed, lastFault,
    lastPower, lastMode, lastOutVoltage, lastTemperature, lastAnalogInput, statusSpeedGet,
    statusDutyCycleGet, statusCurrentGet, statusPositionGet, clearReceived]

theorem setters_configuredIff (K : Proto) (d : Driver) (hi : ConfiguredIffState d) :
    (∀ p i d', ConfiguredIffState (setGains d p i d')) ∧
    (∀ mode, ConfiguredIffState (setMode K d mode)) ∧
    (∀ mode p i d', ConfiguredIffState (setModeGains K d mode p i d')) := by
  unfold ConfiguredIffState at hi ⊢
  cases hc : d.configured_ <;> simp [hc] at hi
  · refine ⟨?_, ?_, ?_⟩
    · intro p i d'
      simp [setGains, hc, hi]
    · intro mode
      unfold setMode
      split_ifs <;> simp [hc, hi]
    · intro mode p i d'
      unfold setModeGains
      split_ifs <;> simp [setGains, hc, hi]
  · refine ⟨?_, ?_, ?_⟩
    · intro p i d'
      simp [setGains, updateGains, hc]
    · intro mode
      unfold setMode
      split_ifs <;> simp [resetConfiguration, hc, hi]
    · intro mode p i d'
      unfold setModeGains
      split_ifs <;> simp [setGains, resetConfiguration, hc]

theorem step_configuredIff (K : Proto) (d d1 : Driver) (op : Op) (h : step K d op = some d1)
    (hi : ConfiguredIffState d) : ConfiguredIffState d1 := by
  have ha := accessor_onlyCache K d
  have hset := setters_configuredIff K d hi
  cases op <;> simp only [step, Option.some.injEq, Option.map_eq_some'] at h
  case verifyParams =>
    obtain ⟨r, hr, rfl⟩ := h
    exact verifyParams_configuredIff K d r hr hi
  case configureParams =>
    obtain ⟨r, hr, rfl⟩ := h
    rw [configureParams_fst K d r hr]; exact hi
  case processMessage m =>
    subst h
    unfold ConfiguredIffState
    rw [(processMessage_settings K d m).2.1, (processMessage_settings K d m).2.2]; exact hi
  case setGains p i d' => subst h; exact hset.1 p i d'
  case setMode mode => subst h; exact hset.2.1 mode
  case setModeGains mode p i d' => subst h; exact hset.2.2 mode p i d'
  case setEncoderCPR n => subst h; exact hi
  case setGearRatio n => subst h; exact hi
  case received => subst h; exact hi
  all_goals
    subst h
    unfold ConfiguredIffState at hi ⊢
    simp only [ha]
    exact hi

theorem run_configuredIff (K : Proto) (ops : List Op) :
    ∀ d d1 : Driver, run K d ops = some d1 → ConfiguredIffState d → ConfiguredIffState d1 := by
  induction ops with
  | nil => intro d d1 h hi; simp only [run, Option.some.injEq] at h; subst h; exact hi
  | cons op ops ih =>
    intro d d1 h hi
    simp only [run, Option.bind_eq_some] at h
    obtain ⟨d2, h2, h3⟩ := h
    exact ih d2 d1 h3 (step_configuredIff K d d2 op h2 hi)

theorem verifyParams_voltageNoGain (K : Proto) (d : Driver) (hi : VoltageNoGain K d) :
    ∃ r, verifyParams K d = some r ∧ VoltageNoGain K r.1 := by
  obtain ⟨hm, hg⟩ := hi
  have hsw : ∃ r, verifyParamsSwitch K d = some r ∧ VoltageNoGain K r.1 := by
    unfold verifyParamsSwitch VoltageNoGain
    cases hs : d.state_ <;> simp only [hs] <;> simp only [hs, ConfigurationState.isGain] at hg
    all_goals
      first
      | exact ⟨_, rfl, hm, by simp [ConfigurationState.isGain, hs]⟩
      | (split_ifs <;> first
          | contradiction
          | exact ⟨_, rfl, hm, by
              simp [ConfigurationState.isGain, hs, lastPower, lastMode, clearReceived]⟩)
      | exact absurd hg (by decide)
  obtain ⟨r, hr, hm1, hg1⟩ := hsw
  refine ⟨_, by simp only [verifyParams, hr, Option.map_some']; rfl, ?_, ?_⟩
  · show (verifyParamsTail r.1).control_mode_ = _
    rw [(verifyParamsTail_settings r.1).2.1]; exact hm1
  · show (verifyParamsTail r.1).state_.isGain = false
    unfold verifyParamsTail
    split_ifs
    · rfl
    · exact hg1

theorem step_voltageNoGain (K : Proto) (d : Driver) (op : Op) (hop : op.isLadder = true)
    (hi : VoltageNoGain K d) : ∃ d1, step K d op = some d1 ∧ VoltageNoGain K d1 := by
  cases op <;> simp only [Op.isLadder] at hop <;> try contradiction
  case verifyParams =>
    obtain ⟨r, hr, h⟩ := verifyParams_voltageNoGain K d hi
    exact ⟨r.1, by simp [step, hr], h⟩
  case configureParams =>
    have hdef : ∃ r, configureParams K d = some r := by
      obtain ⟨-, hg⟩ := hi
      unfold configureParams
      cases hs : d.state_ <;> simp only [hs] <;> simp only [hs, ConfigurationState.isGain] at hg
      all_goals
        first
        | exact absurd hg (by decide)
        | exact ⟨_, rfl⟩
        | (split_ifs <;> exact ⟨_, rfl⟩)
    obtain ⟨r, hr⟩ := hdef
    refine ⟨r.1, by simp [step, hr], ?_⟩
    rw [configureParams_fst K d r hr]; exact hi
  case processMessage m =>
    refine ⟨_, rfl, ?_⟩
    unfold VoltageNoGain
    rw [(processMessage_settings K d m).2.1, (processMessage_settings K d m).1.2.1]; exact hi

theorem run_voltageNoGain (K : Proto) (ops : List Op) :
    ∀ d : Driver, (∀ op ∈ ops, op.isLadder = true) → VoltageNoGain K d →
      ∃ d1, run K d ops = some d1 ∧ VoltageNoGain K d1 := by
  induction ops with
  | nil => intro d _ hi; exact ⟨d, rfl, hi⟩
  | cons op ops ih =>
    intro d hops hi
    obtain ⟨d1, h1, hi1⟩ := step_voltageNoGain K d op (hops op (List.mem_cons_self _ _)) hi
    obtain ⟨d2, h2, hi2⟩ := ih d1 (fun o ho => hops o (List.mem_cons_of_mem _ ho)) hi1
    exact ⟨d2, by simp [run, h1, h2], hi2⟩

theorem gainRequest_closedLoop (K : Proto) (hK : K.ModesDistinct) (d : Driver)
    (hm : ClosedLoopMode K d) (ictrl pos spd : Nat) :
    ∃ code, gainRequest K d ictrl pos spd = [getMsg (code ||| d.device_number_)] ∧
      ((d.control_mode_ = K.MODE_CURRENT ∧ code = ictrl) ∨
       (d.control_mode_ = K.MODE_POSITION ∧ code = pos) ∨
       (d.control_mode_ = K.MODE_SPEED ∧ code = spd)) := by
  obtain ⟨-, -, -, h4, h5, h6⟩ := hK
  unfold gainRequest sendId
  rcases hm with hm | hm | hm
  · exact ⟨ictrl, by simp [hm], Or.inl ⟨hm, rfl⟩⟩
  · exact ⟨pos, by simp [hm, Ne.symm h4], Or.inr (Or.inl ⟨hm, rfl⟩)⟩
  · exact ⟨spd, by simp [hm, Ne.symm h5, Ne.symm h6], Or.inr (Or.inr ⟨hm, rfl⟩)⟩

theorem verifyParams_of_switch_same (K : Proto) (d d1 : Driver) (out : List Frame)
    (h : verifyParamsSwitch K d = some (d1, out)) (hs : d1.state_ ≠ .VerifiedParameters) :
    verifyParams K d = some (d1, out) := by
  simp [verifyParams, h, verifyParamsTail, hs]

theorem cache_get_set (c : Cache) (r r1 : FieldRef) (f : Field) :
    (c.set r f).get r1 = if r1 = r then f else c.get r1 := by
  obtain ⟨t, i⟩ := r
  obtain ⟨t1, i1⟩ := r1
  cases t <;> cases t1 <;> simp [Cache.set, Cache.get, Cache.table, setSlot]

theorem clearReceived_data (d : Driver) (r r1 : FieldRef) :
    ((clearReceived d r).cache.get r1).data = (d.cache.get r1).data := by
  simp only [clearReceived, cache_get_set]
  split_ifs with h
  · rw [h]
  · rfl

theorem sameButFlags_reads (K : Proto) (d d1 : Driver) (h : SameButFlags d d1) :
    (lastPower K d1).1 = (lastPower K d).1 ∧ (lastMode K d1).1 = (lastMode K d).1 ∧
    posEncoderRef K d1 = posEncoderRef K d ∧ spdEncoderRef K d1 = spdEncoderRef K d ∧
    encoderCounts K d1 = encoderCounts K d ∧
    getRawP K d1 = getRawP K d ∧ getRawI K d1 = getRawI K d ∧ getRawD K d1 = getRawD K d ∧
    getP K d1 = getP K d ∧ getI K d1 = getI K d ∧ getD K d1 = getD K d := by
  obtain ⟨⟨h1, h2, h3, h4, h5, h6, h7⟩, h8, h9, h10⟩ := h
  have hg : gainFieldP K d1 = gainFieldP K d ∧ gainFieldI K d1 = gainFieldI K d ∧
      gainFieldD K d1 = gainFieldD K d := by
    simp [gainFieldP, gainFieldI, gainFieldD, h2]
  simp [lastPower, lastMode, posEncoderRef, spdEncoderRef, encoderCounts, getRawP, getRawI,
    getRawD, getP, getI, getD, hg, h10, clearReceived_data, Field.interpretFixed16x16]

theorem verifyParamsSwitch_sameButFlags (K : Proto) (d d1 : Driver) (h : SameButFlags d d1) :
    (verifyParamsSwitch K d1).map (fun r => (r.1.state_, r.1.configured_, r.2)) =
      (verifyParamsSwitch K d).map (fun r => (r.1.state_, r.1.configured_, r.2)) := by
  obtain ⟨e1, e2, e3, e4, e5, e6, e7, e8, e9, e10, e11⟩ := sameButFlags_reads K d d1 h
  obtain ⟨⟨h1, h2, h3, h4, h5, h6, h7⟩, h8, h9, h10⟩ := h
  have hreq : ∀ a b c, gainRequest K d1 a b c = gainRequest K d a b c := by
    intro a b c; simp [gainRequest, h1, h2]
  unfold verifyParamsSwitch
  rw [h8]
  cases hs : d.state_ <;>
    simp only [e1, e2, e3, e4, e5, e6, e7, e8, e9, e10, e11, h1, h2, h3, h4, h5, h6, hreq]
  all_goals
    first
    | (simp [h8, h9]; done)
    | (split_ifs <;> simp [lastPower, lastMode, clearReceived, h9, h8])
    | skip
  case PGain =>
    rcases getRawP K d with _ | raw
    · rfl
    · simp only [Option.some_bind]
      rcases verifyRaw16x16 raw d.gain_p_ with _ | ok
      · rfl
      · simp only [Option.some_bind]
        rcases getP K d with _ | x
        · rfl
        · cases ok <;> simp [h8, h9]
  case IGain =>
    rcases getRawI K d with _ | raw
    · rfl
    · simp only [Option.some_bind]
      rcases verifyRaw16x16 raw d.gain_i_ with _ | ok
      · rfl
      · simp only [Option.some_bind]
        rcases getI K d with _ | x
        · rfl
        · cases ok <;> simp [h8, h9]
  case DGain =>
    rcases getRawD K d with _ | raw
    · rfl
    · simp only [Option.some_bind]
      rcases verifyRaw16x16 raw d.gain_d_ with _ | ok
      · rfl
      · simp only [Option.some_bind]
        rcases getD K d with _ | x
        · rfl
        · cases ok <;> simp [h8, h9]

theorem cache_zero_get (r : FieldRef) : Cache.zero.get r = Field.zero := by
  obtain ⟨t, i⟩ := r
  cases t <;> rfl

theorem verifyParams_PowerFlag_pass (K : Proto) (d : Driver) (hs : d.state_ = .PowerFlag)
    (h0 : (lastPower K d).1 = 0) :
    verifyParams K d = some ({ (lastPower K d).2 with state_ := .EncoderPosRef }, []) := by
  simp [verifyParams, verifyParamsSwitch, hs, h0, verifyParamsTail]

/-- The first two calls on a fresh driver over a zeroed cache: the PowerFlag
check passes although no power frame was ever received. -/
theorem fresh_leaves_PowerFlag (K : Proto) (device_number : Nat) :
    ∃ d, run K (Driver.new K device_number Cache.zero) [.verifyParams, .verifyParams] = some d ∧
      d.state_ = .EncoderPosRef ∧ receivedPower K d = false := by
  let d0 := Driver.new K device_number Cache.zero
  let d1 : Driver := { d0 with state_ := .PowerFlag }
  let d2 : Driver := { (lastPower K d1).2 with state_ := .EncoderPosRef }
  have h1 : verifyParams K d0 = some (d1, []) := by
    simp [verifyParams, verifyParamsSwitch, d0, d1, Driver.new, verifyParamsTail]
  have h0 : (lastPower K d1).1 = 0 := by
    simp [lastPower, clearReceived, cache_get_set, d0, d1, Driver.new, cache_zero_get,
      Field.zero]
  have h2 : verifyParams K d1 = some (d2, []) := verifyParams_PowerFlag_pass K d1 rfl h0
  have hrun : run K d0 [.verifyParams, .verifyParams] = some d2 := by
    show ((verifyParams K d0).map Prod.fst).bind
      (fun x => ((verifyParams K x).map Prod.fst).bind fun y => some y) = some d2
    rw [h1]
    simp only [Option.map_some', Option.some_bind]
    rw [h2]
    rfl
  refine ⟨d2, hrun, rfl, ?_⟩
  simp [receivedPower, lastPower, clearReceived, cache_get_set, d2]

theorem verifyParams_view (K : Proto) (d : Driver) :
    (verifyParams K d).map (fun r => (r.1.state_, r.1.configured_, r.2)) =
      ((verifyParamsSwitch K d).map (fun r => (r.1.state_, r.1.configured_, r.2))).map
        (fun t => if t.1 = ConfigurationState.VerifiedParameters
          then (ConfigurationState.Configured, true, t.2.2) else t) := by
  unfold verifyParams
  rcases verifyParamsSwitch K d with _ | r
  · rfl
  · simp only [Option.map_some', verifyParamsTail]
    split_ifs <;> rfl

theorem land_class_test (api M C x : Nat) (hC : C &&& M = C) (hx : x &&& C = x) :
    api &&& M &&& x = (api &&& C) &&& x := by
  apply Nat.eq_of_testBit_eq
  intro i
  have h1 := congrArg (fun n => n.testBit i) hC
  have h2 := congrArg (fun n => n.testBit i) hx
  simp only [Nat.testBit_land] at h1 h2 ⊢
  cases hxi : x.testBit i <;> cases hCi : C.testBit i <;> cases hMi : M.testBit i <;>
    simp_all

theorem processMessageField_of_class (K : Proto) (classMask : Nat)
    (hK : K.GroupCodesExclusive classMask) (api : Nat) (g : Nat × Table)
    (hg : g ∈ groupTables K) (hc : api &&& classMask = g.1) :
    processMessageField K api =
      some { table := g.2, index := (api &&& K.CAN_MSGID_API_ID_M) >>> K.CAN_MSGID_API_S } := by
  obtain ⟨hC, hx, hp⟩ := hK
  have ht : ∀ x ∈ groupTables K, api &&& K.CAN_MSGID_API_M &&& x.1 = g.1 &&& x.1 := by
    intro x hxm
    rw [land_class_test api _ classMask x.1 hC (hx x hxm), hc]
  simp only [groupTables, List.mem_cons, List.mem_singleton, List.not_mem_nil, or_false,
    forall_eq_or_imp, forall_eq] at ht hg
  simp only [groupTables, List.pairwise_cons, List.mem_cons, List.mem_singleton,
    List.not_mem_nil, or_false, forall_eq_or_imp, forall_eq, List.Pairwise.nil,
    and_true, IsEmpty.forall_iff, implies_true] at hp
  obtain ⟨t1, t2, t3, t4, t5, t6, t7⟩ := ht
  unfold processMessageField
  rw [t1, t2, t3, t4, t5, t6, t7]
  rcases hg with rfl | rfl | rfl | rfl | rfl | rfl | rfl <;>
    simp_all [cfgFieldForMessage, statusFieldForMessage, ictrlFieldForMessage,
      posFieldForMessage, vcompFieldForMessage, spdFieldForMessage, voltageFieldForMessage]

theorem stdCopy_full (src dst : List Nat) (h : dst.length ≤ src.length) :
    stdCopy src dst = src := by
  simp [stdCopy, List.drop_eq_nil_of_le h]

theorem processMessage_stored (K : Proto) (d : Driver) (m : Frame) (r : FieldRef)
    (ha : getDeviceNumber K m = d.device_number_) (hd : m.dlc ≠ 0)
    (hr : processMessageField K (getApi K m) = some r) :
    processMessage K d m =
      { d with
        cache := d.cache.set r (Field.mk (stdCopy m.data (d.cache.get r).data) true) } := by
  simp [processMessage, ha, hd, hr]

theorem processMessageField_isSome (K : Proto) (hv : K.CAN_API_MC_VOLTAGE = 0) (api : Nat) :
    ∃ r, processMessageField K api = some r := by
  unfold processMessageField
  rw [hv]
  split_ifs <;> first | exact ⟨_, rfl⟩ | simp_all

theorem cache_zero_eightBytes : Cache.zero.EightBytes := by
  intro r
  rw [cache_zero_get]; rfl

theorem processMessage_eightBytes (K : Proto) (d : Driver) (m : Frame)
    (hm : m.data.length = 8) (hc : d.cache.EightBytes) :
    (processMessage K d m).cache.EightBytes := by
  unfold processMessage
  split_ifs
  · exact hc
  · exact hc
  · cases hf : processMessageField K (getApi K m) with
    | none => exact hc
    | some r =>
      intro r1
      simp only [cache_get_set]
      split_ifs
      · simp [stdCopy, hm, hc r]
      · exact hc r1

theorem testBit_of_land_eq (x m : Nat) (h : x &&& m = x) (i : Nat) :
    x.testBit i = true → m.testBit i = true := by
  have h1 := congrArg (fun n => n.testBit i) h
  simp only [Nat.testBit_land] at h1
  intro hx
  rw [hx] at h1
  simpa using h1

theorem testBit_of_land_zero (x m : Nat) (h : x &&& m = 0) (i : Nat) :
    x.testBit i = true → m.testBit i = false := by
  have h1 := congrArg (fun n => n.testBit i) h
  simp only [Nat.testBit_land, Nat.zero_testBit] at h1
  intro hx
  rw [hx] at h1
  simpa using h1

theorem tdiv_eq_truncTowardZero (s : Nat) (x : ℚ) :
    Int.tdiv ((s : Int) * x.num) x.den = truncTowardZero (x * s) := by
  have hx : x * s = (((s : Int) * x.num : Int) : ℚ) / ((x.den : Nat) : ℚ) := by
    have h := Rat.num_div_den x
    push_cast
    rw [mul_div_assoc, h, mul_comm]
  have hden : (0 : Int) ≤ (x.den : Int) := Int.natCast_nonneg _
  unfold truncTowardZero
  by_cases h0 : 0 ≤ x
  · have hn : 0 ≤ x.num := Rat.num_nonneg.mpr h0
    have hs : 0 ≤ x * s := mul_nonneg h0 (Nat.cast_nonneg s)
    rw [if_pos hs, hx, Rat.floor_intCast_div_natCast]
    exact Int.tdiv_eq_ediv (mul_nonneg (Int.natCast_nonneg _) hn) hden
  · have hlt : x < 0 := lt_of_not_ge h0
    have hn : x.num < 0 := Rat.num_neg.mpr hlt
    rcases Nat.eq_zero_or_pos s with rfl | hpos
    · simp
    · have hs : ¬ 0 ≤ x * s := by
        have : x * s < 0 := mul_neg_of_neg_of_pos hlt (Nat.cast_pos.mpr hpos)
        exact not_le.mpr this
      have ha : 0 ≤ -((s : Int) * x.num) := by
        have : (s : Int) * x.num ≤ 0 :=
          mul_nonpos_of_nonneg_of_nonpos (Int.natCast_nonneg _) (le_of_lt hn)
        omega
      have hc : ⌈((((s : Int) * x.num : Int) : ℚ) / ((x.den : Nat) : ℚ))⌉
          = -((-((s : Int) * x.num)) / (x.den : Int)) := by
        rw [← Rat.floor_intCast_div_natCast, ← neg_neg (((((s : Int) * x.num : Int) : ℚ)
          / ((x.den : Nat) : ℚ))), Int.ceil_neg]
        congr 2
        push_cast
        ring
      rw [if_neg hs, hx, hc, ← Int.tdiv_eq_ediv ha hden, Int.neg_tdiv, neg_neg]

theorem truncTowardZero_mul_65536 (x : ℚ) :
    truncTowardZero (x * 65536) = Int.tdiv (65536 * x.num) x.den := by
  have h := tdiv_eq_truncTowardZero 65536 x
  simp only [Nat.cast_ofNat] at h
  exact h.symm

theorem toFixed16x16_eq (x : ℚ)
    (hr : -2147483648 ≤ truncTowardZero (x * 65536) ∧
      truncTowardZero (x * 65536) ≤ 2147483647) :
    toFixed16x16 x = some (truncTowardZero (x * 65536)) := by
  rw [truncTowardZero_mul_65536] at hr ⊢
  unfold toFixed16x16
  have h16 : (((1 <<< 16 : Nat) : Int)) = 65536 := by decide
  simp only [h16]
  rw [if_pos hr]

theorem int32Bytes_eq (t : Int) :
    int32Bytes t = [leByte t 0, leByte t 1, leByte t 2, leByte t 3] := by
  unfold int32Bytes leByte
  have h0 : 0 ≤ t % 4294967296 := Int.emod_nonneg _ (by decide)
  simp only [List.cons.injEq, and_true]
  norm_num
  refine ⟨?_, ?_, ?_, ?_⟩ <;> omega

theorem int32Bytes_getD (t : Int) (k : Nat) (hk : k < 4) :
    (int32Bytes t).getD k 0 = leByte t k := by
  rw [int32Bytes_eq]
  interval_cases k <;> rfl

theorem verifyRaw16x16_of_toFixed (r : List Nat) (x : ℚ) (t : Int)
    (ht : toFixed16x16 x = some t) :
    ∃ b, verifyRaw16x16 r x = some b ∧ (b = true ↔ ∀ k < 4, r.getD k 0 = leByte t k) := by
  unfold verifyRaw16x16
  rw [ht, Option.map_some']
  refine ⟨_, rfl, ?_⟩
  simp only [List.all_eq_true, List.mem_range, beq_iff_eq]
  constructor
  · intro h k hk
    rw [h k hk, int32Bytes_getD t k hk]
  · intro h k hk
    rw [h k hk, int32Bytes_getD t k hk]

theorem statusQuantity_received_eq (K : Proto) (q : StatusQuantity) (d : Driver) :
    q.received K d = (d.cache.get (q.slot K)).received := by
  cases q <;> rfl

theorem statusQuantity_last_snd (K : Proto) (q : StatusQuantity) (d : Driver) :
    (q.last K d).2 = clearReceived d (q.slot K) := by
  cases q <;> rfl

theorem clearReceived_get (d : Driver) (r r1 : FieldRef) :
    (clearReceived d r).cache.get r1 =
      if r1 = r then { d.cache.get r with received := false } else d.cache.get r1 := by
  simp only [clearReceived, cache_get_set]

theorem statusQuantity_last_fst_congr (K : Proto) (q : StatusQuantity) (d d1 : Driver)
    (h : (d1.cache.get (q.slot K)).data = (d.cache.get (q.slot K)).data) :
    (q.last K d1).1 = (q.last K d).1 := by
  have hc : ∀ e : Driver, ((clearReceived e (q.slot K)).cache.get (q.slot K)).data
      = (e.cache.get (q.slot K)).data := fun e => clearReceived_data e _ _
  have h2 := (hc d1).trans (h.trans (hc d).symm)
  cases q <;>
    simp only [StatusQuantity.last, lastDutyCycle, lastBusVoltage, lastCurrent, lastPosition,
      lastSpeed, lastFault, lastPower, lastMode, lastOutVoltage, lastTemperature,
      lastAnalogInput, Field.interpretFixed8x8, Field.interpretFixed16x16] <;>
    simp only [StatusQuantity.slot, StatusQuantity.api] at h2 <;>
    rw [h2]

theorem verifyParamsTail_cache (d : Driver) : (verifyParamsTail d).cache = d.cache := by
  unfold verifyParamsTail
  split_ifs <;> rfl

theorem verifyParamsSwitch_cache (K : Proto) (d : Driver) (r : Driver × List Frame)
    (h : verifyParamsSwitch K d = some r) :
    r.1.cache =
      if d.state_ = .PowerFlag then (clearReceived d (powerStatusSlot K)).cache
      else if d.state_ = .ClosedLoop ∨ d.state_ = .ControlMode then
        (clearReceived d (modeStatusSlot K)).cache
      else d.cache := by
  unfold verifyParamsSwitch at h
  cases hs : d.state_ <;> simp only [hs] at h
  all_goals
    first
    | (simp only [Option.some.injEq] at h; subst h; simp)
    | (split_ifs at h <;> simp only [Option.some.injEq] at h <;> subst h <;>
        simp [lastPower, lastMode, powerStatusSlot, modeStatusSlot])
    | (simp only [Option.bind_eq_some, Option.map_eq_some'] at h
       obtain ⟨raw, _, ok, _, x, _, rfl⟩ := h
       cases ok <;> simp)

theorem getDeviceNumber_lor (K : Proto) (c dn : Nat) (f : Frame) (hf : f.id = c ||| dn)
    (hc : c &&& K.CAN_MSGID_DEVNO_M = 0) (hd : dn &&& K.CAN_MSGID_DEVNO_M = dn) :
    getDeviceNumber K f = dn := by
  unfold getDeviceNumber
  rw [hf]
  apply Nat.eq_of_testBit_eq
  intro i
  have h1 := testBit_of_land_zero _ _ hc i
  have h3 := testBit_of_land_eq _ _ hd i
  simp only [Nat.testBit_land, Nat.testBit_lor]
  cases ha : c.testBit i <;> cases hdn : dn.testBit i <;>
    cases hD : K.CAN_MSGID_DEVNO_M.testBit i <;> simp_all

theorem gainCommand_out (K : Proto) (d : Driver) (ictrl pos spd : Nat) (gain : ℚ)
    (out : List Frame) (h : gainCommand K d ictrl pos spd gain = some out) :
    (ClosedLoopMode K d → ∃ f c, out = [f] ∧ (c = ictrl ∨ c = pos ∨ c = spd) ∧
      f.id = c ||| d.device_number_) ∧
    (¬ ClosedLoopMode K d → out = []) := by
  unfold gainCommand sendFixed16x16 at h
  unfold ClosedLoopMode
  split_ifs at h with h1 h2 h3
  · simp only [Option.map_eq_some'] at h
    obtain ⟨t, -, rfl⟩ := h
    exact ⟨fun _ => ⟨_, ictrl, rfl, Or.inl rfl, rfl⟩, fun hn => absurd (Or.inl h1) hn⟩
  · simp only [Option.map_eq_some'] at h
    obtain ⟨t, -, rfl⟩ := h
    exact ⟨fun _ => ⟨_, pos, rfl, Or.inr (Or.inl rfl), rfl⟩,
      fun hn => absurd (Or.inr (Or.inl h2)) hn⟩
  · simp only [Option.map_eq_some'] at h
    obtain ⟨t, -, rfl⟩ := h
    exact ⟨fun _ => ⟨_, spd, rfl, Or.inr (Or.inr rfl), rfl⟩,
      fun hn => absurd (Or.inr (Or.inr h3)) hn⟩
  · simp only [Option.some.injEq] at h
    subst h
    exact ⟨fun hm => by tauto, fun _ => rfl⟩

theorem configureParams_gain_out (K : Proto) (d : Driver) (r : Driver × List Frame)
    (h : configureParams K d = some r) (hg : d.state_.isGain = true) :
    (ClosedLoopMode K d → OneConfigureFrame K d r.2) ∧ (¬ ClosedLoopMode K d → r.2 = []) := by
  unfold configureParams at h
  cases hs : d.state_ <;> simp only [hs, ConfigurationState.isGain] at h hg <;>
    first
    | exact absurd hg (by decide)
    | (simp only [Option.map_eq_some'] at h
       obtain ⟨out, hout, rfl⟩ := h
       obtain ⟨h1, h2⟩ := gainCommand_out K d _ _ _ _ out hout
       refine ⟨fun hm => ?_, h2⟩
       obtain ⟨f, c, hf, hc, hid⟩ := h1 hm
       refine ⟨f, c, hf, ?_, hid⟩
       rcases hc with rfl | rfl | rfl <;> simp [configureCodes])

theorem configureParams_plain_out (K : Proto) (d : Driver) (hg : d.state_.isGain = false) :
    ∃ out, configureParams K d = some (d, out) ∧
      ((d.state_ = .PowerFlag ∨ d.state_ = .EncoderPosRef ∨ d.state_ = .EncoderSpdRef ∨
          d.state_ = .EncoderCounts ∨ d.state_ = .ClosedLoop ∨
          (d.state_ = .ControlMode ∧
            (d.control_mode_ = K.MODE_VOLTAGE ∨ ClosedLoopMode K d))) →
        OneConfigureFrame K d out) ∧
      ((d.state_ = .Initializing ∨ d.state_ = .VerifiedParameters ∨ d.state_ = .Configured ∨
          d.state_ = .Unknown ∨
          (d.state_ = .ControlMode ∧
            ¬ (d.control_mode_ = K.MODE_VOLTAGE ∨ ClosedLoopMode K d))) → out = []) := by
  unfold configureParams OneConfigureFrame ClosedLoopMode
  cases hs : d.state_ <;> simp only [hs, ConfigurationState.isGain] at hg ⊢
  case PGain => exact absurd hg (by decide)
  case IGain => exact absurd hg (by decide)
  case DGain => exact absurd hg (by decide)
  case Unknown => exact ⟨_, rfl, by simp, by simp⟩
  case Initializing => exact ⟨_, rfl, by simp, by simp⟩
  case VerifiedParameters => exact ⟨_, rfl, by simp, by simp⟩
  case Configured => exact ⟨_, rfl, by simp, by simp⟩
  case ControlMode =>
    split_ifs with h1 h2 h3 h4
    · exact ⟨_, rfl, fun _ => ⟨_, _, rfl, by simp [configureCodes], rfl⟩, by simp [h1]⟩
    · exact ⟨_, rfl, fun _ => ⟨_, _, rfl, by simp [configureCodes], rfl⟩, by simp [h2]⟩
    · exact ⟨_, rfl, fun _ => ⟨_, _, rfl, by simp [configureCodes], rfl⟩, by simp [h3]⟩
    · exact ⟨_, rfl, fun _ => ⟨_, _, rfl, by simp [configureCodes], rfl⟩, by simp [h4]⟩
    · exact ⟨_, rfl, by simp [h1, h2, h3, h4], by simp⟩
  all_goals
    exact ⟨_, rfl, fun _ => ⟨_, _, rfl, by simp [configureCodes], rfl⟩, by simp⟩

theorem gainCommand_isSome (K : Proto) (d : Driver) (ictrl pos spd : Nat) (gain : ℚ)
    (hr : ClosedLoopMode K d → (toFixed16x16 gain).isSome) :
    ∃ out, gainCommand K d ictrl pos spd gain = some out := by
  unfold gainCommand sendFixed16x16
  unfold ClosedLoopMode at hr
  split_ifs with h1 h2 h3
  · obtain ⟨t, ht⟩ := Option.isSome_iff_exists.mp (hr (Or.inl h1))
    exact ⟨_, by rw [ht]; rfl⟩
  · obtain ⟨t, ht⟩ := Option.isSome_iff_exists.mp (hr (Or.inr (Or.inl h2)))
    exact ⟨_, by rw [ht]; rfl⟩
  · obtain ⟨t, ht⟩ := Option.isSome_iff_exists.mp (hr (Or.inr (Or.inr h3)))
    exact ⟨_, by rw [ht]; rfl⟩
  · exact ⟨_, rfl⟩

theorem configureParams_gain_isSome (K : Proto) (d : Driver)
    (hg : d.state_.isGain = true) (hr : ClosedLoopMode K d → GainsInRange d) :
    ∃ out, configureParams K d = some (d, out) := by
  unfold configureParams
  cases hs : d.state_ <;> simp only [hs, ConfigurationState.isGain] at hg ⊢ <;>
    first
    | exact absurd hg (by decide)
    | (obtain ⟨out, ho⟩ := gainCommand_isSome K d K.LM_API_ICTRL_PC K.LM_API_POS_PC
        K.LM_API_SPD_PC d.gain_p_ (fun hm => (hr hm).1)
       exact ⟨out, by rw [ho]; rfl⟩)
    | (obtain ⟨out, ho⟩ := gainCommand_isSome K d K.LM_API_ICTRL_IC K.LM_API_POS_IC
        K.LM_API_SPD_IC d.gain_i_ (fun hm => (hr hm).2.1)
       exact ⟨out, by rw [ho]; rfl⟩)
    | (obtain ⟨out, ho⟩ := gainCommand_isSome K d K.LM_API_ICTRL_DC K.LM_API_POS_DC
        K.LM_API_SPD_DC d.gain_d_ (fun hm => (hr hm).2.2)
       exact ⟨out, by rw [ho]; rfl⟩)

theorem oneConfigureFrame_device (K : Proto) (d : Driver) (out : List Frame)
    (hK : K.CodesWithoutDeviceBits)
    (hdev : d.device_number_ &&& K.CAN_MSGID_DEVNO_M = d.device_number_)
    (h : OneConfigureFrame K d out) :
    ∃ f, out = [f] ∧ getDeviceNumber K f = d.device_number_ := by
  obtain ⟨f, c, hf, hc, hid⟩ := h
  exact ⟨f, hf, getDeviceNumber_lor K c _ f hid (hK c hc) hdev⟩

theorem getApi_lor (K : Proto)
    (hM : K.CAN_MSGID_DEVNO_M &&& K.CAN_MSGID_FULL_M = K.CAN_MSGID_DEVNO_M)
    (c dn : Nat) (hd : dn &&& K.CAN_MSGID_DEVNO_M = dn) (f : Frame) (hf : f.id = c ||| dn) :
    getApi K f = getApi K (getMsg c) := by
  unfold getApi getMsg
  rw [hf]
  apply Nat.eq_of_testBit_eq
  intro i
  have h1 := testBit_of_land_eq _ _ hM i
  have h3 := testBit_of_land_eq _ _ hd i
  simp only [Nat.testBit_land, Nat.testBit_lor, Nat.testBit_xor]
  cases ha : c.testBit i <;> cases hdn : dn.testBit i <;>
    cases hD : K.CAN_MSGID_DEVNO_M.testBit i <;> cases hF : K.CAN_MSGID_FULL_M.testBit i <;>
    simp_all

theorem processMessage_echo (K : Proto) (classMask : Nat) (hK : K.GroupCodesExclusive classMask)
    (hM : K.CAN_MSGID_DEVNO_M &&& K.CAN_MSGID_FULL_M = K.CAN_MSGID_DEVNO_M)
    (d : Driver) (hdev : d.device_number_ &&& K.CAN_MSGID_DEVNO_M = d.device_number_)
    (c : Nat) (g : Nat × Table) (hg : g ∈ groupTables K) (hc : K.CodeInGroup classMask c g.1)
    (e : Frame) (hid : e.id = c ||| d.device_number_) (hdlc : e.dlc ≠ 0) :
    processMessage K d e =
      { d with
        cache := d.cache.set
          { table := g.2,
            index := (getApi K (getMsg c) &&& K.CAN_MSGID_API_ID_M) >>> K.CAN_MSGID_API_S }
          (Field.mk (stdCopy e.data (d.cache.get
            { table := g.2,
              index := (getApi K (getMsg c) &&& K.CAN_MSGID_API_ID_M) >>>
                K.CAN_MSGID_API_S }).data) true) } := by
  have ha : getApi K e = getApi K (getMsg c) := getApi_lor K hM c _ hdev e hid
  have hdn : getDeviceNumber K e = d.device_number_ :=
    getDeviceNumber_lor K c _ e hid hc.1 hdev
  have hf := processMessageField_of_class K classMask hK (getApi K e) g hg (by rw [ha]; exact hc.2)
  rw [ha] at hf
  have := processMessage_stored K d e _ hdn hdlc (by rw [ha]; exact hf)
  exact this

theorem processMessage_echo_data (K : Proto) (classMask : Nat)
    (hK : K.GroupCodesExclusive classMask)
    (hM : K.CAN_MSGID_DEVNO_M &&& K.CAN_MSGID_FULL_M = K.CAN_MSGID_DEVNO_M)
    (d : Driver) (hdev : d.device_number_ &&& K.CAN_MSGID_DEVNO_M = d.device_number_)
    (c : Nat) (g : Nat × Table) (hg : g ∈ groupTables K) (hc : K.CodeInGroup classMask c g.1)
    (e : Frame) (hid : e.id = c ||| d.device_number_) (hdlc : e.dlc ≠ 0) :
    ((processMessage K d e).cache.get
        { table := g.2,
          index := (getApi K (getMsg c) &&& K.CAN_MSGID_API_ID_M) >>> K.CAN_MSGID_API_S }).data =
      stdCopy e.data (d.cache.get
        { table := g.2,
          index := (getApi K (getMsg c) &&& K.CAN_MSGID_API_ID_M) >>>
            K.CAN_MSGID_API_S }).data := by
  rw [processMessage_echo K classMask hK hM d hdev c g hg hc e hid hdlc]
  simp [cache_get_set]

theorem stdCopy_getD (src dst : List Nat) (k : Nat) (hk : k < src.length) :
    (stdCopy src dst).getD k 0 = src.getD k 0 := by
  unfold stdCopy
  rw [List.getD_append _ _ _ _ hk]

theorem verifyRaw16x16_echo (x : ℚ) (t : Int) (ht : toFixed16x16 x = some t)
    (old : List Nat) :
    verifyRaw16x16 (stdCopy (int32Bytes t ++ [0, 0, 0, 0]) old) x = some true := by
  obtain ⟨b, hb, hiff⟩ := verifyRaw16x16_of_toFixed (stdCopy (int32Bytes t ++ [0, 0, 0, 0]) old) x t ht
  have : b = true := by
    rw [hiff]
    intro k hk
    have hl : (int32Bytes t ++ [0, 0, 0, 0]).length = 8 := by simp [int32Bytes]
    rw [stdCopy_getD _ _ _ (by omega), List.getD_append _ _ _ _ (by simp [int32Bytes]; omega)]
    exact int32Bytes_getD t k hk
  rw [hb, this]

theorem gain_step_echo (K : Proto) (classMask : Nat) (hK : K.GroupCodesExclusive classMask)
    (hM : K.CAN_MSGID_DEVNO_M &&& K.CAN_MSGID_FULL_M = K.CAN_MSGID_DEVNO_M)
    (d : Driver) (hdev : d.device_number_ &&& K.CAN_MSGID_DEVNO_M = d.device_number_)
    (ictrl pos spd : Nat) (gain : ℚ)
    (hi : K.CodeInGroup classMask ictrl K.CAN_API_MC_ICTRL)
    (hp : K.CodeInGroup classMask pos K.CAN_API_MC_POS)
    (hsp : K.CodeInGroup classMask spd K.CAN_API_MC_SPD)
    (hm : ClosedLoopMode K d) (t : Int) (ht : toFixed16x16 gain = some t) :
    ∃ c r, gainCommand K d ictrl pos spd gain = some [fixedFrame (c ||| d.device_number_) t] ∧
      gainRequest K d ictrl pos spd = [getMsg (c ||| d.device_number_)] ∧
      (if d.control_mode_ = K.MODE_CURRENT then
          some (ictrlFieldForMessage K (getApi K (getMsg ictrl)))
        else if d.control_mode_ = K.MODE_POSITION then
          some (posFieldForMessage K (getApi K (getMsg pos)))
        else if d.control_mode_ = K.MODE_SPEED then
          some (spdFieldForMessage K (getApi K (getMsg spd)))
        else none) = some r ∧
      ∀ e : Frame, e.id = c ||| d.device_number_ → e.data = int32Bytes t ++ [0, 0, 0, 0] →
        e.dlc ≠ 0 →
        verifyRaw16x16 ((processMessage K d e).cache.get r).data gain = some true := by
  unfold gainCommand gainRequest sendFixed16x16 sendId fixedFrame
  rw [ht]
  by_cases h1 : d.control_mode_ = K.MODE_CURRENT
  · refine ⟨ictrl, ictrlFieldForMessage K (getApi K (getMsg ictrl)), by simp only [if_pos h1]; rfl, by simp only [if_pos h1],
      by simp only [if_pos h1], ?_⟩
    intro e hid hdata hdlc
    have := processMessage_echo_data K classMask hK hM d hdev ictrl (K.CAN_API_MC_ICTRL, .ictrl)
      (by simp [groupTables]) hi e hid hdlc
    unfold ictrlFieldForMessage
    rw [this, hdata]
    exact verifyRaw16x16_echo gain t ht _
  by_cases h2 : d.control_mode_ = K.MODE_POSITION
  · refine ⟨pos, posFieldForMessage K (getApi K (getMsg pos)),
      by simp only [if_neg h1, if_pos h2]; rfl, by simp only [if_neg h1, if_pos h2],
      by simp only [if_neg h1, if_pos h2], ?_⟩
    intro e hid hdata hdlc
    have := processMessage_echo_data K classMask hK hM d hdev pos (K.CAN_API_MC_POS, .pos)
      (by simp [groupTables]) hp e hid hdlc
    unfold posFieldForMessage
    rw [this, hdata]
    exact verifyRaw16x16_echo gain t ht _
  by_cases h3 : d.control_mode_ = K.MODE_SPEED
  · refine ⟨spd, spdFieldForMessage K (getApi K (getMsg spd)),
      by simp only [if_neg h1, if_neg h2, if_pos h3]; rfl,
      by simp only [if_neg h1, if_neg h2, if_pos h3],
      by simp only [if_neg h1, if_neg h2, if_pos h3], ?_⟩
    intro e hid hdata hdlc
    have := processMessage_echo_data K classMask hK hM d hdev spd (K.CAN_API_MC_SPD, .spd)
      (by simp [groupTables]) hsp e hid hdlc
    unfold spdFieldForMessage
    rw [this, hdata]
    exact verifyRaw16x16_echo gain t ht _
  · rcases hm with h | h | h <;> contradiction

theorem verifyParams_PGain_echo (K : Proto) (classMask : Nat)
    (hK : K.GroupCodesExclusive classMask) (hL : K.GainCodesInGroups classMask)
    (hM : K.CAN_MSGID_DEVNO_M &&& K.CAN_MSGID_FULL_M = K.CAN_MSGID_DEVNO_M)
    (d : Driver) (hdev : d.device_number_ &&& K.CAN_MSGID_DEVNO_M = d.device_number_)
    (hs : d.state_ = .PGain) (hm : ClosedLoopMode K d) (t : Int)
    (ht : toFixed16x16 d.gain_p_ = some t) :
    ∃ c, configureParams K d = some (d, [fixedFrame (c ||| d.device_number_) t]) ∧
      (∃ r, verifyParams K d = some r ∧
        (r.1.state_ = d.state_ → r.2 = [getMsg (c ||| d.device_number_)])) ∧
      ∀ e : Frame, e.id = c ||| d.device_number_ → e.data = int32Bytes t ++ [0, 0, 0, 0] →
        e.dlc ≠ 0 →
        verifyParams K (processMessage K d e) =
          some (verifyParamsTail { processMessage K d e with state_ := .IGain }, []) := by
  obtain ⟨hLi, hLp, hLs⟩ := hL
  obtain ⟨c, r, hcmd, hreq, hfield, hecho⟩ := gain_step_echo K classMask hK hM d hdev
    K.LM_API_ICTRL_PC K.LM_API_POS_PC K.LM_API_SPD_PC d.gain_p_
    (hLi _ (by simp)) (hLp _ (by simp)) (hLs _ (by simp)) hm t ht
  refine ⟨c, ?_, ?_, ?_⟩
  · unfold configureParams
    simp only [hs, hcmd, Option.map_some']
  · obtain ⟨b, hb, -⟩ := verifyRaw16x16_of_toFixed (d.cache.get r).data d.gain_p_ t ht
    have hsw : verifyParamsSwitch K d =
        some (if b then ({ d with state_ := .IGain }, [])
          else (d, [getMsg (c ||| d.device_number_)])) := by
      unfold verifyParamsSwitch
      simp only [hs, getRawP, getP, gainFieldP, hfield, Option.map_some', Option.some_bind, hb,
        hreq]
    refine ⟨_, by unfold verifyParams; rw [hsw, Option.map_some'], ?_⟩
    cases b
    · intro _; rfl
    · intro hst
      simp [verifyParamsTail, hs] at hst
  · intro e hid hdata hdlc
    have hv := hecho e hid hdata hdlc
    obtain ⟨⟨-, hmode, hgp, hgi, hgd, -, -⟩, hst, -⟩ := processMessage_settings K d e
    have hfield2 : gainFieldP K (processMessage K d e) = some r := by
      unfold gainFieldP
      rw [hmode]
      exact hfield
    unfold verifyParams verifyParamsSwitch
    simp only [hst, hs, getRawP, getP, hfield2, Option.map_some', Option.some_bind, hgp, hv,
      if_true]

theorem verifyParams_IGain_echo (K : Proto) (classMask : Nat)
    (hK : K.GroupCodesExclusive classMask) (hL : K.GainCodesInGroups classMask)
    (hM : K.CAN_MSGID_DEVNO_M &&& K.CAN_MSGID_FULL_M = K.CAN_MSGID_DEVNO_M)
    (d : Driver) (hdev : d.device_number_ &&& K.CAN_MSGID_DEVNO_M = d.device_number_)
    (hs : d.state_ = .IGain) (hm : ClosedLoopMode K d) (t : Int)
    (ht : toFixed16x16 d.gain_i_ = some t) :
    ∃ c, configureParams K d = some (d, [fixedFrame (c ||| d.device_number_) t]) ∧
      (∃ r, verifyParams K d = some r ∧
        (r.1.state_ = d.state_ → r.2 = [getMsg (c ||| d.device_number_)])) ∧
      ∀ e : Frame, e.id = c ||| d.device_number_ → e.data = int32Bytes t ++ [0, 0, 0, 0] →
        e.dlc ≠ 0 →
        verifyParams K (processMessage K d e) =
          some (verifyParamsTail { processMessage K d e with state_ := .DGain }, []) := by
  obtain ⟨hLi, hLp, hLs⟩ := hL
  obtain ⟨c, r, hcmd, hreq, hfield, hecho⟩ := gain_step_echo K classMask hK hM d hdev
    K.LM_API_ICTRL_IC K.LM_API_POS_IC K.LM_API_SPD_IC d.gain_i_
    (hLi _ (by simp)) (hLp _ (by simp)) (hLs _ (by simp)) hm t ht
  refine ⟨c, ?_, ?_, ?_⟩
  · unfold configureParams
    simp only [hs, hcmd, Option.map_some']
  · obtain ⟨b, hb, -⟩ := verifyRaw16x16_of_toFixed (d.cache.get r).data d.gain_i_ t ht
    have hsw : verifyParamsSwitch K d =
        some (if b then ({ d with state_ := .DGain }, [])
          else (d, [getMsg (c ||| d.device_number_)])) := by
      unfold verifyParamsSwitch
      simp only [hs, getRawI, getI, gainFieldI, hfield, Option.map_some', Option.some_bind, hb,
        hreq]
    refine ⟨_, by unfold verifyParams; rw [hsw, Option.map_some'], ?_⟩
    cases b
    · intro _; rfl
    · intro hst
      simp [verifyParamsTail, hs] at hst
  · intro e hid hdata hdlc
    have hv := hecho e hid hdata hdlc
    obtain ⟨⟨-, hmode, hgp, hgi, hgd, -, -⟩, hst, -⟩ := processMessage_settings K d e
    have hfield2 : gainFieldI K (processMessage K d e) = some r := by
      unfold gainFieldI
      rw [hmode]
      exact hfield
    unfold verifyParams verifyParamsSwitch
    simp only [hst, hs, getRawI, getI, hfield2, Option.map_some', Option.some_bind, hgi, hv,
      if_true]

theorem verifyParams_DGain_echo (K : Proto) (classMask : Nat)
    (hK : K.GroupCodesExclusive classMask) (hL : K.GainCodesInGroups classMask)
    (hM : K.CAN_MSGID_DEVNO_M &&& K.CAN_MSGID_FULL_M = K.CAN_MSGID_DEVNO_M)
    (d : Driver) (hdev : d.device_number_ &&& K.CAN_MSGID_DEVNO_M = d.device_number_)
    (hs : d.state_ = .DGain) (hm : ClosedLoopMode K d) (t : Int)
    (ht : toFixed16x16 d.gain_d_ = some t) :
    ∃ c, configureParams K d = some (d, [fixedFrame (c ||| d.device_number_) t]) ∧
      (∃ r, verifyParams K d = some r ∧
        (r.1.state_ = d.state_ → r.2 = [getMsg (c ||| d.device_number_)])) ∧
      ∀ e : Frame, e.id = c ||| d.device_number_ → e.data = int32Bytes t ++ [0, 0, 0, 0] →
        e.dlc ≠ 0 →
        verifyParams K (processMessage K d e) =
          some (verifyParamsTail { processMessage K d e with state_ := .VerifiedParameters }, []) := by
  obtain ⟨hLi, hLp, hLs⟩ := hL
  obtain ⟨c, r, hcmd, hreq, hfield, hecho⟩ := gain_step_echo K classMask hK hM d hdev
    K.LM_API_ICTRL_DC K.LM_API_POS_DC K.LM_API_SPD_DC d.gain_d_
    (hLi _ (by simp)) (hLp _ (by simp)) (hLs _ (by simp)) hm t ht
  refine ⟨c, ?_, ?_, ?_⟩
  · unfold configureParams
    simp only [hs, hcmd, Option.map_some']
  · obtain ⟨b, hb, -⟩ := verifyRaw16x16_of_toFixed (d.cache.get r).data d.gain_d_ t ht
    have hsw : verifyParamsSwitch K d =
        some (if b then ({ d with state_ := .VerifiedParameters }, [])
          else (d, [getMsg (c ||| d.device_number_)])) := by
      unfold verifyParamsSwitch
      simp only [hs, getRawD, getD, gainFieldD, hfield, Option.map_some', Option.some_bind, hb,
        hreq]
    refine ⟨_, by unfold verifyParams; rw [hsw, Option.map_some'], ?_⟩
    cases b
    · intro _; rfl
    · intro hst
      simp [verifyParamsTail, hs] at hst
  · intro e hid hdata hdlc
    have hv := hecho e hid hdata hdlc
    obtain ⟨⟨-, hmode, hgp, hgi, hgd, -, -⟩, hst, -⟩ := processMessage_settings K d e
    have hfield2 : gainFieldD K (processMessage K d e) = some r := by
      unfold gainFieldD
      rw [hmode]
      exact hfield
    unfold verifyParams verifyParamsSwitch
    simp only [hst, hs, getRawD, getD, hfield2, Option.map_some', Option.some_bind, hgd, hv,
      if_true]

theorem uint16_of_bytes (v : Nat) (hv : v < 65536) :
    ((v % 256 % 65536) ||| (((v / 256 % 256) <<< 8) % 65536)) % 65536 = v := by
  have h1 : v / 256 % 256 = v / 256 := Nat.mod_eq_of_lt (by omega)
  have h2 : v % 256 % 65536 = v % 256 := Nat.mod_eq_of_lt (by omega)
  have h3 : (v / 256) <<< 8 = 2 ^ 8 * (v / 256) := by rw [Nat.shiftLeft_eq, Nat.mul_comm]
  have h4 : 2 ^ 8 * (v / 256) % 65536 = 2 ^ 8 * (v / 256) := Nat.mod_eq_of_lt (by omega)
  have h5 : v % 256 < 2 ^ 8 := by omega
  rw [h1, h2, h3, h4, Nat.lor_comm, ← Nat.mul_add_lt_is_or h5]
  omega

theorem encoderCounts_of_bytes (K : Proto) (d : Driver) (b0 b1 : Nat) (rest : List Nat)
    (h : (d.cache.get (cfgFieldForMessage K (getApi K (getMsg K.LM_API_CFG_ENC_LINES)))).data =
      b0 :: b1 :: rest) :
    encoderCounts K d = ((b0 % 65536) ||| ((b1 <<< 8) % 65536)) % 65536 := by
  unfold encoderCounts
  simp only [h, List.getD_cons_zero, List.getD_cons_succ]

theorem interpretFixed16x16_of_int32Bytes (t : Int)
    (ht : -2147483648 ≤ t ∧ t ≤ 2147483647) (f : Field) (rest : List Nat)
    (hf : f.data = int32Bytes t ++ rest) :
    f.interpretFixed16x16 = Rat.divInt t 65536 := by
  unfold Field.interpretFixed16x16
  rw [hf]
  unfold int32Bytes
  simp only [List.cons_append, List.getD_cons_zero, List.getD_cons_succ]
  have h0 : 0 ≤ t % 4294967296 := Int.emod_nonneg _ (by decide)
  have h1 : t % 4294967296 < 4294967296 := Int.emod_lt_of_pos _ (by decide)
  have hu : ((t % 4294967296).toNat : Int) = t % 4294967296 := Int.toNat_of_nonneg h0
  generalize (t % 4294967296).toNat = u at hu
  have hsum : u % 256 % 256 + 256 * (u / 256 % 256 % 256) + 65536 * (u / 65536 % 256 % 256) +
      16777216 * (u / 16777216 % 256 % 256) = u := by omega
  rw [hsum]
  congr 1
  split_ifs <;> omega

theorem abs_truncTowardZero_sub_lt (y : ℚ) : |(truncTowardZero y : ℚ) - y| < 1 := by
  unfold truncTowardZero
  split_ifs with h
  · rw [abs_lt]
    constructor
    · have := Int.lt_floor_add_one y
      linarith
    · have := Int.floor_le y
      linarith
  · rw [abs_lt]
    constructor
    · have := Int.le_ceil y
      linarith
    · have := Int.ceil_lt_add_one y
      linarith

theorem radPerSecToRpm_mul_inv (F : Type) [LinearOrderedField F] (pi g : F) (hpi : pi ≠ 0)
    (hg : g ≠ 0) :
    radPerSecToRpm pi g * rpmToRadPerSec pi g = 1 := by
  unfold radPerSecToRpm rpmToRadPerSec
  field_simp
  ring

theorem statusSpeedGet_echo (K : Proto) (classMask : Nat) (hK : K.GroupCodesExclusive classMask)
    (hc : K.CodeInGroup classMask K.LM_API_SPD_SET K.CAN_API_MC_SPD)
    (hM : K.CAN_MSGID_DEVNO_M &&& K.CAN_MSGID_FULL_M = K.CAN_MSGID_DEVNO_M)
    (d : Driver) (hdev : d.device_number_ &&& K.CAN_MSGID_DEVNO_M = d.device_number_)
    (t : Int) (ht : -2147483648 ≤ t ∧ t ≤ 2147483647)
    (e : Frame) (hid : e.id = K.LM_API_SPD_SET ||| d.device_number_)
    (hdata : e.data = int32Bytes t ++ [0, 0, 0, 0]) (hdlc : e.dlc ≠ 0) :
    (statusSpeedGet K (processMessage K d e)).1 = (t : ℚ) / 65536 := by
  have hslot := processMessage_echo_data K classMask hK hM d hdev K.LM_API_SPD_SET
    (K.CAN_API_MC_SPD, .spd) (by simp [groupTables]) hc e hid hdlc
  rw [hdata] at hslot
  unfold statusSpeedGet
  simp only [clearReceived_get, if_true]
  rw [interpretFixed16x16_of_int32Bytes t ht _
    ([0, 0, 0, 0] ++ List.drop 8 (d.cache.get
      (spdFieldForMessage K (getApi K (getMsg K.LM_API_SPD_SET)))).data)
    (by
      show ((processMessage K d e).cache.get
        (spdFieldForMessage K (getApi K (getMsg K.LM_API_SPD_SET)))).data = _
      unfold spdFieldForMessage
      rw [hslot]
      simp [stdCopy, int32Bytes])]
  rw [Rat.divInt_eq_div]
  norm_num

theorem verifyParamsSwitch_isSome_plain (K : Proto) (d : Driver)
    (hg : d.state_.isGain = false) : ∃ r, verifyParamsSwitch K d = some r := by
  unfold verifyParamsSwitch
  cases hs : d.state_ <;> simp only [hs, ConfigurationState.isGain] at hg ⊢
  case PGain => exact absurd hg (by decide)
  case IGain => exact absurd hg (by decide)
  case DGain => exact absurd hg (by decide)
  all_goals first
    | exact ⟨_, rfl⟩
    | (split_ifs <;> exact ⟨_, rfl⟩)

/-! ## The claims -/

/-- C1: for a driver in a closed-loop mode (Current, Position or Speed) and any
cache, the `switch` of one `verifyParams` call leaves the state unchanged or
moves it to the immediate successor in the ladder order, and so does the final
test of the call (this is the passage DGain, VerifiedParameters, Configured); the
state never moves backward; the call is defined whenever the gains are in range;
and a freshly constructed (Speed-mode) driver driven only by `verifyParams`,
whatever the cache is before each call, passes through a prefix of the ladder,
the whole ladder in order once it reaches Configured. -/
theorem verifyParams_ladder_order (K : Proto) (hK : K.ModesDistinct) :
    (∀ d : Driver, ClosedLoopMode K d → ∀ r, verifyParamsSwitch K d = some r →
        (r.1.state_ = d.state_ ∨ LadderSucc d.state_ r.1.state_) ∧
        ((verifyParamsTail r.1).state_ = r.1.state_ ∨
          LadderSucc r.1.state_ (verifyParamsTail r.1).state_) ∧
        verifyParams K d = some (verifyParamsTail r.1, r.2) ∧
        d.state_.toInt ≤ r.1.state_.toInt ∧
        r.1.state_.toInt ≤ (verifyParamsTail r.1).state_.toInt) ∧
    (∀ d : Driver, ClosedLoopMode K d → GainsInRange d → (verifyParams K d).isSome) ∧
    (∀ (device_number : Nat) (c0 : Cache) (cs : List Cache),
        ∃ tr, visited K (Driver.new K device_number c0) cs = some tr ∧
          tr.destutter (· ≠ ·) <+: ladder ∧
          (ConfigurationState.Configured ∈ tr → tr.destutter (· ≠ ·) = ladder)) := by
  refine ⟨?_, ?_, ?_⟩
  · intro d hm r hr
    have h1 := verifyParamsSwitch_state K hK d hm r hr
    have h2 := verifyParamsTail_state r.1
    exact ⟨h1, h2, by simp [verifyParams, hr], ladderMove_toInt _ _ h1, ladderMove_toInt _ _ h2⟩
  · intro d hm hg
    obtain ⟨r, hr⟩ := verifyParamsSwitch_isSome K d hm hg
    simp [verifyParams, hr]
  · intro n c0 cs
    have hm : ClosedLoopMode K (Driver.new K n c0) := Or.inr (Or.inr rfl)
    have hg : GainsInRange (Driver.new K n c0) := by
      show (toFixed16x16 1).isSome ∧ (toFixed16x16 0).isSome ∧ (toFixed16x16 0).isSome
      decide
    obtain ⟨rest, hv, hc⟩ := visited_chain K hK cs (Driver.new K n c0) hm hg
    have hp : List.destutter (· ≠ ·) ((Driver.new K n c0).state_ :: rest) <+: ladder :=
      destutter'_prefix rest _ (show ConfigurationState.Initializing ∈ ladder by decide) hc
    refine ⟨_, hv, hp, fun hmem => prefix_ladder_full _ hp ?_⟩
    exact mem_destutter' rest _ _ hmem

/-- Witness for C1: with the constants `lmProto`, ten `verifyParams` calls on a
fresh driver over `speedReadyCache` pass through exactly the ladder. -/
theorem verifyParams_ladder_order_witness :
    lmProto.ModesDistinct ∧
      ∃ tr, visited lmProto (Driver.new lmProto 3 speedReadyCache)
          (List.replicate 10 speedReadyCache) = some tr ∧
        tr.destutter (· ≠ ·) = ladder := by
  refine ⟨by decide, ?_⟩
  obtain ⟨tr, h1, _, h3⟩ := (verifyParams_ladder_order lmProto (by decide)).2.2 3
    speedReadyCache (List.replicate 10 speedReadyCache)
  refine ⟨tr, h1, h3 ?_⟩
  have h2 : (visited lmProto (Driver.new lmProto 3 speedReadyCache)
      (List.replicate 10 speedReadyCache)).any
        (fun l => decide (ConfigurationState.Configured ∈ l)) = true := by decide
  rw [h1] at h2
  simpa using h2

/-- C2: in state ControlMode with control mode Voltage and the cached mode byte
equal to Voltage, one `verifyParams` call passes ControlMode, VerifiedParameters,
Configured (no gain state), queues nothing and ends configured; and a fresh
driver switched to Voltage mode and driven only by `verifyParams`,
`configureParams` and `processMessage` is never in PGain, IGain or DGain (and
every such call is defined). -/
theorem voltage_mode_skips_gain_states (K : Proto) :
    (∀ d : Driver, d.state_ = .ControlMode → d.control_mode_ = K.MODE_VOLTAGE →
        (lastMode K d).1 = K.MODE_VOLTAGE →
        ∃ d1, verifyParamsSwitch K d = some (d1, []) ∧
          d1.state_ = .VerifiedParameters ∧
          verifyParams K d = some (verifyParamsTail d1, []) ∧
          (verifyParamsTail d1).state_ = .Configured ∧
          (verifyParamsTail d1).configured_ = true ∧
          visited K d [d.cache] = some [.ControlMode, .VerifiedParameters, .Configured]) ∧
    (∀ (device_number : Nat) (c0 : Cache) (ops : List Op), (∀ op ∈ ops, op.isLadder = true) →
        ∃ d, run K (setMode K (Driver.new K device_number c0) K.MODE_VOLTAGE) ops = some d ∧
          d.control_mode_ = K.MODE_VOLTAGE ∧
          d.state_ ≠ .PGain ∧ d.state_ ≠ .IGain ∧ d.state_ ≠ .DGain) := by
  refine ⟨?_, ?_⟩
  · intro d hs hm hb
    have hsw : verifyParamsSwitch K d =
        some ({ (lastMode K d).2 with state_ := .VerifiedParameters }, []) := by
      unfold verifyParamsSwitch
      simp [hs, hm, hb]
    refine ⟨_, hsw, rfl, by simp [verifyParams, hsw], by simp [verifyParamsTail],
      by simp [verifyParamsTail], ?_⟩
    show (verifyParamsSwitch K d).bind (fun r =>
      (visited K (verifyParamsTail r.1) []).map fun rest => d.state_ :: r.1.state_ :: rest) = _
    rw [hsw]
    simp [visited, hs, verifyParamsTail]
  · intro n c0 ops hops
    have h0 : VoltageNoGain K (setMode K (Driver.new K n c0) K.MODE_VOLTAGE) := by
      simp [VoltageNoGain, setMode, Driver.new, ConfigurationState.isGain]
    obtain ⟨d, hd, hm, hg⟩ := run_voltageNoGain K ops _ hops h0
    refine ⟨d, hd, hm, ?_, ?_, ?_⟩ <;> intro h <;> rw [h] at hg <;> exact absurd hg (by decide)


/-- Witness for C2: with the constants `lmProto`, a Voltage-mode driver in state
ControlMode whose cached mode byte is 0 (Voltage). -/
theorem voltage_mode_skips_gain_states_witness :
    (verifyParams lmProto (voltageAtControlMode 3)).map (fun r => (r.1.state_, r.1.configured_))
        = some (.Configured, true) ∧
      visited lmProto (voltageAtControlMode 3) [(voltageAtControlMode 3).cache]
        = some [.ControlMode, .VerifiedParameters, .Configured] := by
  obtain ⟨d1, _, _, h3, h4, h5, h6⟩ := (voltage_mode_skips_gain_states lmProto).1
    (voltageAtControlMode 3) rfl rfl (by decide)
  exact ⟨by rw [h3]; simp [h4, h5], h6⟩

/-- C3: in every state reachable from a freshly constructed driver by any
sequence of calls (`verifyParams`, `configureParams`, `processMessage`,
`setGains`, both `setMode` overloads, `setEncoderCPR`, `setGearRatio` and the
telemetry accessors), `configured_` is true exactly when the state is
Configured. -/
theorem configured_iff_state_Configured (K : Proto) (device_number : Nat) (c0 : Cache)
    (ops : List Op) (d : Driver) (h : run K (Driver.new K device_number c0) ops = some d) :
    d.configured_ = true ↔ d.state_ = .Configured :=
  run_configuredIff K ops _ d h (by simp [ConfiguredIffState, Driver.new])


/-- Witness for C3: with the constants `lmProto`, ten `verifyParams` calls over
`speedReadyCache` end configured, in state Configured. -/
theorem configured_iff_state_Configured_witness :
    ∃ d, run lmProto (Driver.new lmProto 3 speedReadyCache) (List.replicate 10 .verifyParams)
        = some d ∧ d.state_ = .Configured ∧ d.configured_ = true := by
  have hsome : ((run lmProto (Driver.new lmProto 3 speedReadyCache)
      (List.replicate 10 .verifyParams)).map (fun d => d.state_)) = some .Configured := by
    decide
  cases h : run lmProto (Driver.new lmProto 3 speedReadyCache) (List.replicate 10 .verifyParams) with
  | none => rw [h] at hsome; exact absurd hsome (by simp)
  | some d =>
    rw [h] at hsome
    have hst : d.state_ = .Configured := by simpa using hsome
    exact ⟨d, rfl, hst, (configured_iff_state_Configured lmProto 3 speedReadyCache _ d h).mpr hst⟩

/-- C4: whenever the `switch` of a `verifyParams` call ends in
VerifiedParameters, the call itself ends in state Configured with
`configured_` set; this happens from DGain when the D-gain check succeeds, from
ControlMode in Voltage mode when the mode check succeeds, and for a driver that
is in VerifiedParameters on entry; so after any `verifyParams` call the state is
never VerifiedParameters. -/
theorem verifyParams_passes_VerifiedParameters (K : Proto) (d : Driver) :
    (∀ r, verifyParams K d = some r → r.1.state_ ≠ .VerifiedParameters) ∧
    (∀ r1, verifyParamsSwitch K d = some r1 → r1.1.state_ = .VerifiedParameters →
      ∃ r, verifyParams K d = some r ∧ r.1.state_ = .Configured ∧ r.1.configured_ = true) ∧
    (d.state_ = .DGain → ∀ raw, getRawD K d = some raw →
      verifyRaw16x16 raw d.gain_d_ = some true →
      ∃ r1, verifyParamsSwitch K d = some r1 ∧ r1.1.state_ = .VerifiedParameters) ∧
    (d.state_ = .ControlMode → d.control_mode_ = K.MODE_VOLTAGE →
      (lastMode K d).1 = K.MODE_VOLTAGE →
      ∃ r1, verifyParamsSwitch K d = some r1 ∧ r1.1.state_ = .VerifiedParameters) ∧
    (d.state_ = .VerifiedParameters →
      ∃ r1, verifyParamsSwitch K d = some r1 ∧ r1.1.state_ = .VerifiedParameters) := by
  refine ⟨?_, ?_, ?_, ?_, ?_⟩
  · intro r h
    simp only [verifyParams, Option.map_eq_some'] at h
    obtain ⟨r1, _, rfl⟩ := h
    show (verifyParamsTail r1.1).state_ ≠ _
    unfold verifyParamsTail
    split_ifs with hv
    · simp
    · exact hv
  · intro r1 h1 hv
    refine ⟨(verifyParamsTail r1.1, r1.2), ?_, ?_, ?_⟩
    · simp only [verifyParams, h1, Option.map_some']
    · simp [verifyParamsTail, hv]
    · simp [verifyParamsTail, hv]
  · intro hs raw hraw hok
    have hfr : ∃ fr, gainFieldD K d = some fr := by
      simp only [getRawD, Option.map_eq_some'] at hraw
      obtain ⟨fr, hfr, _⟩ := hraw
      exact ⟨fr, hfr⟩
    obtain ⟨fr, hfr⟩ := hfr
    have hx : getD K d = some (d.cache.get fr).interpretFixed16x16 := by
      simp only [getD, hfr, Option.map_some']
    have h : verifyParamsSwitch K d = some ({ d with state_ := .VerifiedParameters }, []) := by
      unfold verifyParamsSwitch
      rw [hs]
      simp only [hraw, hok, hx, Option.some_bind, Option.map_some', if_true]
    exact ⟨_, h, rfl⟩
  · intro hs hm hb
    have h : verifyParamsSwitch K d =
        some ({ (lastMode K d).2 with state_ := .VerifiedParameters }, []) := by
      unfold verifyParamsSwitch
      simp [hs, hm, hb]
    exact ⟨_, h, rfl⟩
  · intro hs
    have h : verifyParamsSwitch K d = some (d, []) := by
      unfold verifyParamsSwitch
      simp [hs]
    exact ⟨_, h, hs⟩

/-- Witness for C4: with the constants `lmProto`, a Speed-mode driver in DGain
whose cached D gain matches. -/
theorem verifyParams_passes_VerifiedParameters_witness :
    (verifyParamsSwitch lmProto (speedDriverAt 3 .DGain)).map (fun r => r.1.state_)
        = some .VerifiedParameters ∧
      ∃ r, verifyParams lmProto (speedDriverAt 3 .DGain) = some r ∧ r.1.state_ = .Configured ∧
        r.1.configured_ = true := by
  have h := (verifyParams_passes_VerifiedParameters lmProto (speedDriverAt 3 .DGain)).2.1
  have hs : (verifyParamsSwitch lmProto (speedDriverAt 3 .DGain)).map (fun r => r.1.state_)
      = some .VerifiedParameters := by decide
  refine ⟨hs, ?_⟩
  cases h1 : verifyParamsSwitch lmProto (speedDriverAt 3 .DGain) with
  | none => rw [h1] at hs; exact absurd hs (by simp)
  | some r1 =>
    rw [h1] at hs
    exact h r1 h1 (by simpa using hs)

/-- C5 on the code: in the states PowerFlag, EncoderPosRef, EncoderSpdRef,
EncoderCounts and ClosedLoop, and in the gain states of a closed-loop mode, a
failed check leaves the state as it is and queues exactly one request frame
(payload length 0) for the telemetry of that step, addressed with the device
number; in state ControlMode a failed check leaves the state as it is and queues
no frame at all. -/
theorem verifyParams_mismatch_request (K : Proto) (hK : K.ModesDistinct) (d : Driver) :
    (∀ id, (getMsg id).dlc = 0 ∧ (getMsg id).id = id) ∧
    (d.state_ = .PowerFlag → (lastPower K d).1 ≠ 0 →
      ∃ d1, verifyParams K d = some (d1, [getMsg (K.LM_API_STATUS_POWER ||| d.device_number_)]) ∧
        d1.state_ = .PowerFlag) ∧
    (d.state_ = .EncoderPosRef → posEncoderRef K d ≠ K.LM_REF_ENCODER →
      ∃ d1, verifyParams K d = some (d1, [getMsg (K.LM_API_POS_REF ||| d.device_number_)]) ∧
        d1.state_ = .EncoderPosRef) ∧
    (d.state_ = .EncoderSpdRef → spdEncoderRef K d ≠ K.LM_REF_QUAD_ENCODER →
      ∃ d1, verifyParams K d = some (d1, [getMsg (K.LM_API_SPD_REF ||| d.device_number_)]) ∧
        d1.state_ = .EncoderSpdRef) ∧
    (d.state_ = .EncoderCounts → encoderCounts K d ≠ d.encoder_cpr_ →
      ∃ d1, verifyParams K d =
          some (d1, [getMsg (K.LM_API_CFG_ENC_LINES ||| d.device_number_)]) ∧
        d1.state_ = .EncoderCounts) ∧
    (d.state_ = .ClosedLoop → (lastMode K d).1 ≠ K.MODE_SPEED →
      ∃ d1, verifyParams K d = some (d1, [getMsg (K.LM_API_STATUS_CMODE ||| d.device_number_)]) ∧
        d1.state_ = .ClosedLoop) ∧
    (d.state_ = .PGain → ClosedLoopMode K d → ∀ raw, getRawP K d = some raw →
      verifyRaw16x16 raw d.gain_p_ = some false →
      ∃ d1 code, verifyParams K d = some (d1, [getMsg (code ||| d.device_number_)]) ∧
        d1.state_ = .PGain ∧
        ((d.control_mode_ = K.MODE_CURRENT ∧ code = K.LM_API_ICTRL_PC) ∨
         (d.control_mode_ = K.MODE_POSITION ∧ code = K.LM_API_POS_PC) ∨
         (d.control_mode_ = K.MODE_SPEED ∧ code = K.LM_API_SPD_PC))) ∧
    (d.state_ = .IGain → ClosedLoopMode K d → ∀ raw, getRawI K d = some raw →
      verifyRaw16x16 raw d.gain_i_ = some false →
      ∃ d1 code, verifyParams K d = some (d1, [getMsg (code ||| d.device_number_)]) ∧
        d1.state_ = .IGain ∧
        ((d.control_mode_ = K.MODE_CURRENT ∧ code = K.LM_API_ICTRL_IC) ∨
         (d.control_mode_ = K.MODE_POSITION ∧ code = K.LM_API_POS_IC) ∨
         (d.control_mode_ = K.MODE_SPEED ∧ code = K.LM_API_SPD_IC))) ∧
    (d.state_ = .DGain → ClosedLoopMode K d → ∀ raw, getRawD K d = some raw →
      verifyRaw16x16 raw d.gain_d_ = some false →
      ∃ d1 code, verifyParams K d = some (d1, [getMsg (code ||| d.device_number_)]) ∧
        d1.state_ = .DGain ∧
        ((d.control_mode_ = K.MODE_CURRENT ∧ code = K.LM_API_ICTRL_DC) ∨
         (d.control_mode_ = K.MODE_POSITION ∧ code = K.LM_API_POS_DC) ∨
         (d.control_mode_ = K.MODE_SPEED ∧ code = K.LM_API_SPD_DC))) ∧
    (d.state_ = .ControlMode → (lastMode K d).1 ≠ d.control_mode_ →
      ∃ d1, verifyParams K d = some (d1, []) ∧ d1.state_ = .ControlMode) := by
  refine ⟨fun id => ⟨rfl, rfl⟩, ?_, ?_, ?_, ?_, ?_, ?_, ?_, ?_, ?_⟩
  · intro hs hne
    refine ⟨(lastPower K d).2, verifyParams_of_switch_same K d _ _ ?_ ?_, ?_⟩
    · unfold verifyParamsSwitch; simp [hs, hne, sendId]
    · simp [lastPower, clearReceived, hs]
    · simp [lastPower, clearReceived, hs]
  · intro hs hne
    refine ⟨d, verifyParams_of_switch_same K d _ _ ?_ (by simp [hs]), hs⟩
    unfold verifyParamsSwitch; simp [hs, hne, sendId]
  · intro hs hne
    refine ⟨d, verifyParams_of_switch_same K d _ _ ?_ (by simp [hs]), hs⟩
    unfold verifyParamsSwitch; simp [hs, hne, sendId]
  · intro hs hne
    refine ⟨d, verifyParams_of_switch_same K d _ _ ?_ (by simp [hs]), hs⟩
    unfold verifyParamsSwitch; simp [hs, hne, sendId]
  · intro hs hne
    refine ⟨(lastMode K d).2, verifyParams_of_switch_same K d _ _ ?_ ?_, ?_⟩
    · unfold verifyParamsSwitch; simp [hs, hne, sendId]
    · simp [lastMode, clearReceived, hs]
    · simp [lastMode, clearReceived, hs]
  · intro hs hm raw hraw hok
    obtain ⟨code, hc, hcode⟩ := gainRequest_closedLoop K hK d hm K.LM_API_ICTRL_PC
      K.LM_API_POS_PC K.LM_API_SPD_PC
    obtain ⟨fr, hfr⟩ := (gainField_isSome K d hm).1
    refine ⟨d, code, verifyParams_of_switch_same K d _ _ ?_ (by simp [hs]), hs, hcode⟩
    unfold verifyParamsSwitch
    simp [hs, hraw, hok, getP, hfr, hc]
  · intro hs hm raw hraw hok
    obtain ⟨code, hc, hcode⟩ := gainRequest_closedLoop K hK d hm K.LM_API_ICTRL_IC
      K.LM_API_POS_IC K.LM_API_SPD_IC
    obtain ⟨fr, hfr⟩ := (gainField_isSome K d hm).2.1
    refine ⟨d, code, verifyParams_of_switch_same K d _ _ ?_ (by simp [hs]), hs, hcode⟩
    unfold verifyParamsSwitch
    simp [hs, hraw, hok, getI, hfr, hc]
  · intro hs hm raw hraw hok
    obtain ⟨code, hc, hcode⟩ := gainRequest_closedLoop K hK d hm K.LM_API_ICTRL_DC
      K.LM_API_POS_DC K.LM_API_SPD_DC
    obtain ⟨fr, hfr⟩ := (gainField_isSome K d hm).2.2
    refine ⟨d, code, verifyParams_of_switch_same K d _ _ ?_ (by simp [hs]), hs, hcode⟩
    unfold verifyParamsSwitch
    simp [hs, hraw, hok, getD, hfr, hc]
  · intro hs hne
    refine ⟨(lastMode K d).2, verifyParams_of_switch_same K d _ _ ?_ ?_, ?_⟩
    · unfold verifyParamsSwitch; simp [hs, hne]
    · simp [lastMode, clearReceived, hs]
    · simp [lastMode, clearReceived, hs]

/-- The failing input of C5: with the constants `lmProto`, a Voltage-mode driver
in state ControlMode whose cached control-mode byte is 2 (Speed); the check
fails, the state stays ControlMode and no frame is queued. -/
theorem verifyParams_mismatch_request_witness :
    lmProto.ModesDistinct ∧ (voltageAwaitingMode 3).state_ = .ControlMode ∧
      (lastMode lmProto (voltageAwaitingMode 3)).1 ≠ (voltageAwaitingMode 3).control_mode_ ∧
      ∃ d1, verifyParams lmProto (voltageAwaitingMode 3) = some (d1, []) ∧
        d1.state_ = .ControlMode :=
  ⟨by decide, rfl, by decide,
    (verifyParams_mismatch_request lmProto (by decide) (voltageAwaitingMode 3)).2.2.2.2.2.2.2.2.2
      rfl (by decide)⟩

/-- Counterexample to C6: a fresh driver over a zeroed cache that is fed frames
for four slots only reaches Configured in ten `verifyParams` calls, although no
frame was ever stored in the power-flag slot, the position-reference slot or the
speed I-gain and D-gain slots. -/
theorem configured_without_telemetry :
    (run lmProto (Driver.new lmProto 3 Cache.zero)
        (partialTelemetry ++ List.replicate 10 .verifyParams)).map
      (fun d => (d.state_, d.configured_, receivedPower lmProto d,
        slotReceived d (posFieldForMessage lmProto (getApi lmProto (getMsg lmProto.LM_API_POS_REF))),
        slotReceived d (spdFieldForMessage lmProto (getApi lmProto (getMsg lmProto.LM_API_SPD_IC))),
        slotReceived d (spdFieldForMessage lmProto (getApi lmProto (getMsg lmProto.LM_API_SPD_DC)))))
      = some (.Configured, true, false, false, false, false) := by
  decide


/-- C6 as amended: the outcome of a `verifyParams` call (state, configured flag
and frames queued) is the same for two drivers that differ only in the received
flags of their caches, so a step is passed on the cached bytes alone; and a
fresh driver over a zeroed cache leaves PowerFlag in its second call with no
frame stored in the power slot. -/
theorem verifyParams_ignores_received_flags (K : Proto) :
    (∀ d d1 : Driver, SameButFlags d d1 →
      (verifyParams K d1).map (fun r => (r.1.state_, r.1.configured_, r.2)) =
        (verifyParams K d).map (fun r => (r.1.state_, r.1.configured_, r.2))) ∧
    (∀ device_number : Nat,
      ∃ d, run K (Driver.new K device_number Cache.zero) [.verifyParams, .verifyParams]
          = some d ∧
        d.state_ = .EncoderPosRef ∧ receivedPower K d = false) := by
  refine ⟨fun d d1 h => ?_, fresh_leaves_PowerFlag K⟩
  rw [verifyParams_view, verifyParams_view, verifyParamsSwitch_sameButFlags K d d1 h]

/-- Witness for the amended C6: the power slot marked received or not, the
PowerFlag step is passed alike. -/
theorem verifyParams_ignores_received_flags_witness :
    SameButFlags powerFlagDriver powerFlagDriverReceived ∧
      (verifyParams lmProto powerFlagDriverReceived).map
          (fun r => (r.1.state_, r.1.configured_, r.2)) = some (.EncoderPosRef, false, []) ∧
      (verifyParams lmProto powerFlagDriver).map
          (fun r => (r.1.state_, r.1.configured_, r.2)) = some (.EncoderPosRef, false, []) := by
  have hs : SameButFlags powerFlagDriver powerFlagDriverReceived := by
    refine ⟨⟨rfl, rfl, rfl, rfl, rfl, rfl, rfl⟩, rfl, rfl, ?_⟩
    rintro ⟨t, i⟩
    cases t <;> simp [powerFlagDriverReceived, powerFlagDriver, Cache.get, Cache.table,
      Cache.zero, Driver.new, Field.zero]
    split_ifs <;> rfl
  have h := (verifyParams_ignores_received_flags lmProto).1 _ _ hs
  have h2 : (verifyParams lmProto powerFlagDriver).map
      (fun r => (r.1.state_, r.1.configured_, r.2)) = some (.EncoderPosRef, false, []) := by
    decide
  exact ⟨hs, h.trans h2, h2⟩

/-- C7: `setGains` stores the three gains and leaves the device number, the
control mode, the encoder counts, the gear ratio and the telemetry cache as they
were; on a configured driver it sets the state to PGain and clears
`configured_`; on an unconfigured driver it leaves the state and the flag as
they were. -/
theorem setGains_effect (d : Driver) (p i d' : ℚ) :
    (setGains d p i d').gain_p_ = p ∧ (setGains d p i d').gain_i_ = i ∧
    (setGains d p i d').gain_d_ = d' ∧
    (setGains d p i d').device_number_ = d.device_number_ ∧
    (setGains d p i d').control_mode_ = d.control_mode_ ∧
    (setGains d p i d').encoder_cpr_ = d.encoder_cpr_ ∧
    (setGains d p i d').gear_ratio_ = d.gear_ratio_ ∧
    (setGains d p i d').cache = d.cache ∧
    (d.configured_ = true →
      (setGains d p i d').state_ = .PGain ∧ (setGains d p i d').configured_ = false) ∧
    (d.configured_ = false →
      (setGains d p i d').state_ = d.state_ ∧ (setGains d p i d').configured_ = false) := by
  cases hc : d.configured_ <;> simp [setGains, updateGains, hc]

/-- Witness for C7: new gains on a configured Speed-mode driver. -/
theorem setGains_effect_witness :
    configuredSpeedDriver.configured_ = true ∧
      configuredSpeedDriver.state_ = .Configured ∧
      (setGains configuredSpeedDriver 2 1 0).state_ = .PGain ∧
      (setGains configuredSpeedDriver 2 1 0).configured_ = false :=
  ⟨rfl, rfl, (setGains_effect configuredSpeedDriver 2 1 0).2.2.2.2.2.2.2.2.1 rfl⟩

/-- C8: the gain-less `setMode` with any mode other than Voltage returns the
driver unchanged (control mode, state, configured flag, gains, cache); it has no
frame output at all. -/
theorem setMode_rejects_without_gains (K : Proto) (d : Driver) (mode : Nat)
    (h : mode ≠ K.MODE_VOLTAGE) : setMode K d mode = d := by
  simp [setMode, h]

/-- Witness for C8: `setMode(Current)` on a configured driver. -/
theorem setMode_rejects_without_gains_witness :
    lmProto.MODE_CURRENT ≠ lmProto.MODE_VOLTAGE ∧
      setMode lmProto configuredSpeedDriver lmProto.MODE_CURRENT = configuredSpeedDriver :=
  ⟨by decide, setMode_rejects_without_gains lmProto configuredSpeedDriver _ (by decide)⟩

/-- C9: an accepted mode change, that is `setMode(Voltage)`,
`setMode(Voltage, p, i, d)` or `setMode(m, p, i, d)` with `m` a closed-loop
mode, stores the mode (and, in the closed-loop form only, the gains); on a
configured driver it also sets the state to Initializing and clears
`configured_`, on an unconfigured driver it changes nothing else. -/
theorem setMode_accepted_effect (K : Proto) (hK : K.ModesDistinct) (d : Driver) :
    (d.configured_ = true →
      setMode K d K.MODE_VOLTAGE =
        { d with control_mode_ := K.MODE_VOLTAGE, configured_ := false,
                 state_ := .Initializing } ∧
      (∀ p i d', setModeGains K d K.MODE_VOLTAGE p i d' =
        { d with control_mode_ := K.MODE_VOLTAGE, configured_ := false,
                 state_ := .Initializing }) ∧
      (∀ m p i d', (m = K.MODE_CURRENT ∨ m = K.MODE_POSITION ∨ m = K.MODE_SPEED) →
        setModeGains K d m p i d' =
          { d with control_mode_ := m, gain_p_ := p, gain_i_ := i, gain_d_ := d',
                   configured_ := false, state_ := .Initializing })) ∧
    (d.configured_ = false →
      setMode K d K.MODE_VOLTAGE = { d with control_mode_ := K.MODE_VOLTAGE } ∧
      (∀ p i d', setModeGains K d K.MODE_VOLTAGE p i d' =
        { d with control_mode_ := K.MODE_VOLTAGE }) ∧
      (∀ m p i d', (m = K.MODE_CURRENT ∨ m = K.MODE_POSITION ∨ m = K.MODE_SPEED) →
        setModeGains K d m p i d' =
          { d with control_mode_ := m, gain_p_ := p, gain_i_ := i, gain_d_ := d' })) := by
  have hv : ∀ m, (m = K.MODE_CURRENT ∨ m = K.MODE_POSITION ∨ m = K.MODE_SPEED) →
      m ≠ K.MODE_VOLTAGE := by
    obtain ⟨h1, h2, h3, -⟩ := hK
    rintro m (rfl | rfl | rfl) <;> exact fun e => by simp_all
  refine ⟨fun hc => ⟨?_, ?_, ?_⟩, fun hc => ⟨?_, ?_, ?_⟩⟩
  · simp [setMode, resetConfiguration, hc]
  · intro p i d'; simp [setModeGains, resetConfiguration, hc]
  · intro m p i d' hm
    simp [setModeGains, resetConfiguration, setGains, hc, hv m hm]
  · simp [setMode, hc]
  · intro p i d'; simp [setModeGains, hc]
  · intro m p i d' hm
    simp [setModeGains, setGains, hc, hv m hm]

/-- Witness for C9: `setMode(Position, 2, 1, 0)` on a configured driver ends in
Initializing, not configured, with the new mode and gains. -/
theorem setMode_accepted_effect_witness :
    lmProto.ModesDistinct ∧ configuredSpeedDriver.configured_ = true ∧
      setModeGains lmProto configuredSpeedDriver lmProto.MODE_POSITION 2 1 0 =
        { configuredSpeedDriver with
          control_mode_ := lmProto.MODE_POSITION, gain_p_ := 2, gain_i_ := 1, gain_d_ := 0,
          configured_ := false, state_ := .Initializing } :=
  ⟨by decide, rfl,
    ((setMode_accepted_effect lmProto (by decide) configuredSpeedDriver).1 rfl).2.2
      lmProto.MODE_POSITION 2 1 0 (Or.inr (Or.inl rfl))⟩

/-- C10: a frame whose device-number field differs from the driver's device
number leaves the driver, and so every slot of the telemetry cache (data bytes
and received flag), unchanged; the same holds for any sequence of such frames,
and on a fresh driver over a zeroed cache every received flag stays false. -/
theorem processMessage_ignores_other_device (K : Proto) (d : Driver) :
    (∀ m : Frame, getDeviceNumber K m ≠ d.device_number_ →
      processMessage K d m = d ∧ ∀ r, (processMessage K d m).cache.get r = d.cache.get r) ∧
    (∀ ms : List Frame, (∀ m ∈ ms, getDeviceNumber K m ≠ d.device_number_) →
      ms.foldl (processMessage K) d = d) ∧
    (∀ (device_number : Nat) (m : Frame) (r : FieldRef),
      getDeviceNumber K m ≠ device_number →
      ((processMessage K (Driver.new K device_number Cache.zero) m).cache.get r).received
        = false) := by
  have h1 : ∀ (e : Driver) (m : Frame), getDeviceNumber K m ≠ e.device_number_ →
      processMessage K e m = e := by
    intro e m h
    simp [processMessage, h]
  refine ⟨fun m h => ⟨h1 d m h, fun r => by rw [h1 d m h]⟩, ?_, ?_⟩
  · intro ms
    induction ms with
    | nil => intro _; rfl
    | cons m ms ih =>
      intro h
      rw [List.foldl_cons, h1 d m (h m (List.mem_cons_self _ _))]
      exact ih (fun x hx => h x (List.mem_cons_of_mem _ hx))
  · intro n m r h
    rw [h1 (Driver.new K n Cache.zero) m h]
    show (Cache.zero.get r).received = false
    rw [cache_zero_get]; rfl

/-- Witness for C10: a frame for device 5 handed to the driver of device 3. -/
theorem processMessage_ignores_other_device_witness :
    getDeviceNumber lmProto
        (telemetryFrame lmProto.LM_API_STATUS_POWER 5 1 [1, 0, 0, 0, 0, 0, 0, 0])
        ≠ configuredSpeedDriver.device_number_ ∧
      processMessage lmProto configuredSpeedDriver
        (telemetryFrame lmProto.LM_API_STATUS_POWER 5 1 [1, 0, 0, 0, 0, 0, 0, 0])
        = configuredSpeedDriver :=
  ⟨by decide,
    ((processMessage_ignores_other_device lmProto configuredSpeedDriver).1 _ (by decide)).1⟩

/-- C11: a frame addressed to the driver whose payload length is zero leaves the
driver, and so every field slot (data bytes and received flag), unchanged,
whatever its API code and data bytes are. -/
theorem processMessage_ignores_empty_payload (K : Proto) (d : Driver) (m : Frame)
    (ha : getDeviceNumber K m = d.device_number_) (hd : m.dlc = 0) :
    processMessage K d m = d ∧ ∀ r, (processMessage K d m).cache.get r = d.cache.get r := by
  have h : processMessage K d m = d := by simp [processMessage, ha, hd]
  exact ⟨h, fun r => by rw [h]⟩

/-- Witness for C11: a zero-length power-status frame for device 3 handed to the
driver of device 3. -/
theorem processMessage_ignores_empty_payload_witness :
    getDeviceNumber lmProto emptyPowerRequest = configuredSpeedDriver.device_number_ ∧
      emptyPowerRequest.dlc = 0 ∧
      processMessage lmProto configuredSpeedDriver emptyPowerRequest = configuredSpeedDriver :=
  ⟨by decide, rfl,
    (processMessage_ignores_empty_payload lmProto configuredSpeedDriver emptyPowerRequest
      (by decide) rfl).1⟩

/-- C12: when the group codes are exclusive (values of the class field, none
containing a code tested before it), a frame addressed to the driver with a
non-empty payload whose API class is one of the seven group codes is stored in
the table of that group at index `(api & CAN_MSGID_API_ID_M) >> CAN_MSGID_API_S`:
that slot then holds the eight data bytes of the frame with `received` set, and
every other slot of the seven tables is as before. -/
theorem processMessage_selects_group_table (K : Proto) (classMask : Nat)
    (hK : K.GroupCodesExclusive classMask) (d : Driver) (m : Frame)
    (ha : getDeviceNumber K m = d.device_number_) (hd : m.dlc ≠ 0)
    (hm : m.data.length = 8) (hc : d.cache.EightBytes)
    (g : Nat × Table) (hg : g ∈ groupTables K) (hcls : getApi K m &&& classMask = g.1) :
    processMessageField K (getApi K m) =
      some { table := g.2,
             index := (getApi K m &&& K.CAN_MSGID_API_ID_M) >>> K.CAN_MSGID_API_S } ∧
    (processMessage K d m).cache.get
        { table := g.2,
          index := (getApi K m &&& K.CAN_MSGID_API_ID_M) >>> K.CAN_MSGID_API_S } =
      { data := m.data, received := true } ∧
    ∀ r : FieldRef,
      r ≠ { table := g.2,
            index := (getApi K m &&& K.CAN_MSGID_API_ID_M) >>> K.CAN_MSGID_API_S } →
      (processMessage K d m).cache.get r = d.cache.get r := by
  have hf := processMessageField_of_class K classMask hK (getApi K m) g hg hcls
  have hp := processMessage_stored K d m _ ha hd hf
  refine ⟨hf, ?_, ?_⟩
  · rw [hp]
    simp only [cache_get_set, if_true]
    rw [stdCopy_full _ _ (by rw [hc, hm])]
  · intro r hr
    rw [hp]
    simp only [cache_get_set, if_neg hr]

/-- Witness for C12: with the constants `lmProto` and the class field 0xfc00, a
control-mode status frame for device 3 is stored in slot 9 of the status table. -/
theorem processMessage_selects_group_table_witness :
    lmProto.GroupCodesExclusive 0xfc00 ∧
      (processMessage lmProto (Driver.new lmProto 3 Cache.zero)
          (telemetryFrame lmProto.LM_API_STATUS_CMODE 3 1 [2, 0, 0, 0, 0, 0, 0, 0])).cache.get
        { table := .status, index := 9 } = { data := [2, 0, 0, 0, 0, 0, 0, 0], received := true } :=
  ⟨by decide,
    (processMessage_selects_group_table lmProto 0xfc00 (by decide)
      (Driver.new lmProto 3 Cache.zero)
      (telemetryFrame lmProto.LM_API_STATUS_CMODE 3 1 [2, 0, 0, 0, 0, 0, 0, 0])
      (by decide) (by decide) rfl (fun r => by rw [show (Driver.new lmProto 3 Cache.zero).cache
        = Cache.zero from rfl, cache_zero_get]; rfl)
      (lmProto.CAN_API_MC_STATUS, .status) (by decide) (by decide)).2.1⟩

/-- Counterexample to C13: the power slot holds eight bytes 9; a frame with
payload length 1 and data 1, 0, 0, 0, 0, 0, 0, 0 then overwrites all eight
bytes, so bytes 1..7 of the slot do not keep their values. -/
theorem short_payload_overwrites_slot :
    shortPowerFrame.dlc = 1 ∧
      (ninesDriver.cache.get powerSlot).data = [9, 9, 9, 9, 9, 9, 9, 9] ∧
      ((processMessage lmProto ninesDriver shortPowerFrame).cache.get powerSlot).data
        = [1, 0, 0, 0, 0, 0, 0, 0] := by
  decide

/-- C13 as amended: for a frame addressed to the driver with payload length
n > 0, `processMessage` copies all eight bytes of the frame's data array into
the selected slot, whatever n is: every byte of the slot, also bytes n..7, is
then the frame's byte, and the driver after the call is the same for every
non-zero payload length. -/
theorem processMessage_copies_whole_array (K : Proto) (d : Driver) (m : Frame) (r : FieldRef)
    (ha : getDeviceNumber K m = d.device_number_) (hd : m.dlc ≠ 0)
    (hr : processMessageField K (getApi K m) = some r)
    (hm : m.data.length = 8) (hc : d.cache.EightBytes) :
    ((processMessage K d m).cache.get r).data = m.data ∧
    (∀ i, ((processMessage K d m).cache.get r).data.getD i 0 = m.data.getD i 0) ∧
    (∀ n, n ≠ 0 → processMessage K d { m with dlc := n } = processMessage K d m) := by
  have hp := processMessage_stored K d m r ha hd hr
  have h1 : ((processMessage K d m).cache.get r).data = m.data := by
    rw [hp]
    simp only [cache_get_set, if_true]
    rw [stdCopy_full _ _ (by rw [hc, hm])]
  refine ⟨h1, fun i => by rw [h1], fun n hn => ?_⟩
  rw [hp]
  exact processMessage_stored K d { m with dlc := n } r ha hn hr

/-- Witness for the amended C13: the short power frame on `ninesDriver`. -/
theorem processMessage_copies_whole_array_witness :
    shortPowerFrame.dlc = 1 ∧
      ((processMessage lmProto ninesDriver shortPowerFrame).cache.get powerSlot).data
        = shortPowerFrame.data := by
  refine ⟨rfl, (processMessage_copies_whole_array lmProto ninesDriver shortPowerFrame powerSlot
    (by decide) (by decide) (by decide) rfl ?_).1⟩
  exact processMessage_eightBytes lmProto _ _ rfl cache_zero_eightBytes

/-- C14 on the code: a frame addressed to the driver with a non-empty payload is
ignored when none of the seven mask tests matches; but each test only asks
whether the API code contains all bits of the group code, so with the Voltage
group code equal to 0 the last test matches every API code: the null-pointer
guard is never taken and every such frame is stored in some slot, whose
`received` flag is set. -/
theorem processMessage_unmatched_api (K : Proto) (d : Driver) (m : Frame)
    (ha : getDeviceNumber K m = d.device_number_) (hd : m.dlc ≠ 0) :
    (processMessageField K (getApi K m) = none → processMessage K d m = d) ∧
    (K.CAN_API_MC_VOLTAGE = 0 →
      ∃ r, processMessageField K (getApi K m) = some r ∧
        ((processMessage K d m).cache.get r).received = true) := by
  refine ⟨fun hn => by simp [processMessage, ha, hd, hn], fun hv => ?_⟩
  obtain ⟨r, hr⟩ := processMessageField_isSome K hv (getApi K m)
  refine ⟨r, hr, ?_⟩
  rw [processMessage_stored K d m r ha hd hr]
  simp only [cache_get_set, if_true]

/-- The failing input of C14: with the constants `lmProto`, a periodic-status
frame (class 0x1800, index 2) is stored in slot 2 of the integrated-control
table, the slot of the current setpoint, and an acknowledge frame (class 0x2000)
in slot 0 of the voltage table. -/
theorem processMessage_unmatched_api_witness :
    lmProto.CAN_API_MC_VOLTAGE = 0 ∧
      (∃ r, processMessageField lmProto (getApi lmProto periodicStatusFrame) = some r ∧
        ((processMessage lmProto (Driver.new lmProto 3 Cache.zero)
          periodicStatusFrame).cache.get r).received = true) ∧
      processMessageField lmProto (getApi lmProto periodicStatusFrame)
        = some { table := .ictrl, index := 2 } ∧
      receivedCurrentSetpoint lmProto (Driver.new lmProto 3 Cache.zero) = false ∧
      receivedCurrentSetpoint lmProto
        (processMessage lmProto (Driver.new lmProto 3 Cache.zero) periodicStatusFrame) = true ∧
      processMessageField lmProto (getApi lmProto acknowledgeFrame)
        = some { table := .voltage, index := 0 } :=
  ⟨rfl,
    (processMessage_unmatched_api lmProto (Driver.new lmProto 3 Cache.zero) periodicStatusFrame
      (by decide) (by decide)).2 rfl,
    by decide, by decide, by decide, by decide⟩

/-- C15: when the device-number mask lies within the full identifier mask, an
identifier `a | d` built from an API code `a` without device-number bits inside
the identifier mask and a device number `d` inside the device-number mask decodes
back: `getApi` gives `a` and `getDeviceNumber` gives `d`; and for every
identifier inside the identifier mask, `getApi` and `getDeviceNumber` have no bit
in common and their bitwise or is the identifier. -/
theorem identifier_decodes_back (K : Proto)
    (hM : K.CAN_MSGID_DEVNO_M &&& K.CAN_MSGID_FULL_M = K.CAN_MSGID_DEVNO_M) :
    (∀ a dn : Nat, a &&& K.CAN_MSGID_DEVNO_M = 0 → a &&& K.CAN_MSGID_FULL_M = a →
      dn &&& K.CAN_MSGID_DEVNO_M = dn →
      getApi K (getMsg (a ||| dn)) = a ∧ getDeviceNumber K (getMsg (a ||| dn)) = dn) ∧
    (∀ m : Frame, getApi K m &&& getDeviceNumber K m = 0) ∧
    (∀ m : Frame, m.id &&& K.CAN_MSGID_FULL_M = m.id →
      getApi K m ||| getDeviceNumber K m = m.id) := by
  have hDF := testBit_of_land_eq _ _ hM
  refine ⟨?_, ?_, ?_⟩
  · intro a dn ha0 haF hd
    have h1 := testBit_of_land_zero _ _ ha0
    have h2 := testBit_of_land_eq _ _ haF
    have h3 := testBit_of_land_eq _ _ hd
    constructor
    · apply Nat.eq_of_testBit_eq
      intro i
      have hDFi := hDF i
      have h1i := h1 i
      have h2i := h2 i
      have h3i := h3 i
      simp only [getApi, getMsg, Nat.testBit_land, Nat.testBit_lor, Nat.testBit_xor]
      cases ha : a.testBit i <;> cases hdn : dn.testBit i <;>
        cases hF : K.CAN_MSGID_FULL_M.testBit i <;>
        cases hD : K.CAN_MSGID_DEVNO_M.testBit i <;> simp_all
    · apply Nat.eq_of_testBit_eq
      intro i
      have h1i := h1 i
      have h3i := h3 i
      simp only [getDeviceNumber, getMsg, Nat.testBit_land, Nat.testBit_lor]
      cases ha : a.testBit i <;> cases hdn : dn.testBit i <;>
        cases hD : K.CAN_MSGID_DEVNO_M.testBit i <;> simp_all
  · intro m
    apply Nat.eq_of_testBit_eq
    intro i
    have hDFi := hDF i
    simp only [getApi, getDeviceNumber, Nat.testBit_land, Nat.testBit_xor, Nat.zero_testBit]
    cases hm : m.id.testBit i <;> cases hF : K.CAN_MSGID_FULL_M.testBit i <;>
      cases hD : K.CAN_MSGID_DEVNO_M.testBit i <;> simp_all
  · intro m hmF
    have h2 := testBit_of_land_eq _ _ hmF
    apply Nat.eq_of_testBit_eq
    intro i
    have hDFi := hDF i
    have h2i := h2 i
    simp only [getApi, getDeviceNumber, Nat.testBit_land, Nat.testBit_xor, Nat.testBit_lor]
    cases hm : m.id.testBit i <;> cases hF : K.CAN_MSGID_FULL_M.testBit i <;>
      cases hD : K.CAN_MSGID_DEVNO_M.testBit i <;> simp_all

/-- Witness for C15: with the constants `lmProto`, the power-status request for
device 3. -/
theorem identifier_decodes_back_witness :
    lmProto.CAN_MSGID_DEVNO_M &&& lmProto.CAN_MSGID_FULL_M = lmProto.CAN_MSGID_DEVNO_M ∧
      getApi lmProto (getMsg (lmProto.LM_API_STATUS_POWER ||| 3)) = lmProto.LM_API_STATUS_POWER ∧
      getDeviceNumber lmProto (getMsg (lmProto.LM_API_STATUS_POWER ||| 3)) = 3 :=
  ⟨by decide,
    (identifier_decodes_back lmProto (by decide)).1 lmProto.LM_API_STATUS_POWER 3
      (by decide) (by decide) (by decide)⟩

/-- C16: for a value `x` whose product with 65536, truncated toward zero, is
in the signed 32-bit range, `sendFixed16x16(id, x)` queues exactly one frame: its
identifier is `id`, its payload length 4, its bytes 0..3 the little-endian
two's-complement bytes of the truncated product and its bytes 4..7 zero. -/
theorem sendFixed16x16_truncates (id : Nat) (x : ℚ)
    (hr : -2147483648 ≤ truncTowardZero (x * 65536) ∧
      truncTowardZero (x * 65536) ≤ 2147483647) :
    ∃ f : Frame, sendFixed16x16 id x = some [f] ∧ f.id = id ∧ f.dlc = 4 ∧
      f.is_extended = true ∧
      f.data = [leByte (truncTowardZero (x * 65536)) 0, leByte (truncTowardZero (x * 65536)) 1,
        leByte (truncTowardZero (x * 65536)) 2, leByte (truncTowardZero (x * 65536)) 3,
        0, 0, 0, 0] := by
  refine ⟨_, by rw [sendFixed16x16, toFixed16x16_eq x hr, Option.map_some'], rfl, rfl, rfl, ?_⟩
  simp [int32Bytes_eq]

/-- Witness for C16: 2.0 is sent as 00 00 02 00 (131072), and 1.999999 as
ff ff 01 00 (131071, not 131072). -/
theorem sendFixed16x16_truncates_witness :
    (∃ f : Frame, sendFixed16x16 7 2 = some [f] ∧ f.dlc = 4 ∧
      f.data = [0, 0, 2, 0, 0, 0, 0, 0]) ∧
    (∃ f : Frame, sendFixed16x16 7 (mkRat 1999999 1000000) = some [f] ∧ f.dlc = 4 ∧
      f.data = [255, 255, 1, 0, 0, 0, 0, 0]) ∧
    truncTowardZero (mkRat 1999999 1000000 * 65536) = 131071 := by
  have h2 : truncTowardZero ((2 : ℚ) * 65536) = 131072 := by
    rw [truncTowardZero_mul_65536]; decide
  have h1 : truncTowardZero (mkRat 1999999 1000000 * 65536) = 131071 := by
    rw [truncTowardZero_mul_65536]; decide
  obtain ⟨f, hf, -, hd, -, hdata⟩ := sendFixed16x16_truncates 7 2 (by rw [h2]; decide)
  obtain ⟨g, hg, -, hgd, -, hgdata⟩ := sendFixed16x16_truncates 7 (mkRat 1999999 1000000)
    (by rw [h1]; decide)
  rw [h2] at hdata
  rw [h1] at hgdata
  exact ⟨⟨f, hf, hd, by rw [hdata]; decide⟩, ⟨g, hg, hgd, by rw [hgdata]; decide⟩, h1⟩

/-- C17: for a value `x` within the 16.16 range, `verifyRaw16x16(r, x)` is
defined and holds exactly when `r[0..3]` are the little-endian bytes of the
product with 65536 truncated toward zero; it holds for the payload that
`sendFixed16x16` emits for `x`, and fails for every byte sequence that differs
from such a payload in exactly one of the four bytes. -/
theorem verifyRaw16x16_byte_exact (x : ℚ)
    (hr : -2147483648 ≤ truncTowardZero (x * 65536) ∧
      truncTowardZero (x * 65536) ≤ 2147483647) :
    (∀ r : List Nat, verifyRaw16x16 r x = some true ↔
      ∀ k < 4, r.getD k 0 = leByte (truncTowardZero (x * 65536)) k) ∧
    (∀ r : List Nat, ∃ b, verifyRaw16x16 r x = some b) ∧
    (∀ (id : Nat) (f : Frame), sendFixed16x16 id x = some [f] →
      verifyRaw16x16 f.data x = some true) ∧
    (∀ (id : Nat) (f : Frame) (r : List Nat), sendFixed16x16 id x = some [f] →
      (∃ j < 4, r.getD j 0 ≠ f.data.getD j 0 ∧ ∀ k < 4, k ≠ j → r.getD k 0 = f.data.getD k 0) →
      verifyRaw16x16 r x = some false) := by
  have ht := toFixed16x16_eq x hr
  have hv := fun r => verifyRaw16x16_of_toFixed r x _ ht
  have hsend : ∀ (id : Nat) (f : Frame), sendFixed16x16 id x = some [f] →
      ∀ k < 4, f.data.getD k 0 = leByte (truncTowardZero (x * 65536)) k := by
    intro id f hf k hk
    rw [sendFixed16x16, ht, Option.map_some'] at hf
    simp only [Option.some.injEq, List.cons.injEq, and_true] at hf
    subst hf
    simp only [int32Bytes_eq]
    interval_cases k <;> rfl
  refine ⟨fun r => ?_, fun r => ?_, fun id f hf => ?_, fun id f r hf hdiff => ?_⟩
  · obtain ⟨b, hb, hiff⟩ := hv r
    rw [hb, Option.some.injEq]
    exact hiff
  · obtain ⟨b, hb, -⟩ := hv r
    exact ⟨b, hb⟩
  · obtain ⟨b, hb, hiff⟩ := hv f.data
    rw [hb, Option.some.injEq]
    exact hiff.mpr (hsend id f hf)
  · obtain ⟨b, hb, hiff⟩ := hv r
    obtain ⟨j, hj, hne, -⟩ := hdiff
    rw [hb, Option.some.injEq]
    cases b
    · rfl
    · exact absurd (by rw [hiff.mp rfl j hj, hsend id f hf j hj]) hne

/-- Witness for C17: the payload of gain 1.0 verifies against 1.0, and the same
payload with byte 2 changed from 1 to 3 does not. -/
theorem verifyRaw16x16_byte_exact_witness :
    verifyRaw16x16 [0, 0, 1, 0, 0, 0, 0, 0] 1 = some true ∧
      verifyRaw16x16 [0, 0, 3, 0, 0, 0, 0, 0] 1 = some false := by
  have h1 : truncTowardZero ((1 : ℚ) * 65536) = 65536 := by
    rw [truncTowardZero_mul_65536]; decide
  have h := verifyRaw16x16_byte_exact 1 (by rw [h1]; decide)
  have hs : sendFixed16x16 7 1 = some [{ getMsg 7 with
      dlc := 4, data := [0, 0, 1, 0, 0, 0, 0, 0] }] := by decide
  exact ⟨h.2.2.1 7 _ hs, h.2.2.2 7 _ [0, 0, 3, 0, 0, 0, 0, 0] hs ⟨2, by decide, by decide,
    by decide⟩⟩

/-- C18: for every status quantity with a `received*` and a `last*` accessor:
once `processMessage` has stored a frame in the slot of the quantity, the
`received*` accessor reports true; a `last*` call clears the received flag of
that slot whatever it was, leaves the data bytes of the slot, every other slot
and every other member as they were; a second `last*` call without a new frame
returns the same value as the first, and `received*` then reports false. -/
theorem last_clears_received_flag (K : Proto) (q : StatusQuantity) (d : Driver) :
    (∀ m : Frame, getDeviceNumber K m = d.device_number_ → m.dlc ≠ 0 →
      processMessageField K (getApi K m) = some (q.slot K) →
      q.received K (processMessage K d m) = true) ∧
    q.received K (q.last K d).2 = false ∧
    ((q.last K d).2.cache.get (q.slot K)).data = (d.cache.get (q.slot K)).data ∧
    (∀ r : FieldRef, r ≠ q.slot K → (q.last K d).2.cache.get r = d.cache.get r) ∧
    SameSettings d (q.last K d).2 ∧
    (q.last K d).2.state_ = d.state_ ∧ (q.last K d).2.configured_ = d.configured_ ∧
    (q.last K (q.last K d).2).1 = (q.last K d).1 ∧
    q.received K (q.last K (q.last K d).2).2 = false := by
  have hdata : ((q.last K d).2.cache.get (q.slot K)).data = (d.cache.get (q.slot K)).data := by
    rw [statusQuantity_last_snd]; exact clearReceived_data d _ _
  have hflag : ∀ e : Driver, q.received K (q.last K e).2 = false := by
    intro e
    rw [statusQuantity_received_eq, statusQuantity_last_snd, clearReceived_get, if_pos rfl]
  refine ⟨?_, hflag d, hdata, ?_, ?_, ?_, ?_, ?_, hflag _⟩
  · intro m ha hd hr
    rw [statusQuantity_received_eq, processMessage_stored K d m _ ha hd hr]
    simp only [cache_get_set, if_true]
  · intro r hr
    rw [statusQuantity_last_snd, clearReceived_get, if_neg hr]
  · rw [statusQuantity_last_snd]; exact (clearReceived_settings d _).1
  · rw [statusQuantity_last_snd]; exact (clearReceived_settings d _).2.1
  · rw [statusQuantity_last_snd]; exact (clearReceived_settings d _).2.2
  · exact statusQuantity_last_fst_congr K q _ _ hdata

/-- Witness for C18: with the constants `lmProto`, a power-status frame with
first byte 1 is stored; `receivedPower` reports true, `lastPower` returns 1 and
clears the flag, a second `lastPower` returns 1 again. -/
theorem last_clears_received_flag_witness :
    receivedPower lmProto poweredDriver = true ∧
      (lastPower lmProto poweredDriver).1 = 1 ∧
      receivedPower lmProto (lastPower lmProto poweredDriver).2 = false ∧
      (StatusQuantity.last lmProto .Power
        (StatusQuantity.last lmProto .Power poweredDriver).2).1 = 1 := by
  have h := last_clears_received_flag lmProto .Power (Driver.new lmProto 3 Cache.zero)
  have h1 := h.1 shortPowerFrame (by decide) (by decide) (by decide)
  have h2 := last_clears_received_flag lmProto .Power poweredDriver
  have hv : (StatusQuantity.last lmProto .Power poweredDriver).1 = 1 := by
    show (((lastPower lmProto poweredDriver).1 : ℕ) : ℚ) = 1
    have : (lastPower lmProto poweredDriver).1 = 1 := by decide
    rw [this]; rfl
  exact ⟨h1, by decide, h2.2.1, h2.2.2.2.2.2.2.2.1.trans hv⟩

/-- C19: each `received*` accessor returns the received flag of its slot;
`receivedSetpoint` returns the flag of the setpoint slot of the active control
mode (false when the mode is none of the four); no accessor assigns a member, so
the driver after the call is the driver before it and a second call gives the
same answer. -/
theorem received_accessors_peek (K : Proto) (d : Driver) :
    receivedDutyCycle K d = (d.cache.get
      (statusFieldForMessage K (getApi K (getMsg K.LM_API_STATUS_VOLTOUT)))).received ∧
    receivedBusVoltage K d = (d.cache.get
      (statusFieldForMessage K (getApi K (getMsg K.LM_API_STATUS_VOLTBUS)))).received ∧
    receivedCurrent K d = (d.cache.get
      (statusFieldForMessage K (getApi K (getMsg K.LM_API_STATUS_CURRENT)))).received ∧
    receivedPosition K d = (d.cache.get
      (statusFieldForMessage K (getApi K (getMsg K.LM_API_STATUS_POS)))).received ∧
    receivedSpeed K d = (d.cache.get
      (statusFieldForMessage K (getApi K (getMsg K.LM_API_STATUS_SPD)))).received ∧
    receivedFault K d = (d.cache.get
      (statusFieldForMessage K (getApi K (getMsg K.LM_API_STATUS_FAULT)))).received ∧
    receivedPower K d = (d.cache.get
      (statusFieldForMessage K (getApi K (getMsg K.LM_API_STATUS_POWER)))).received ∧
    receivedMode K d = (d.cache.get
      (statusFieldForMessage K (getApi K (getMsg K.LM_API_STATUS_CMODE)))).received ∧
    receivedOutVoltage K d = (d.cache.get
      (statusFieldForMessage K (getApi K (getMsg K.LM_API_STATUS_VOUT)))).received ∧
    receivedTemperature K d = (d.cache.get
      (statusFieldForMessage K (getApi K (getMsg K.LM_API_STATUS_TEMP)))).received ∧
    receivedAnalogInput K d = (d.cache.get
      (statusFieldForMessage K (getApi K (getMsg K.CPR_API_STATUS_ANALOG)))).received ∧
    receivedSpeedSetpoint K d = (d.cache.get
      (spdFieldForMessage K (getApi K (getMsg K.LM_API_SPD_SET)))).received ∧
    receivedDutyCycleSetpoint K d = (d.cache.get
      (voltageFieldForMessage K (getApi K (getMsg K.LM_API_VOLT_SET)))).received ∧
    receivedCurrentSetpoint K d = (d.cache.get
      (ictrlFieldForMessage K (getApi K (getMsg K.LM_API_ICTRL_SET)))).received ∧
    receivedPositionSetpoint K d = (d.cache.get
      (posFieldForMessage K (getApi K (getMsg K.LM_API_POS_SET)))).received ∧
    (K.ModesDistinct →
      (d.control_mode_ = K.MODE_CURRENT → receivedSetpoint K d = receivedCurrentSetpoint K d) ∧
      (d.control_mode_ = K.MODE_POSITION →
        receivedSetpoint K d = receivedPositionSetpoint K d) ∧
      (d.control_mode_ = K.MODE_SPEED → receivedSetpoint K d = receivedSpeedSetpoint K d) ∧
      (d.control_mode_ = K.MODE_VOLTAGE →
        receivedSetpoint K d = receivedDutyCycleSetpoint K d) ∧
      (d.control_mode_ ≠ K.MODE_CURRENT → d.control_mode_ ≠ K.MODE_POSITION →
        d.control_mode_ ≠ K.MODE_SPEED → d.control_mode_ ≠ K.MODE_VOLTAGE →
        receivedSetpoint K d = false)) ∧
    step K d .received = some d ∧
    ((step K d .received).bind fun d1 => step K d1 .received) = some d := by
  refine ⟨rfl, rfl, rfl, rfl, rfl, rfl, rfl, rfl, rfl, rfl, rfl, rfl, rfl, rfl, rfl, ?_, rfl,
    rfl⟩
  rintro ⟨h1, h2, h3, h4, h5, h6⟩
  refine ⟨?_, ?_, ?_, ?_, ?_⟩
  · intro h; simp [receivedSetpoint, h]
  · intro h; simp [receivedSetpoint, h, Ne.symm h4]
  · intro h; simp [receivedSetpoint, h, Ne.symm h5, Ne.symm h6]
  · intro h; simp [receivedSetpoint, h, h1, h2, h3]
  · intro a b c e; simp [receivedSetpoint, a, b, c, e]

/-- Witness for C19: with the constants `lmProto`, on a Speed-mode driver that
has received a power-status frame `receivedPower` is true and
`receivedSetpoint` is the flag of the speed setpoint slot, which is false. -/
theorem received_accessors_peek_witness :
    lmProto.ModesDistinct ∧ receivedPower lmProto poweredDriver = true ∧
      receivedSetpoint lmProto poweredDriver = receivedSpeedSetpoint lmProto poweredDriver ∧
      receivedSetpoint lmProto poweredDriver = false :=
  ⟨by decide, by decide,
    ((received_accessors_peek lmProto poweredDriver).2.2.2.2.2.2.2.2.2.2.2.2.2.2.2.1
      (by decide)).2.2.1 (by decide),
    by decide⟩

/-- C20 on the code: with the constants `lmProto`, a fresh driver switched to
Voltage mode reaches Configured (first part); `setGains` then puts it in state
PGain while the control mode is still Voltage, so the mode is none of Current,
Position, Speed, `getRawP` selects no slot and the next `verifyParams` call is
undefined (second part). -/
theorem gain_state_reached_in_voltage_mode :
    (run lmProto (Driver.new lmProto 3 Cache.zero) (voltageThenGains.take 12)).map
        (fun d => (d.state_, d.configured_, d.control_mode_))
      = some (.Configured, true, lmProto.MODE_VOLTAGE) ∧
    (run lmProto (Driver.new lmProto 3 Cache.zero) voltageThenGains).map
        (fun d => (d.state_, d.control_mode_, decide (ClosedLoopMode lmProto d),
          (getRawP lmProto d).isSome, (verifyParams lmProto d).isSome))
      = some (.PGain, lmProto.MODE_VOLTAGE, false, false, false) := by
  decide

/-- C23: in state Configured both `verifyParams` and `configureParams` return
the driver unchanged (state, configured flag, cache and every other member) and
queue no frame; and of all calls only `setGains`, the gain-less `setMode` with
mode Voltage and the `setMode` with gains can leave Configured. -/
theorem Configured_is_terminal (K : Proto) (d : Driver) (hs : d.state_ = .Configured) :
    verifyParams K d = some (d, []) ∧ configureParams K d = some (d, []) ∧
    (∀ (op : Op) (d1 : Driver), step K d op = some d1 → d1.state_ ≠ .Configured →
      (∃ p i d', op = .setGains p i d') ∨ op = .setMode K.MODE_VOLTAGE ∨
        (∃ m p i d', op = .setModeGains m p i d')) := by
  have hv : verifyParams K d = some (d, []) := by
    simp [verifyParams, verifyParamsSwitch, hs, verifyParamsTail]
  have hc : configureParams K d = some (d, []) := by
    simp [configureParams, hs]
  refine ⟨hv, hc, ?_⟩
  intro op d1 hstep hne
  have ha := accessor_onlyCache K d
  cases op <;> simp only [step, Option.some.injEq, Option.map_eq_some'] at hstep
  case verifyParams =>
    rw [hv] at hstep
    obtain ⟨r, hr, rfl⟩ := hstep
    simp only [Option.some.injEq] at hr
    subst hr
    exact absurd hs hne
  case configureParams =>
    rw [hc] at hstep
    obtain ⟨r, hr, rfl⟩ := hstep
    simp only [Option.some.injEq] at hr
    subst hr
    exact absurd hs hne
  case processMessage m =>
    subst hstep
    exact absurd ((processMessage_settings K d m).2.1.trans hs) hne
  case setGains p i d' => exact Or.inl ⟨p, i, d', rfl⟩
  case setMode mode =>
    subst hstep
    by_cases hm : mode = K.MODE_VOLTAGE
    · subst hm; exact Or.inr (Or.inl rfl)
    · exact absurd (by simp [setMode, hm, hs]) hne
  case setModeGains m p i d' => exact Or.inr (Or.inr ⟨m, p, i, d', rfl⟩)
  case setEncoderCPR n => subst hstep; exact absurd hs hne
  case setGearRatio n => subst hstep; exact absurd hs hne
  case received => subst hstep; exact absurd hs hne
  all_goals
    subst hstep
    refine absurd ?_ hne
    simp only [ha]
    exact hs

/-- Witness for C23: the configured Speed-mode driver. -/
theorem Configured_is_terminal_witness :
    configuredSpeedDriver.state_ = .Configured ∧
      verifyParams lmProto configuredSpeedDriver = some (configuredSpeedDriver, []) ∧
      configureParams lmProto configuredSpeedDriver = some (configuredSpeedDriver, []) :=
  ⟨rfl, (Configured_is_terminal lmProto configuredSpeedDriver rfl).1,
    (Configured_is_terminal lmProto configuredSpeedDriver rfl).2.1⟩

/-- C25: a `verifyParams` call has a result in every state other than a gain
state, and in a gain state with a closed-loop mode and gains in the 16.16 range;
the call never changes the data bytes of a field slot; in state PowerFlag it
clears the received flag of the power-status slot, in states ClosedLoop and
ControlMode that of the control-mode-status slot, and leaves every other slot
as it was; in every other state the cache after the call is the cache before
it. -/
theorem verifyParams_cache_effect (K : Proto) (d : Driver) :
    (d.state_.isGain = false ∨ (ClosedLoopMode K d ∧ GainsInRange d) →
      ∃ r, verifyParams K d = some r) ∧
    ∀ r : Driver × List Frame, verifyParams K d = some r →
    (∀ ref : FieldRef, (r.1.cache.get ref).data = (d.cache.get ref).data) ∧
    (d.state_ = .PowerFlag →
      (r.1.cache.get (powerStatusSlot K)).received = false ∧
      ∀ ref : FieldRef, ref ≠ powerStatusSlot K → r.1.cache.get ref = d.cache.get ref) ∧
    (d.state_ = .ClosedLoop ∨ d.state_ = .ControlMode →
      (r.1.cache.get (modeStatusSlot K)).received = false ∧
      ∀ ref : FieldRef, ref ≠ modeStatusSlot K → r.1.cache.get ref = d.cache.get ref) ∧
    (d.state_ ≠ .PowerFlag → d.state_ ≠ .ClosedLoop → d.state_ ≠ .ControlMode →
      r.1.cache = d.cache) := by
  constructor
  · intro hdef
    have hsw : ∃ r, verifyParamsSwitch K d = some r := by
      rcases hdef with hg | ⟨hm, hr⟩
      · exact verifyParamsSwitch_isSome_plain K d hg
      · exact verifyParamsSwitch_isSome K d hm hr
    obtain ⟨r, hr⟩ := hsw
    exact ⟨_, by rw [verifyParams, hr, Option.map_some']⟩
  intro r h
  simp only [verifyParams, Option.map_eq_some'] at h
  obtain ⟨r1, hr1, rfl⟩ := h
  have hc := verifyParamsSwitch_cache K d r1 hr1
  have hcache : (verifyParamsTail r1.1).cache = if d.state_ = .PowerFlag then
      (clearReceived d (powerStatusSlot K)).cache
      else if d.state_ = .ClosedLoop ∨ d.state_ = .ControlMode then
        (clearReceived d (modeStatusSlot K)).cache
      else d.cache := by
    rw [verifyParamsTail_cache]; exact hc
  refine ⟨?_, ?_, ?_, ?_⟩
  · intro ref
    show ((verifyParamsTail r1.1).cache.get ref).data = _
    rw [hcache]
    split_ifs
    · exact clearReceived_data d _ _
    · exact clearReceived_data d _ _
    · rfl
  · intro hs
    show ((verifyParamsTail r1.1).cache.get _).received = false ∧
      ∀ ref, ref ≠ _ → (verifyParamsTail r1.1).cache.get ref = _
    rw [hcache, if_pos hs]
    refine ⟨by rw [clearReceived_get, if_pos rfl], fun ref hne => ?_⟩
    rw [clearReceived_get, if_neg hne]
  · intro hs
    have hnp : d.state_ ≠ .PowerFlag := by
      rcases hs with hs | hs <;> rw [hs] <;> decide
    show ((verifyParamsTail r1.1).cache.get _).received = false ∧
      ∀ ref, ref ≠ _ → (verifyParamsTail r1.1).cache.get ref = _
    rw [hcache, if_neg hnp, if_pos hs]
    refine ⟨by rw [clearReceived_get, if_pos rfl], fun ref hne => ?_⟩
    rw [clearReceived_get, if_neg hne]
  · intro h1 h2 h3
    show (verifyParamsTail r1.1).cache = _
    rw [hcache, if_neg h1, if_neg (by tauto)]

/-- Witness for C25: with the constants `lmProto`, `verifyParams` on a driver in
state PowerFlag that has received a power-status frame clears the flag of that
slot and keeps its bytes. -/
theorem verifyParams_cache_effect_witness :
    ∃ r, verifyParams lmProto { poweredDriver with state_ := .PowerFlag } = some r ∧
      (r.1.cache.get (powerStatusSlot lmProto)).received = false ∧
      (r.1.cache.get (powerStatusSlot lmProto)).data = [1, 0, 0, 0, 0, 0, 0, 0] ∧
      receivedPower lmProto poweredDriver = true := by
  obtain ⟨r, h⟩ := (verifyParams_cache_effect lmProto
    { poweredDriver with state_ := .PowerFlag }).1 (Or.inl rfl)
  have hc := (verifyParams_cache_effect lmProto _).2 r h
  refine ⟨r, h, (hc.2.1 rfl).1, ?_, by decide⟩
  rw [hc.1]
  decide

/-- C22: `configureParams` returns the driver unchanged (all members and the
telemetry cache) and queues at most one frame, whenever the gain conversion
is defined (a gain state with a closed-loop mode needs gains in the 16.16
range). It queues exactly one frame, whose device-number field is the
driver's own device number, in `PowerFlag`, `EncoderPosRef`, `EncoderSpdRef`,
`EncoderCounts`, `ClosedLoop`, in `ControlMode` with one of the four control
modes, and in a gain state with a closed-loop mode; it queues none in
`Initializing`, `VerifiedParameters` and `Configured`. -/
theorem configureParams_queues_at_most_one (K : Proto) (d : Driver)
    (hK : K.CodesWithoutDeviceBits)
    (hdev : d.device_number_ &&& K.CAN_MSGID_DEVNO_M = d.device_number_)
    (hr : d.state_.isGain = true → ClosedLoopMode K d → GainsInRange d) :
    ∃ out, configureParams K d = some (d, out) ∧ out.length ≤ 1 ∧
      ((d.state_ = .PowerFlag ∨ d.state_ = .EncoderPosRef ∨ d.state_ = .EncoderSpdRef ∨
          d.state_ = .EncoderCounts ∨ d.state_ = .ClosedLoop ∨
          (d.state_ = .ControlMode ∧
            (d.control_mode_ = K.MODE_VOLTAGE ∨ ClosedLoopMode K d)) ∨
          (d.state_.isGain = true ∧ ClosedLoopMode K d)) →
        ∃ f, out = [f] ∧ getDeviceNumber K f = d.device_number_) ∧
      ((d.state_ = .Initializing ∨ d.state_ = .VerifiedParameters ∨
          d.state_ = .Configured) → out = []) := by
  cases hg : d.state_.isGain
  · obtain ⟨out, ho, h1, h2⟩ := configureParams_plain_out K d hg
    refine ⟨out, ho, ?_, ?_, ?_⟩
    · by_cases hone : OneConfigureFrame K d out
      · obtain ⟨f, c, rfl, -, -⟩ := hone
        simp
      · have : out = [] := by
          apply h2
          by_contra hn
          apply hone
          apply h1
          cases hs : d.state_ <;> simp_all [ConfigurationState.isGain]
        simp [this]
    · intro hst
      apply oneConfigureFrame_device K d out hK hdev
      apply h1
      rcases hst with h | h | h | h | h | ⟨h, hmode⟩ | ⟨h, -⟩
      · simp [h]
      · simp [h]
      · simp [h]
      · simp [h]
      · simp [h]
      · simp only [h, true_and]
        simp [hmode]
      · exact absurd h (by decide)
    · intro hst
      apply h2
      rcases hst with h | h | h <;> simp [h]
  · obtain ⟨out, ho⟩ := configureParams_gain_isSome K d hg (hr hg)
    obtain ⟨h1, h2⟩ := configureParams_gain_out K d (d, out) ho hg
    refine ⟨out, ho, ?_, ?_, ?_⟩
    · by_cases hm : ClosedLoopMode K d
      · obtain ⟨f, c, hf, -, -⟩ := h1 hm
        simp only at hf
        simp [hf]
      · have := h2 hm
        simp only at this
        simp [this]
    · intro hst
      apply oneConfigureFrame_device K d out hK hdev
      apply h1
      rcases hst with h | h | h | h | h | h | h
      all_goals first
        | exact h.2
        | (rw [h] at hg; exact absurd hg (by decide))
        | (rw [h.1] at hg; exact absurd hg (by decide))
    · intro hst
      rcases hst with h | h | h <;> (rw [h] at hg; exact absurd hg (by decide))

/-- Witness for C22: a driver in `PGain` with Speed mode and the constructor's
gains, device number 3. -/
theorem configureParams_queues_at_most_one_witness :
    ∃ out, configureParams lmProto pGainSpeedDriver = some (pGainSpeedDriver, out) ∧
      out.length ≤ 1 ∧
      ((pGainSpeedDriver.state_ = .PowerFlag ∨ pGainSpeedDriver.state_ = .EncoderPosRef ∨
          pGainSpeedDriver.state_ = .EncoderSpdRef ∨
          pGainSpeedDriver.state_ = .EncoderCounts ∨ pGainSpeedDriver.state_ = .ClosedLoop ∨
          (pGainSpeedDriver.state_ = .ControlMode ∧
            (pGainSpeedDriver.control_mode_ = lmProto.MODE_VOLTAGE ∨
              ClosedLoopMode lmProto pGainSpeedDriver)) ∨
          (pGainSpeedDriver.state_.isGain = true ∧ ClosedLoopMode lmProto pGainSpeedDriver)) →
        ∃ f, out = [f] ∧ getDeviceNumber lmProto f = pGainSpeedDriver.device_number_) ∧
      ((pGainSpeedDriver.state_ = .Initializing ∨
          pGainSpeedDriver.state_ = .VerifiedParameters ∨
          pGainSpeedDriver.state_ = .Configured) → out = []) :=
  configureParams_queues_at_most_one lmProto pGainSpeedDriver (by decide) (by decide)
    (fun _ _ => by decide)

/-- C21: in a gain state, with a closed-loop mode and gains inside the 16.16
range, `configureParams` queues one command frame (dlc 4, eight data bytes);
`verifyParams` on the same driver is defined and, when the check fails (the
state stays), queues the request frame with the same identifier; and when a
frame with the identifier and data bytes of the command frame and dlc 4 is
handed to `processMessage`, the next `verifyParams` call queues nothing and
advances to the ladder successor of the gain state: IGain after PGain, DGain
after IGain, and after DGain the successor VerifiedParameters, which the same
call turns into Configured. -/
theorem configure_and_verify_agree_on_gains (K : Proto) (classMask : Nat)
    (hK : K.GroupCodesExclusive classMask) (hL : K.GainCodesInGroups classMask)
    (hM : K.CAN_MSGID_DEVNO_M &&& K.CAN_MSGID_FULL_M = K.CAN_MSGID_DEVNO_M)
    (d : Driver) (hdev : d.device_number_ &&& K.CAN_MSGID_DEVNO_M = d.device_number_)
    (hg : d.state_.isGain = true) (hm : ClosedLoopMode K d) (hr : GainsInRange d) :
    ∃ f : Frame, configureParams K d = some (d, [f]) ∧ f.dlc = 4 ∧ f.data.length = 8 ∧
      (∃ r, verifyParams K d = some r ∧ (r.1.state_ = d.state_ → r.2 = [getMsg f.id])) ∧
      ∀ e : Frame, e.id = f.id → e.data = f.data → e.dlc = 4 →
        ∃ d2 s, verifyParams K (processMessage K d e) = some (d2, []) ∧
          LadderSucc d.state_ s ∧
          d2 = verifyParamsTail { processMessage K d e with state_ := s } ∧
          (d.state_ = .PGain → d2.state_ = .IGain) ∧
          (d.state_ = .IGain → d2.state_ = .DGain) ∧
          (d.state_ = .DGain → d2.state_ = .Configured) := by
  obtain ⟨hp, hi, hd⟩ := hr
  cases hs : d.state_ <;> simp only [hs, ConfigurationState.isGain] at hg
  all_goals first
    | exact absurd hg (by decide)
    | skip
  · obtain ⟨t, ht⟩ := Option.isSome_iff_exists.mp hp
    obtain ⟨c, hcfg, hver, hecho⟩ :=
      verifyParams_PGain_echo K classMask hK hL hM d hdev hs hm t ht
    rw [hs] at hver
    refine ⟨_, hcfg, rfl, by simp [fixedFrame, int32Bytes], hver, ?_⟩
    intro e hid hdata hdlc
    refine ⟨_, .IGain, hecho e hid hdata (by rw [hdlc]; decide), by decide, rfl, ?_, ?_, ?_⟩ <;>
      simp [verifyParamsTail]
  · obtain ⟨t, ht⟩ := Option.isSome_iff_exists.mp hi
    obtain ⟨c, hcfg, hver, hecho⟩ :=
      verifyParams_IGain_echo K classMask hK hL hM d hdev hs hm t ht
    rw [hs] at hver
    refine ⟨_, hcfg, rfl, by simp [fixedFrame, int32Bytes], hver, ?_⟩
    intro e hid hdata hdlc
    refine ⟨_, .DGain, hecho e hid hdata (by rw [hdlc]; decide), by decide, rfl, ?_, ?_, ?_⟩ <;>
      simp [verifyParamsTail]
  · obtain ⟨t, ht⟩ := Option.isSome_iff_exists.mp hd
    obtain ⟨c, hcfg, hver, hecho⟩ :=
      verifyParams_DGain_echo K classMask hK hL hM d hdev hs hm t ht
    rw [hs] at hver
    refine ⟨_, hcfg, rfl, by simp [fixedFrame, int32Bytes], hver, ?_⟩
    intro e hid hdata hdlc
    refine ⟨_, .VerifiedParameters, hecho e hid hdata (by rw [hdlc]; decide), by decide, rfl,
      ?_, ?_, ?_⟩ <;>
      simp [verifyParamsTail]

/-- Witness for C21: the constants `lmProto` with class mask 0xfc00 and a
Speed-mode driver in state PGain with the constructor's gains, device 3. -/
theorem configure_and_verify_agree_on_gains_witness :
    ∃ f : Frame, configureParams lmProto pGainSpeedDriver = some (pGainSpeedDriver, [f]) ∧
      f.dlc = 4 ∧ f.data.length = 8 ∧
      (∃ r, verifyParams lmProto pGainSpeedDriver = some r ∧
        (r.1.state_ = pGainSpeedDriver.state_ → r.2 = [getMsg f.id])) ∧
      ∀ e : Frame, e.id = f.id → e.data = f.data → e.dlc = 4 →
        ∃ d2 s, verifyParams lmProto (processMessage lmProto pGainSpeedDriver e) =
            some (d2, []) ∧
          LadderSucc pGainSpeedDriver.state_ s ∧
          d2 = verifyParamsTail { processMessage lmProto pGainSpeedDriver e with state_ := s } ∧
          (pGainSpeedDriver.state_ = .PGain → d2.state_ = .IGain) ∧
          (pGainSpeedDriver.state_ = .IGain → d2.state_ = .DGain) ∧
          (pGainSpeedDriver.state_ = .DGain → d2.state_ = .Configured) :=
  configure_and_verify_agree_on_gains lmProto 0xfc00 (by decide) (by decide) (by decide)
    pGainSpeedDriver (by decide) (by decide) (by decide) (by decide)

/-- C26: for every 16-bit value `v`, `sendUint16` queues one frame with dlc 2
and data bytes (v mod 256, v div 256, 0, 0, 0, 0, 0, 0); `encoderCounts` on a
driver whose encoder-lines configuration slot holds those bytes returns `v`;
and when a frame with the identifier and data bytes of the frame
`configureParams` queues in state EncoderCounts (dlc 2) is handed to
`processMessage`, the next `verifyParams` call queues nothing and advances to
ClosedLoop. -/
theorem encoder_counts_round_trip (K : Proto) :
    (∀ id v : Nat, v < 65536 →
      sendUint16 id v =
        [{ getMsg id with dlc := 2, data := [v % 256, v / 256, 0, 0, 0, 0, 0, 0] }]) ∧
    (∀ (d : Driver) (v : Nat), v < 65536 →
      (d.cache.get (cfgFieldForMessage K (getApi K (getMsg K.LM_API_CFG_ENC_LINES)))).data =
        [v % 256, v / 256, 0, 0, 0, 0, 0, 0] →
      encoderCounts K d = v) ∧
    (∀ (classMask : Nat) (d : Driver), K.GroupCodesExclusive classMask →
      K.CodeInGroup classMask K.LM_API_CFG_ENC_LINES K.CAN_API_MC_CFG →
      K.CAN_MSGID_DEVNO_M &&& K.CAN_MSGID_FULL_M = K.CAN_MSGID_DEVNO_M →
      d.device_number_ &&& K.CAN_MSGID_DEVNO_M = d.device_number_ →
      d.state_ = .EncoderCounts → d.encoder_cpr_ < 65536 →
      ∃ f : Frame, configureParams K d = some (d, [f]) ∧ f.dlc = 2 ∧
        f.data = [d.encoder_cpr_ % 256, d.encoder_cpr_ / 256, 0, 0, 0, 0, 0, 0] ∧
        ∀ e : Frame, e.id = f.id → e.data = f.data → e.dlc = 2 →
          encoderCounts K (processMessage K d e) = d.encoder_cpr_ ∧
          verifyParams K (processMessage K d e) =
            some ({ processMessage K d e with state_ := .ClosedLoop }, [])) := by
  refine ⟨?_, ?_, ?_⟩
  · intro id v hv
    have h1 : v / 256 % 256 = v / 256 := Nat.mod_eq_of_lt (by omega)
    simp [sendUint16, h1]
  · intro d v hv hdata
    rw [encoderCounts_of_bytes K d _ _ _ hdata]
    have h1 : v / 256 % 256 = v / 256 := Nat.mod_eq_of_lt (by omega)
    have := uint16_of_bytes v hv
    rw [h1] at this
    exact this
  · intro classMask d hK hc hM hdev hs hv
    have h1 : d.encoder_cpr_ / 256 % 256 = d.encoder_cpr_ / 256 := Nat.mod_eq_of_lt (by omega)
    refine ⟨{ getMsg (K.LM_API_CFG_ENC_LINES ||| d.device_number_) with
              dlc := 2,
              data := [d.encoder_cpr_ % 256, d.encoder_cpr_ / 256 % 256, 0, 0, 0, 0, 0, 0] },
      ?_, rfl, by simp only [h1], ?_⟩
    · unfold configureParams sendUint16
      simp only [hs]
    · intro e hid hdata hdlc
      have hslot := processMessage_echo_data K classMask hK hM d hdev K.LM_API_CFG_ENC_LINES
        (K.CAN_API_MC_CFG, .cfg) (by simp [groupTables]) hc e hid (by rw [hdlc]; decide)
      rw [hdata] at hslot
      have henc : encoderCounts K (processMessage K d e) = d.encoder_cpr_ := by
        have hb := encoderCounts_of_bytes K (processMessage K d e) (d.encoder_cpr_ % 256)
          (d.encoder_cpr_ / 256 % 256)
          ([0, 0, 0, 0, 0, 0] ++ List.drop 8 (d.cache.get
            (cfgFieldForMessage K (getApi K (getMsg K.LM_API_CFG_ENC_LINES)))).data)
          (by unfold cfgFieldForMessage; rw [hslot]; simp [stdCopy])
        rw [hb]
        exact uint16_of_bytes _ hv
      refine ⟨henc, ?_⟩
      obtain ⟨⟨-, -, -, -, -, hcpr, -⟩, hst, -⟩ := processMessage_settings K d e
      unfold verifyParams verifyParamsSwitch
      simp only [hst, hs, henc, hcpr, if_true, Option.map_some', verifyParamsTail]
      simp

/-- Witness for C26: `sendUint16` and `encoderCounts` at the value 1024, and the
echo at the constants `lmProto` with class mask 0xfc00 for a driver with 1024
encoder counts. -/
theorem encoder_counts_round_trip_witness :
    sendUint16 7 1024 =
      [{ getMsg 7 with dlc := 2, data := [1024 % 256, 1024 / 256, 0, 0, 0, 0, 0, 0] }] ∧
    encoderCounts lmProto encoderLinesStored = 1024 ∧
    ∃ f : Frame, configureParams lmProto encoderCountsDriver = some (encoderCountsDriver, [f]) ∧
      f.dlc = 2 ∧
      f.data = [encoderCountsDriver.encoder_cpr_ % 256, encoderCountsDriver.encoder_cpr_ / 256,
        0, 0, 0, 0, 0, 0] ∧
      ∀ e : Frame, e.id = f.id → e.data = f.data → e.dlc = 2 →
        encoderCounts lmProto (processMessage lmProto encoderCountsDriver e) =
          encoderCountsDriver.encoder_cpr_ ∧
        verifyParams lmProto (processMessage lmProto encoderCountsDriver e) =
          some ({ processMessage lmProto encoderCountsDriver e with state_ := .ClosedLoop }, []) :=
  ⟨(encoder_counts_round_trip lmProto).1 7 1024 (by decide),
    (encoder_counts_round_trip lmProto).2.1 encoderLinesStored 1024 (by decide) (by decide),
    (encoder_counts_round_trip lmProto).2.2 0xfc00 encoderCountsDriver (by decide) (by decide)
      (by decide) (by decide) rfl (by decide)⟩

/-- C24: the factor `(60 * gear_ratio_) / (2 * M_PI)` of `commandSpeed` and the
factor `(2 * M_PI) / (gear_ratio_ * 60)` of `lastSpeed` and `statusSpeedGet`
multiply to 1 in every ordered field (the reals with π, the rationals with the
value of the constant `M_PI`) for a non-zero gear ratio and constant; and in
exact arithmetic, for a commanded speed `c` whose scaled value is inside the
16.16 range, `commandSpeed` queues one frame (dlc 4) for `LM_API_SPD_SET`, and
when a frame with its identifier and data bytes is handed to `processMessage`,
`statusSpeedGet` returns `trunc(c * k * 65536) / (65536 * k)` with
`k = 60 * gear_ratio_ / (2 * M_PI)`, which differs from `c` by less than
`1 / (65536 * |k|)`. -/
theorem speed_setpoint_round_trip :
    (∀ (F : Type) [LinearOrderedField F] (pi g : F), pi ≠ 0 → g ≠ 0 →
      radPerSecToRpm pi g * rpmToRadPerSec pi g = 1 ∧
      rpmToRadPerSec pi g * radPerSecToRpm pi g = 1) ∧
    (∀ (K : Proto) (classMask : Nat) (M_PI : ℚ) (d : Driver) (c : ℚ),
      K.GroupCodesExclusive classMask →
      K.CodeInGroup classMask K.LM_API_SPD_SET K.CAN_API_MC_SPD →
      K.CAN_MSGID_DEVNO_M &&& K.CAN_MSGID_FULL_M = K.CAN_MSGID_DEVNO_M →
      d.device_number_ &&& K.CAN_MSGID_DEVNO_M = d.device_number_ →
      M_PI ≠ 0 → d.gear_ratio_ ≠ 0 →
      (-2147483648 ≤ truncTowardZero (c * radPerSecToRpm M_PI d.gear_ratio_ * 65536) ∧
        truncTowardZero (c * radPerSecToRpm M_PI d.gear_ratio_ * 65536) ≤ 2147483647) →
      ∃ f : Frame, commandSpeed M_PI K d c = some [f] ∧
        f.id = K.LM_API_SPD_SET ||| d.device_number_ ∧ f.dlc = 4 ∧
        ∀ e : Frame, e.id = f.id → e.data = f.data → e.dlc = 4 →
          (statusSpeedGetRadPerSec M_PI K (processMessage K d e)).1 =
            (truncTowardZero (c * radPerSecToRpm M_PI d.gear_ratio_ * 65536) : ℚ) /
              (65536 * radPerSecToRpm M_PI d.gear_ratio_) ∧
          |(statusSpeedGetRadPerSec M_PI K (processMessage K d e)).1 - c| <
            1 / (65536 * |radPerSecToRpm M_PI d.gear_ratio_|)) := by
  refine ⟨?_, ?_⟩
  · intro F _ pi g hpi hg
    have h := radPerSecToRpm_mul_inv F pi g hpi hg
    exact ⟨h, by rw [mul_comm]; exact h⟩
  · intro K classMask M_PI d c hK hc hM hdev hpi hg hr
    have hinv := radPerSecToRpm_mul_inv ℚ M_PI d.gear_ratio_ hpi hg
    have hk : radPerSecToRpm M_PI d.gear_ratio_ ≠ 0 := left_ne_zero_of_mul_eq_one hinv
    have ht := toFixed16x16_eq (c * radPerSecToRpm M_PI d.gear_ratio_) hr
    refine ⟨fixedFrame (K.LM_API_SPD_SET ||| d.device_number_)
      (truncTowardZero (c * radPerSecToRpm M_PI d.gear_ratio_ * 65536)), ?_, rfl, rfl, ?_⟩
    · unfold commandSpeed sendFixed16x16 fixedFrame
      rw [ht, Option.map_some']
    · intro e hid hdata hdlc
      have hdec := statusSpeedGet_echo K classMask hK hc hM d hdev _ hr e hid hdata
        (by rw [hdlc]; decide)
      obtain ⟨⟨-, -, -, -, -, -, hgear⟩, -, -⟩ := processMessage_settings K d e
      have hval : (statusSpeedGetRadPerSec M_PI K (processMessage K d e)).1 =
          (truncTowardZero (c * radPerSecToRpm M_PI d.gear_ratio_ * 65536) : ℚ) /
            (65536 * radPerSecToRpm M_PI d.gear_ratio_) := by
        unfold statusSpeedGetRadPerSec
        simp only [hdec, hgear]
        rw [eq_div_iff (mul_ne_zero (by norm_num) hk)]
        calc _ = (truncTowardZero (c * radPerSecToRpm M_PI d.gear_ratio_ * 65536) : ℚ) *
              (radPerSecToRpm M_PI d.gear_ratio_ * rpmToRadPerSec M_PI d.gear_ratio_) := by
              ring
          _ = _ := by rw [hinv, mul_one]
      refine ⟨hval, ?_⟩
      rw [hval]
      have hb := abs_truncTowardZero_sub_lt (c * radPerSecToRpm M_PI d.gear_ratio_ * 65536)
      have hkpos : 0 < 65536 * |radPerSecToRpm M_PI d.gear_ratio_| :=
        mul_pos (by norm_num) (abs_pos.mpr hk)
      have heq : (truncTowardZero (c * radPerSecToRpm M_PI d.gear_ratio_ * 65536) : ℚ) /
            (65536 * radPerSecToRpm M_PI d.gear_ratio_) - c =
          ((truncTowardZero (c * radPerSecToRpm M_PI d.gear_ratio_ * 65536) : ℚ) -
            c * radPerSecToRpm M_PI d.gear_ratio_ * 65536) /
            (65536 * radPerSecToRpm M_PI d.gear_ratio_) := by
        field_simp
        ring
      rw [heq, abs_div, abs_mul, abs_of_pos (by norm_num : (0 : ℚ) < 65536)]
      exact div_lt_div_of_pos_right hb hkpos

/-- Witness for C24: the two factors over the reals with π and gear ratio 2,
and the round trip at the constants `lmProto` with class mask 0xfc00, the value
of the `double` constant `M_PI`, a fresh driver (gear ratio 1) and the
commanded speed 1 rad/s, which is sent as 625822 / 65536 rpm. -/
theorem speed_setpoint_round_trip_witness :
    radPerSecToRpm Real.pi (2 : ℝ) * rpmToRadPerSec Real.pi 2 = 1 ∧
    truncTowardZero
      (1 * radPerSecToRpm piDouble (Driver.new lmProto 3 Cache.zero).gear_ratio_ * 65536) =
        625822 ∧
    ∃ f : Frame, commandSpeed piDouble lmProto (Driver.new lmProto 3 Cache.zero) 1 = some [f] ∧
      f.id = lmProto.LM_API_SPD_SET ||| (Driver.new lmProto 3 Cache.zero).device_number_ ∧
      f.dlc = 4 ∧
      ∀ e : Frame, e.id = f.id → e.data = f.data → e.dlc = 4 →
        (statusSpeedGetRadPerSec piDouble lmProto
            (processMessage lmProto (Driver.new lmProto 3 Cache.zero) e)).1 =
          (truncTowardZero (1 * radPerSecToRpm piDouble
              (Driver.new lmProto 3 Cache.zero).gear_ratio_ * 65536) : ℚ) /
            (65536 * radPerSecToRpm piDouble (Driver.new lmProto 3 Cache.zero).gear_ratio_) ∧
        |(statusSpeedGetRadPerSec piDouble lmProto
            (processMessage lmProto (Driver.new lmProto 3 Cache.zero) e)).1 - 1| <
          1 / (65536 * |radPerSecToRpm piDouble
            (Driver.new lmProto 3 Cache.zero).gear_ratio_|) := by
  have ht : truncTowardZero
      (1 * radPerSecToRpm piDouble (Driver.new lmProto 3 Cache.zero).gear_ratio_ * 65536) =
        625822 := by
    have hx : 1 * radPerSecToRpm piDouble (Driver.new lmProto 3 Cache.zero).gear_ratio_ *
        65536 = (553402322211286548480 : ℚ) / 884279719003555 := by
      simp only [Driver.new, radPerSecToRpm, piDouble, Rat.mkRat_eq_div]
      norm_num
    rw [hx]
    unfold truncTowardZero
    rw [if_pos (by norm_num), Int.floor_eq_iff]
    constructor <;> norm_num
  exact ⟨(speed_setpoint_round_trip.1 ℝ Real.pi 2 Real.pi_ne_zero two_ne_zero).1, ht,
    speed_setpoint_round_trip.2 lmProto 0xfc00 piDouble (Driver.new lmProto 3 Cache.zero) 1
      (by decide) (by decide) (by decide) (by decide) (by decide) (by decide)
      (by rw [ht]; decide)⟩

end puma_motor_driver
